import Mathlib

/-! GENIE2ART: translation between generator event records and truth records

A shallow embedding of `nugen/EventGeneratorBase/GENIE/GENIE2ART.cxx`
(`evgb::FillMCTruth`, `evgb::FillGTruth`, `evgb::RetrieveGHEP`, `evgb::FillMCFlux`).

Conventions of the embedding.
* A C++ `double` is an exact rational (`ℚ`): the arithmetic that the source
  writes is kept term for term, rounding is not modelled.  `std::sqrt` is a
  parameter of the embedding.  The one place where a property depends on the
  rounding, the sign of the recomputed `Q2`, is evaluated a second time with
  IEEE 754 binary64 rounding after every operation (`roundDouble`,
  `FillMCTruth_Q2_double`, `FillMCTruth_y_double`).
* A C++ `int` is an `Int`.  The only integer arithmetic of the source is the
  track-id counter (bounded by the stack size, itself an `int`) and one
  addition of two small codes, so no wrap-around is modelled.
* The source is compiled here on its `__GENIE_RELEASE_CODE__ >= GRELCODE(3,2,0)`
  branch (`IsCoherentProduction`, `IsCoherentElastic`, the extra exclusive-tag
  counts).
* Classes of the libraries the source is linked against (ROOT, the generator,
  the truth-record library) are records of the values their accessors return;
  a setter stores its argument.  Library functions the source only calls are
  collected in `GenieLib`.
-/

namespace evgb

/-! ## ROOT vectors -/

/-- ROOT three-vector. -/
structure TVector3 where
  x : ℚ
  y : ℚ
  z : ℚ
  deriving DecidableEq, Repr, Inhabited

/-- ROOT four-vector: `X,Y,Z,T` are also read as `Px,Py,Pz,E`. -/
structure TLorentzVector where
  X : ℚ
  Y : ℚ
  Z : ℚ
  T : ℚ
  deriving DecidableEq, Repr, Inhabited

namespace TLorentzVector

/-- Default-constructed four-vector `(0,0,0,0)`. -/
def zero : TLorentzVector := ⟨0, 0, 0, 0⟩

/-- Component-wise difference, `operator-`. -/
def sub (a b : TLorentzVector) : TLorentzVector :=
  ⟨a.X - b.X, a.Y - b.Y, a.Z - b.Z, a.T - b.T⟩

/-- Squared three-momentum, `Vect().Mag2()`. -/
def Mag2v (a : TLorentzVector) : ℚ := a.X * a.X + a.Y * a.Y + a.Z * a.Z

/-- Invariant mass squared, `M2() = T*T - |p|^2`. -/
def M2 (a : TLorentzVector) : ℚ := a.T * a.T - a.Mag2v

/-- Energy component, `Energy()`. -/
def Energy (a : TLorentzVector) : ℚ := a.T

end TLorentzVector

/-! ## Interaction mode -/

/-- Interaction-mode values of the truth-record library (`simb::int_type_`),
restricted to the ones `FillMCTruth` assigns. -/
inductive int_type
  | kUnknownInteraction
  | kQE
  | kRes
  | kDIS
  | kCoh
  | kCohElastic
  | kElectronScattering
  | kNuElectronElastic
  | kInverseMuDecay
  | kIMDAnnihilation
  | kInverseBetaDecay
  | kGlashowResonance
  | kAMNuGamma
  | kMEC
  | kDiffractive
  | kEM
  | kWeakMix
  deriving DecidableEq, Repr, Inhabited

/-- Current type (`simb::kCC`, `simb::kNC`). -/
inductive curr_type
  | kCC
  | kNC
  deriving DecidableEq, Repr, Inhabited

/-- The generator's process-info object, as the record of what each of its
accessors returns. -/
structure ProcessInfo where
  ScatteringTypeId : Int
  InteractionTypeId : Int
  IsWeakNC : Bool
  IsQuasiElastic : Bool
  IsDeepInelastic : Bool
  IsResonant : Bool
  IsCoherentProduction : Bool
  IsCoherentElastic : Bool
  IsElectronScattering : Bool
  IsNuElectronElastic : Bool
  IsInverseMuDecay : Bool
  IsIMDAnnihilation : Bool
  IsInverseBetaDecay : Bool
  IsGlashowResonance : Bool
  IsAMNuGamma : Bool
  IsMEC : Bool
  IsDiffractive : Bool
  IsEM : Bool
  IsWeakMix : Bool
  deriving DecidableEq, Repr, Inhabited

/-- The `if / else if` chain of `FillMCTruth` (source lines 289-312). -/
def interactionMode (procInfo : ProcessInfo) : int_type :=
  if procInfo.IsQuasiElastic then int_type.kQE
  else if procInfo.IsDeepInelastic then int_type.kDIS
  else if procInfo.IsResonant then int_type.kRes
  else if procInfo.IsCoherentProduction then int_type.kCoh
  else if procInfo.IsCoherentElastic then int_type.kCohElastic
  else if procInfo.IsElectronScattering then int_type.kElectronScattering
  else if procInfo.IsNuElectronElastic then int_type.kNuElectronElastic
  else if procInfo.IsInverseMuDecay then int_type.kInverseMuDecay
  else if procInfo.IsIMDAnnihilation then int_type.kIMDAnnihilation
  else if procInfo.IsInverseBetaDecay then int_type.kInverseBetaDecay
  else if procInfo.IsGlashowResonance then int_type.kGlashowResonance
  else if procInfo.IsAMNuGamma then int_type.kAMNuGamma
  else if procInfo.IsMEC then int_type.kMEC
  else if procInfo.IsDiffractive then int_type.kDiffractive
  else if procInfo.IsEM then int_type.kEM
  else if procInfo.IsWeakMix then int_type.kWeakMix
  else int_type.kUnknownInteraction

/-- Current type selection of `FillMCTruth` (source lines 286-287). -/
def currentType (procInfo : ProcessInfo) : curr_type :=
  if procInfo.IsWeakNC then curr_type.kNC else curr_type.kCC

/-! ## The generator's event record -/

/-- A particle of the generator's stack (`genie::GHepParticle`), as the record
of what its accessors return.  `P4` is `(Px,Py,Pz,E)` in GeV, `X4` is
`(Vx,Vy,Vz,Vt)` in fm and ys relative to the struck nucleus.  `Polz` is the
polarization when `PolzIsSet()` holds. -/
structure GHepParticle where
  Pdg : Int
  Status : Int
  FirstMother : Int
  LastMother : Int
  FirstDaughter : Int
  LastDaughter : Int
  P4 : TLorentzVector
  X4 : TLorentzVector
  RescatterCode : Int
  Polz : Option TVector3
  deriving DecidableEq, Repr, Inhabited

/-- An entry of the record's object array: the particle loop of `FillMCTruth`
proceeds while `dynamic_cast<GHepParticle*>` of the next entry succeeds. -/
inductive TObject
  | ghep (p : GHepParticle)
  | other
  deriving DecidableEq, Repr, Inhabited

/-- Struck-target description (`genie::Target`). -/
structure Target where
  Pdg : Int
  Z : Int
  A : Int
  HitNucPdg : Int
  HitQrkPdg : Int
  HitSeaQrk : Bool
  HitNucP4 : TLorentzVector
  HitNucPosition : ℚ
  deriving DecidableEq, Repr, Inhabited

/-- Initial state (`genie::InitialState`). -/
structure InitialState where
  ProbePdg : Int
  Tgt : Target
  ProbeP4 : TLorentzVector
  TgtP4 : TLorentzVector
  deriving DecidableEq, Repr, Inhabited

/-- The value the source compares against to decide whether a stored kinematic
variable was set (`flagVal`, source line 666). -/
def flagVal : ℚ := -99999

/-- Modelled from the spec: the generator's kinematic-variable set
(`genie::Kinematics`, whose declaration is not part of the sources): every
variable is either unset (`none`) or set to a value.  Only the variables the
source touches are kept: the selected x, y, t, W, Q2, q2 and the running W,
with the final-state-lepton and hadronic-system four-momenta. -/
structure Kinematics where
  KVSelx : Option ℚ
  KVSely : Option ℚ
  KVSelt : Option ℚ
  KVSelW : Option ℚ
  KVSelQ2 : Option ℚ
  KVSelq2 : Option ℚ
  KVW : Option ℚ
  FSLeptonP4 : TLorentzVector
  HadSystP4 : TLorentzVector
  deriving DecidableEq, Repr, Inhabited

namespace Kinematics

/-- Default-constructed kinematics: nothing set. -/
def init : Kinematics :=
  ⟨none, none, none, none, none, none, none, TLorentzVector.zero, TLorentzVector.zero⟩

/-- Modelled from the spec: reading a variable gives its value when it is set
and the unset sentinel otherwise. -/
def read (v : Option ℚ) : ℚ := v.getD flagVal

/-- Selected Bjorken x, `x(true)`. -/
def x_sel (k : Kinematics) : ℚ := read k.KVSelx
/-- Selected inelasticity, `y(true)`. -/
def y_sel (k : Kinematics) : ℚ := read k.KVSely
/-- Selected t, `t(true)`. -/
def t_sel (k : Kinematics) : ℚ := read k.KVSelt
/-- Selected W, `W(true)`. -/
def W_sel (k : Kinematics) : ℚ := read k.KVSelW
/-- Running W, `W(false)`. -/
def W_run (k : Kinematics) : ℚ := read k.KVW
/-- Selected Q2, `Q2(true)`. -/
def Q2_sel (k : Kinematics) : ℚ := read k.KVSelQ2
/-- Selected q2, `q2(true)`. -/
def q2_sel (k : Kinematics) : ℚ := read k.KVSelq2

/-- Library setter `Setx(x, true)` of the selected x. -/
def Setx (k : Kinematics) (x : ℚ) : Kinematics := { k with KVSelx := some x }
/-- Library setter `Sety(y, true)` of the selected y. -/
def Sety (k : Kinematics) (y : ℚ) : Kinematics := { k with KVSely := some y }
/-- Library setter `Sett(t, true)` of the selected t. -/
def Sett (k : Kinematics) (t : ℚ) : Kinematics := { k with KVSelt := some t }
/-- Library setter `SetW(W, selected)`: the selected W for `true`, the running
W for `false`. -/
def SetW (k : Kinematics) (W : ℚ) (selected : Bool) : Kinematics :=
  if selected then { k with KVSelW := some W } else { k with KVW := some W }
/-- Library setter `SetQ2(Q2, true)` of the selected Q2. -/
def SetQ2 (k : Kinematics) (Q2 : ℚ) : Kinematics := { k with KVSelQ2 := some Q2 }
/-- Library setter `Setq2(q2, true)` of the selected q2. -/
def Setq2 (k : Kinematics) (q2 : ℚ) : Kinematics := { k with KVSelq2 := some q2 }
/-- Library setter `SetFSLeptonP4(px, py, pz, E)`. -/
def SetFSLeptonP4 (k : Kinematics) (px py pz E : ℚ) : Kinematics :=
  { k with FSLeptonP4 := ⟨px, py, pz, E⟩ }
/-- Library setter `SetHadSystP4(px, py, pz, E)`. -/
def SetHadSystP4 (k : Kinematics) (px py pz E : ℚ) : Kinematics :=
  { k with HadSystP4 := ⟨px, py, pz, E⟩ }

end Kinematics

/-- Exclusive-final-state tag (`genie::XclsTag`). -/
structure XclsTag where
  IsCharmEvent : Bool
  CharmHadronPdg : Int
  IsStrangeEvent : Bool
  StrangeHadronPdg : Int
  Resonance : Int
  DecayMode : Int
  NProtons : Int
  NNeutrons : Int
  NPi0 : Int
  NPiPlus : Int
  NPiMinus : Int
  NSingleGammas : Int
  NRho0 : Int
  NRhoPlus : Int
  NRhoMinus : Int
  FinalQuarkPdg : Int
  FinalLeptonPdg : Int
  deriving DecidableEq, Repr, Inhabited

namespace XclsTag

/-- Default-constructed tag: no charm, no strangeness, no resonance, no decay
mode, all counts zero. -/
def init : XclsTag :=
  ⟨false, 0, false, 0, -1, -1, 0, 0, 0, 0, 0, 0, 0, 0, 0, 0, 0⟩

/-- Library setter `SetCharm(pdg)`. -/
def SetCharm (t : XclsTag) (pdg : Int) : XclsTag :=
  { t with IsCharmEvent := true, CharmHadronPdg := pdg }
/-- Library setter `UnsetCharm()`. -/
def UnsetCharm (t : XclsTag) : XclsTag :=
  { t with IsCharmEvent := false, CharmHadronPdg := 0 }
/-- Library setter `SetStrange(pdg)`. -/
def SetStrange (t : XclsTag) (pdg : Int) : XclsTag :=
  { t with IsStrangeEvent := true, StrangeHadronPdg := pdg }
/-- Library setter `UnsetStrange()`. -/
def UnsetStrange (t : XclsTag) : XclsTag :=
  { t with IsStrangeEvent := false, StrangeHadronPdg := 0 }
/-- Library setter `SetNPions(npi_plus, npi_0, npi_minus)`. -/
def SetNPions (t : XclsTag) (npi_plus npi_0 npi_minus : Int) : XclsTag :=
  { t with NPiPlus := npi_plus, NPi0 := npi_0, NPiMinus := npi_minus }
/-- Library setter `SetNNucleons(np, nn)`. -/
def SetNNucleons (t : XclsTag) (np nn : Int) : XclsTag :=
  { t with NProtons := np, NNeutrons := nn }
/-- Library setter `SetNRhos(nrho_plus, nrho_0, nrho_minus)`. -/
def SetNRhos (t : XclsTag) (nrho_plus nrho_0 nrho_minus : Int) : XclsTag :=
  { t with NRhoPlus := nrho_plus, NRho0 := nrho_0, NRhoMinus := nrho_minus }

end XclsTag

/-- Interaction summary (`genie::Interaction`). -/
structure Interaction where
  InitState : InitialState
  ProcInfo : ProcessInfo
  Kine : Kinematics
  ExclTag : XclsTag
  deriving DecidableEq, Repr, Inhabited

/-- The generator's event record (`genie::EventRecord`): the particle stack,
the attached summary, the vertex in (m, s) and the event-level numbers. -/
structure EventRecord where
  particles : List TObject
  Summary : Interaction
  Vertex : TLorentzVector
  Weight : ℚ
  Probability : ℚ
  XSec : ℚ
  DiffXSec : ℚ
  DiffXSecVars : Int
  deriving DecidableEq, Repr, Inhabited

/-! ## The truth records -/

/-- A particle of the neutrino-truth record (`simb::MCParticle`).  A stored
particle carries the trajectory point given to it when it was built
(`fFirstPoint`, position in (cm, ns) and momentum), which is the point
`Px(0)`..`E(0)` read; `fMorePoints` are later points.  `fGvtx` is the
nucleus-relative position in the generator's units; a particle whose
polarization was never set has polarization `(0,0,0)`. -/
structure MCParticle where
  fTrackId : Int
  fPdgCode : Int
  fProcess : String
  fMother : Int
  fMass : ℚ
  fStatus : Int
  fFirstPoint : TLorentzVector × TLorentzVector
  fMorePoints : List (TLorentzVector × TLorentzVector)
  fGvtx : TLorentzVector
  fRescatter : Int
  fPolarization : TVector3
  deriving DecidableEq, Repr, Inhabited

/-- Neutrino summary of the truth record (`simb::MCNeutrino`).  `fLepton` is
`none` for a lepton without trajectory points. -/
structure MCNeutrino where
  fLepton : Option MCParticle
  fCCNC : curr_type
  fMode : int_type
  fInteractionType : Int
  fTarget : Int
  fHitNuc : Int
  fHitQuark : Int
  fW : ℚ
  fX : ℚ
  fY : ℚ
  fQSqr : ℚ
  deriving DecidableEq, Repr, Inhabited

/-- Origin of a truth record (`simb::Origin_t`). -/
inductive Origin_t
  | kUnknown
  | kBeamNeutrino
  | kCosmicRay
  | kSuperNovaNeutrino
  | kSingleParticle
  deriving DecidableEq, Repr, Inhabited

/-- Generator identification (`simb::Generator_t`), restricted to the values
used here. -/
inductive Generator_t
  | kUnknown
  | kGENIE
  deriving DecidableEq, Repr, Inhabited

/-- A string-to-string map (`std::unordered_map<std::string,std::string>`) as
an association list with at most one entry per key. -/
abbrev ConfigMap := List (String × String)

/-- Value stored under a key, `find`. -/
def ConfigMap.lookup (m : ConfigMap) (k : String) : Option String :=
  (m.find? (fun e => e.1 == k)).map Prod.snd

/-- Insertion `emplace(k, v)`: a new entry is made only when the key is
absent. -/
def ConfigMap.emplace (m : ConfigMap) (k v : String) : ConfigMap :=
  if (ConfigMap.lookup m k).isSome then m else m ++ [(k, v)]

/-- Generator metadata of a truth record (`simb::MCGeneratorInfo`). -/
structure MCGeneratorInfo where
  generator : Generator_t
  generatorVersion : String
  generatorConfig : ConfigMap
  deriving DecidableEq, Repr, Inhabited

/-- The neutrino-truth record (`simb::MCTruth`). -/
structure MCTruth where
  fPartList : List MCParticle
  fMCNeutrino : MCNeutrino
  fOrigin : Origin_t
  fNeutrinoSet : Bool
  fGenInfo : MCGeneratorInfo
  deriving DecidableEq, Repr, Inhabited

/-- The generator-truth record (`simb::GTruth`), with the fields the source
reads or writes. -/
structure GTruth where
  fGint : Int
  fGscatter : Int
  fweight : ℚ
  fprobability : ℚ
  fXsec : ℚ
  fDiffXsec : ℚ
  fGPhaseSpace : Int
  fVertex : TLorentzVector
  fIsCharm : Bool
  fCharmHadronPdg : Int
  fIsStrange : Bool
  fStrangeHadronPdg : Int
  fResNum : Int
  fDecayMode : Int
  fNumPiPlus : Int
  fNumPiMinus : Int
  fNumPi0 : Int
  fNumProton : Int
  fNumNeutron : Int
  fNumSingleGammas : Int
  fNumRho0 : Int
  fNumRhoPlus : Int
  fNumRhoMinus : Int
  fFinalQuarkPdg : Int
  fFinalLeptonPdg : Int
  fgQ2 : ℚ
  fgq2 : ℚ
  fgW : ℚ
  fgT : ℚ
  fgX : ℚ
  fgY : ℚ
  fgWrun : ℚ
  fFShadSystP4 : TLorentzVector
  fProbePDG : Int
  fProbeP4 : TLorentzVector
  fTgtP4 : TLorentzVector
  fIsSeaQuark : Bool
  fHitNucP4 : TLorentzVector
  fHitNucPos : ℚ
  ftgtZ : Int
  ftgtA : Int
  ftgtPDG : Int
  deriving Inhabited

/-- Modelled from the spec: a freshly constructed generator-truth record
(the constructor of `simb::GTruth` is not part of the sources).  The kinematic
variables hold the unset sentinel, which is distinct from zero; codes and
counts that have no value yet hold -1, numbers hold 0. -/
def GTruth.fresh : GTruth :=
  { fGint := -1, fGscatter := -1, fweight := 0, fprobability := 0, fXsec := 0,
    fDiffXsec := 0, fGPhaseSpace := -1, fVertex := TLorentzVector.zero,
    fIsCharm := false, fCharmHadronPdg := 0, fIsStrange := false,
    fStrangeHadronPdg := 0, fResNum := -1, fDecayMode := -1,
    fNumPiPlus := -1, fNumPiMinus := -1, fNumPi0 := -1, fNumProton := -1,
    fNumNeutron := -1, fNumSingleGammas := -1, fNumRho0 := -1,
    fNumRhoPlus := -1, fNumRhoMinus := -1, fFinalQuarkPdg := 0,
    fFinalLeptonPdg := 0, fgQ2 := flagVal, fgq2 := flagVal, fgW := flagVal,
    fgT := flagVal, fgX := flagVal, fgY := flagVal, fgWrun := flagVal,
    fFShadSystP4 := TLorentzVector.zero, fProbePDG := -1,
    fProbeP4 := TLorentzVector.zero, fTgtP4 := TLorentzVector.zero,
    fIsSeaQuark := false, fHitNucP4 := TLorentzVector.zero, fHitNucPos := 0,
    ftgtZ := 0, ftgtA := 0, ftgtPDG := 0 }

/-! ## Library functions the source calls -/

/-- Severity of a diagnostic of the message logger. -/
inductive Severity
  | debug
  | info
  | warning
  | error
  deriving DecidableEq, Repr, Inhabited

/-- The functions and constants of the linked libraries that the source uses
without defining them.  The stack queries `HitNucleon`, `TargetNucleus`,
`Probe` and `FinalStatePrimaryLepton` give the particle of the stack with that
role, or `none` for the null pointer; `HitNucleonPosition() >= 0` and
`TargetNucleusPosition() >= 0` hold exactly when the corresponding particle
exists.  `PDGLibrary_Find` gives the tabulated mass of a species code, or
`none` when the table has no entry for it. -/
structure GenieLib where
  kNucleonMass : ℚ
  sqrt : ℚ → ℚ
  kNuanceOffset : Int
  NuanceReactionCode : EventRecord → Int
  Mass : GHepParticle → ℚ
  HitNucleon : List TObject → Option GHepParticle
  TargetNucleus : List TObject → Option GHepParticle
  Probe : List TObject → Option GHepParticle
  FinalStatePrimaryLepton : List TObject → Option GHepParticle
  PrimaryLepton : List MCParticle → Option MCParticle
  ProcessInfo_Set : Int → Int → ProcessInfo
  IonPdgCode : Int → Int → Int
  InitialState_ctor : Int → Int → InitialState
  PDGLibrary_Find : Int → Option ℚ

/-! ## `FillMCTruth` -/

/-- Body of the particle loop of `FillMCTruth` (source lines 244-279): the
truth particle built from one stack particle with the current track id.
`vertex` is the record's vertex in (m, s), `vtxOffset` the caller's offset in
(cm, ns). -/
def fillParticle (lib : GenieLib) (vertex vtxOffset : TLorentzVector)
    (addGenieVtxTime : Bool) (trackid : Int) (part : GHepParticle) : MCParticle :=
  let vtx0 : ℚ := 100 * (part.X4.X * 1.0e-15 + vertex.X) + vtxOffset.X
  let vtx1 : ℚ := 100 * (part.X4.Y * 1.0e-15 + vertex.Y) + vtxOffset.Y
  let vtx2 : ℚ := 100 * (part.X4.Z * 1.0e-15 + vertex.Z) + vtxOffset.Z
  let yocto2ns : ℚ := 1.0e-15
  let vtx3 : ℚ := yocto2ns * part.X4.T + vtxOffset.T
  let vtx3 : ℚ := if addGenieVtxTime then vtx3 + vertex.T * 1.0e9 else vtx3
  let pos : TLorentzVector := ⟨vtx0, vtx1, vtx2, vtx3⟩
  let mom : TLorentzVector := ⟨part.P4.X, part.P4.Y, part.P4.Z, part.P4.T⟩
  { fTrackId := trackid
    fPdgCode := part.Pdg
    fProcess := "primary"
    fMother := part.FirstMother
    fMass := lib.Mass part
    fStatus := part.Status
    fFirstPoint := (pos, mom)
    fMorePoints := []
    fGvtx := ⟨part.X4.X, part.X4.Y, part.X4.Z, part.X4.T⟩
    fRescatter := part.RescatterCode
    fPolarization := match part.Polz with
      | some polz => polz
      | none => ⟨0, 0, 0⟩ }

/-- The particle loop of `FillMCTruth` (source lines 230-283): entries are taken
in stack order while they are particles; each is translated with the current
track id and appended to the truth's particle list (`truth.Add`), and the
track id is incremented. -/
def fillParticles (lib : GenieLib) (vertex vtxOffset : TLorentzVector)
    (addGenieVtxTime : Bool) : Int → List TObject → List MCParticle → List MCParticle
  | _, [], partList => partList
  | _, TObject.other :: _, partList => partList
  | trackid, TObject.ghep part :: rest, partList =>
      fillParticles lib vertex vtxOffset addGenieVtxTime (trackid + 1) rest
        (partList ++ [fillParticle lib vertex vtxOffset addGenieVtxTime trackid part])

/-- Truth-record setter `SetNeutrino`: stores the ten arguments; the outgoing
lepton is the one the library picks from the particle list. -/
def MCTruth.SetNeutrino (lib : GenieLib) (truth : MCTruth) (CCNC : curr_type)
    (mode : int_type) (itype target nucleon quark : Int) (w x y qsqr : ℚ) : MCTruth :=
  { truth with
    fNeutrinoSet := true
    fMCNeutrino :=
      { fLepton := lib.PrimaryLepton truth.fPartList
        fCCNC := CCNC, fMode := mode, fInteractionType := itype
        fTarget := target, fHitNuc := nucleon, fHitQuark := quark
        fW := w, fX := x, fY := y, fQSqr := qsqr } }

/-- The function `evgb::FillMCTruth` (second overload, source lines 194-388).
`truth` is the caller's record as it is on entry; the result is the record
on return. -/
def FillMCTruth (lib : GenieLib) (record : EventRecord) (vtxOffset : TLorentzVector)
    (truth : MCTruth) (genieVersion genieTune : String) (addGenieVtxTime : Bool)
    (genConfig : ConfigMap) : MCTruth :=
  let vertex := record.Vertex
  let inter := record.Summary
  let initState := inter.InitState
  let procInfo := inter.ProcInfo
  -- add the particles from the interaction
  let truth : MCTruth :=
    { truth with
      fPartList := fillParticles lib vertex vtxOffset addGenieVtxTime 0
        record.particles truth.fPartList }
  let CCNC := currentType procInfo
  let mode := interactionMode procInfo
  let itype : Int := lib.kNuanceOffset + lib.NuanceReactionCode record
  -- set the neutrino information
  let truth : MCTruth := { truth with fOrigin := Origin_t.kBeamNeutrino }
  let genConfigCopy := ConfigMap.emplace genConfig "tune" genieTune
  let truth : MCTruth :=
    { truth with fGenInfo := ⟨Generator_t.kGENIE, genieVersion, genConfigCopy⟩ }
  -- kinematics from the leptonic system
  let hitnucl := lib.HitNucleon record.particles
  let v4_null := TLorentzVector.zero
  let probe := lib.Probe record.particles
  let finallepton := lib.FinalStatePrimaryLepton record.particles
  let k1 : TLorentzVector := match probe with
    | some p => p.P4
    | none => v4_null
  let k2 : TLorentzVector := match finallepton with
    | some p => p.P4
    | none => v4_null
  let q := TLorentzVector.sub k1 k2
  let Q2 : ℚ := -1 * q.M2
  let v : ℚ := q.Energy
  let y : ℚ := v / k1.Energy
  let xW : ℚ × ℚ × ℚ :=
    if hitnucl.isSome || procInfo.IsCoherentProduction then
      let M := lib.kNucleonMass
      let x := 0.5 * Q2 / (M * v)
      let W2 := M * M + 2 * M * v - Q2
      let W := lib.sqrt W2
      (x, W2, W)
    else (-1, -1, -1)
  let x := xW.1
  let W := xW.2.2
  MCTruth.SetNeutrino lib truth CCNC mode itype initState.Tgt.Pdg
    initState.Tgt.HitNucPdg initState.Tgt.HitQrkPdg W x y Q2

/-- The function `evgb::FillMCTruth` (first overload, source lines 182-192): the
offset is the spill time alone. -/
def FillMCTruth_spillTime (lib : GenieLib) (record : EventRecord) (spillTime : ℚ)
    (truth : MCTruth) (genieVersion genieTune : String) (addGenieVtxTime : Bool)
    (genConfig : ConfigMap) : MCTruth :=
  FillMCTruth lib record ⟨0, 0, 0, spillTime⟩ truth genieVersion genieTune
    addGenieVtxTime genConfig

/-! ## `FillGTruth` -/

/-- The function `evgb::FillGTruth` (source lines 391-537).  `truth` is the
caller's record on entry, the result the record on return. -/
def FillGTruth (record : EventRecord) (truth : GTruth) : GTruth :=
  let inter := record.Summary
  let procInfo := inter.ProcInfo
  let truth : GTruth :=
    { truth with
      fGint := procInfo.InteractionTypeId
      fGscatter := procInfo.ScatteringTypeId
      fweight := record.Weight
      fprobability := record.Probability
      fXsec := record.XSec
      fDiffXsec := record.DiffXSec
      fGPhaseSpace := record.DiffXSecVars
      fVertex := ⟨record.Vertex.X, record.Vertex.Y, record.Vertex.Z, record.Vertex.T⟩ }
  let exclTag := inter.ExclTag
  let truth : GTruth :=
    { truth with
      fIsCharm := exclTag.IsCharmEvent
      fCharmHadronPdg := exclTag.CharmHadronPdg
      fIsStrange := exclTag.IsStrangeEvent
      fStrangeHadronPdg := exclTag.StrangeHadronPdg
      fResNum := exclTag.Resonance
      fDecayMode := exclTag.DecayMode }
  let truth : GTruth :=
    { truth with
      fNumPiPlus := 0, fNumPiMinus := 0, fNumPi0 := 0
      fNumProton := 0, fNumNeutron := 0
      fNumSingleGammas := 0
      fNumRho0 := 0, fNumRhoPlus := 0, fNumRhoMinus := 0 }
  let truth : GTruth :=
    { truth with
      fNumProton := exclTag.NProtons
      fNumNeutron := exclTag.NNeutrons
      fNumPi0 := exclTag.NPi0
      fNumPiPlus := exclTag.NPiPlus
      fNumPiMinus := exclTag.NPiMinus
      fNumSingleGammas := exclTag.NSingleGammas
      fNumRho0 := exclTag.NRho0
      fNumRhoPlus := exclTag.NRhoPlus
      fNumRhoMinus := exclTag.NRhoMinus
      fFinalQuarkPdg := exclTag.FinalQuarkPdg
      fFinalLeptonPdg := exclTag.FinalLeptonPdg }
  let kine := inter.Kine
  let truth : GTruth :=
    { truth with fgQ2 := kine.Q2_sel, fgq2 := kine.q2_sel, fgW := kine.W_sel }
  -- only read when it is set in the kinematics
  let truth : GTruth :=
    { truth with fgT := if kine.KVSelt.isSome then kine.t_sel else truth.fgT }
  let truth : GTruth := { truth with fgX := kine.x_sel, fgY := kine.y_sel }
  -- only read when it is set in the kinematics
  let truth : GTruth :=
    { truth with fgWrun := if kine.KVW.isSome then kine.W_run else truth.fgWrun }
  let truth : GTruth := { truth with fFShadSystP4 := kine.HadSystP4 }
  let initState := inter.InitState
  let truth : GTruth :=
    { truth with
      fProbePDG := initState.ProbePdg
      fProbeP4 := initState.ProbeP4
      fTgtP4 := initState.TgtP4 }
  let tgt := initState.Tgt
  { truth with
    fIsSeaQuark := tgt.HitSeaQrk
    fHitNucP4 := tgt.HitNucP4
    fHitNucPos := tgt.HitNucPosition
    ftgtZ := tgt.Z
    ftgtA := tgt.A
    ftgtPDG := tgt.Pdg }

/-! ## `RetrieveGHEP` -/

/-- Body of the particle loop of `RetrieveGHEP` (source lines 561-623): the
stack particle rebuilt from one truth particle.  The momentum is the one of
trajectory point 0, the position is the stored nucleus-relative one; second
mother and both daughters are -1. -/
def retrieveParticle (mcpart : MCParticle) : GHepParticle :=
  let gmid := mcpart.fPdgCode
  let gmst := mcpart.fStatus
  let gmmo := mcpart.fMother
  let gmfd : Int := -1
  let gmld : Int := -1
  let gmpx := mcpart.fFirstPoint.2.X
  let gmpy := mcpart.fFirstPoint.2.Y
  let gmpz := mcpart.fFirstPoint.2.Z
  let gme := mcpart.fFirstPoint.2.T
  let gmvx := mcpart.fGvtx.X
  let gmvy := mcpart.fGvtx.Y
  let gmvz := mcpart.fGvtx.Z
  let gmvt := mcpart.fGvtx.T
  let gmri := mcpart.fRescatter
  let polz := mcpart.fPolarization
  { Pdg := gmid, Status := gmst, FirstMother := gmmo, LastMother := -1
    FirstDaughter := gmfd, LastDaughter := gmld
    P4 := ⟨gmpx, gmpy, gmpz, gme⟩
    X4 := ⟨gmvx, gmvy, gmvz, gmvt⟩
    RescatterCode := gmri
    Polz := if polz.x ≠ 0 ∨ polz.y ≠ 0 ∨ polz.z ≠ 0 then some polz else none }

/-- The particle loop of `RetrieveGHEP` (source lines 560-625): the truth
particles are visited by index from 0 and each rebuilt particle is added at
the end of the new stack (`AddParticle`). -/
def retrieveParticles : List MCParticle → List TObject → List TObject
  | [], stack => stack
  | mcpart :: rest, stack =>
      retrieveParticles rest (stack ++ [TObject.ghep (retrieveParticle mcpart)])

/-- Exclusive-final-state tag rebuilt by `RetrieveGHEP` (source lines 633-660). -/
def retrieveXclsTag (gtruth : GTruth) : XclsTag :=
  let gxt := XclsTag.init
  let gxt := { gxt with Resonance := gtruth.fResNum }
  let gxt := { gxt with DecayMode := gtruth.fDecayMode }
  let gxt := gxt.SetNPions gtruth.fNumPiPlus gtruth.fNumPi0 gtruth.fNumPiMinus
  let gxt := gxt.SetNNucleons gtruth.fNumProton gtruth.fNumNeutron
  let gxt := { gxt with NSingleGammas := gtruth.fNumSingleGammas }
  let gxt := gxt.SetNRhos gtruth.fNumRhoPlus gtruth.fNumRho0 gtruth.fNumRhoMinus
  let gxt := if gtruth.fFinalQuarkPdg ≠ 0 then
    { gxt with FinalQuarkPdg := gtruth.fFinalQuarkPdg } else gxt
  let gxt := if gtruth.fFinalLeptonPdg ≠ 0 then
    { gxt with FinalLeptonPdg := gtruth.fFinalLeptonPdg } else gxt
  let gxt := if gtruth.fIsCharm then gxt.SetCharm gtruth.fCharmHadronPdg
    else gxt.UnsetCharm
  let gxt := if gtruth.fIsStrange then gxt.SetStrange gtruth.fStrangeHadronPdg
    else gxt.UnsetStrange
  gxt

/-- Kinematics rebuilt by `RetrieveGHEP` (source lines 662-684): a variable is
set exactly when the stored value differs from `flagVal`. -/
def retrieveKinematics (mctruth : MCTruth) (gtruth : GTruth) : Kinematics :=
  let gkin := Kinematics.init
  let gkin := if gtruth.fgX ≠ flagVal then gkin.Setx gtruth.fgX else gkin
  let gkin := if gtruth.fgY ≠ flagVal then gkin.Sety gtruth.fgY else gkin
  let gkin := if gtruth.fgT ≠ flagVal then gkin.Sett gtruth.fgT else gkin
  let gkin := if gtruth.fgW ≠ flagVal then gkin.SetW gtruth.fgW true else gkin
  let gkin := if gtruth.fgQ2 ≠ flagVal then gkin.SetQ2 gtruth.fgQ2 else gkin
  let gkin := if gtruth.fgq2 ≠ flagVal then gkin.Setq2 gtruth.fgq2 else gkin
  let gkin := if gtruth.fgWrun ≠ flagVal then gkin.SetW gtruth.fgWrun false else gkin
  let nu := mctruth.fMCNeutrino
  let gkin := match nu.fLepton with
    | some lep => gkin.SetFSLeptonP4 lep.fFirstPoint.2.X lep.fFirstPoint.2.Y
        lep.fFirstPoint.2.Z lep.fFirstPoint.2.T
    | none => gkin
  gkin.SetHadSystP4 gtruth.fFShadSystP4.X gtruth.fFShadSystP4.Y gtruth.fFShadSystP4.Z
    gtruth.fFShadSystP4.T

/-- Hit-nucleon four-momentum of `RetrieveGHEP` (source lines 727-741) with the
diagnostics of this step: the four-momentum of the stack's hit nucleon when
there is one, otherwise `(0,0,0,0)`, with a warning when the stored
struck-nucleon code `targetNucleon` is not 0. -/
def retrieveHitNucP4 (lib : GenieLib) (targetNucleon : Int) (stack : List TObject) :
    TLorentzVector × List (Severity × String) :=
  match lib.HitNucleon stack with
  | some hitnucleon => (hitnucleon.P4, [])
  | none =>
      (⟨0, 0, 0, 0⟩,
        if targetNucleon ≠ 0 then
          [(Severity.warning, "evgb::RetrieveGHEP() no hit nucleon position")]
        else [])

/-- Target four-momentum of `RetrieveGHEP` (source lines 743-761) with the
diagnostics of this step: the four-momentum of the stack's target nucleus when
there is one, otherwise `(0,0,0,Erest)`, where `Erest` is the tabulated mass
of the stored target code when that code is not 0 and the table knows it; a
warning is emitted when the stored target code is 0. -/
def retrieveTgtP4 (lib : GenieLib) (gtruth : GTruth) (stack : List TObject) :
    TLorentzVector × List (Severity × String) :=
  match lib.TargetNucleus stack with
  | some target => (target.P4, [])
  | none =>
      if gtruth.ftgtPDG ≠ 0 then
        let Erest : ℚ := match lib.PDGLibrary_Find gtruth.ftgtPDG with
          | some mass => mass
          | none => 0
        (⟨0, 0, 0, Erest⟩, [])
      else
        (⟨0, 0, 0, 0⟩,
          [(Severity.warning, "evgb::RetrieveGHEP() no target nucleus position")])

/-- Probe four-momentum of `RetrieveGHEP` (source lines 763-775) with the
diagnostics of this step: the four-momentum of the stack's probe when there is
one, otherwise `(0,0,0,0)` with a debug message. -/
def retrieveProbeP4 (lib : GenieLib) (stack : List TObject) :
    TLorentzVector × List (Severity × String) :=
  match lib.Probe stack with
  | some probe => (probe.P4, [])
  | none => (⟨0, 0, 0, 0⟩, [(Severity.debug, "evgb::RetrieveGHEP() no probe")])

/-- Initial state rebuilt by `RetrieveGHEP` (source lines 686-775) from the
stored record and the rebuilt stack, with the diagnostics emitted on the
way, in order. -/
def retrieveInitialState (lib : GenieLib) (mctruth : MCTruth) (gtruth : GTruth)
    (stack : List TObject) : InitialState × List (Severity × String) :=
  let probe_pdgc := gtruth.fProbePDG
  let tgtZ := gtruth.ftgtZ
  let tgtA := gtruth.ftgtA
  let tgtZA : Int × Int := if tgtZ = 0 ∨ tgtA = 0 then (1, 1) else (tgtZ, tgtA)
  let tgtZ := tgtZA.1
  let tgtA := tgtZA.2
  let probe_pdgc : Int := if probe_pdgc = 0 ∨ probe_pdgc = -1 then 22 else probe_pdgc
  let target_pdgc := lib.IonPdgCode tgtA tgtZ
  let nu := mctruth.fMCNeutrino
  let targetNucleon := nu.fHitNuc
  let struckQuark := nu.fHitQuark
  let ginitstate := lib.InitialState_ctor target_pdgc probe_pdgc
  let tgt : Target :=
    { ginitstate.Tgt with
      HitNucPdg := targetNucleon
      HitNucPosition := gtruth.fHitNucPos
      HitQrkPdg := struckQuark
      HitSeaQrk := gtruth.fIsSeaQuark }
  -- hit nucleon
  let hn := retrieveHitNucP4 lib targetNucleon stack
  let tgt : Target := { tgt with HitNucP4 := hn.1 }
  let ginitstate : InitialState := { ginitstate with Tgt := tgt }
  -- target nucleus
  let tn := retrieveTgtP4 lib gtruth stack
  let ginitstate : InitialState := { ginitstate with TgtP4 := tn.1 }
  -- probe
  let pr := retrieveProbeP4 lib stack
  let ginitstate : InitialState := { ginitstate with ProbeP4 := pr.1 }
  (ginitstate, hn.2 ++ tn.2 ++ pr.2)

/-- The function `evgb::RetrieveGHEP` (source lines 540-799) together with the
diagnostics it emits. -/
def RetrieveGHEP_log (lib : GenieLib) (mctruth : MCTruth) (gtruth : GTruth) :
    EventRecord × List (Severity × String) :=
  let space := gtruth.fGPhaseSpace
  let vtx := gtruth.fVertex
  let stack := retrieveParticles mctruth.fPartList []
  let proc_info := lib.ProcessInfo_Set gtruth.fGscatter gtruth.fGint
  let gxt := retrieveXclsTag gtruth
  let gkin := retrieveKinematics mctruth gtruth
  let init := retrieveInitialState lib mctruth gtruth stack
  let p_gint : Interaction :=
    { InitState := init.1, ProcInfo := proc_info, Kine := gkin, ExclTag := gxt }
  ({ particles := stack
     Summary := p_gint
     Vertex := vtx
     Weight := gtruth.fweight
     Probability := gtruth.fprobability
     XSec := gtruth.fXsec
     DiffXSec := gtruth.fDiffXsec
     DiffXSecVars := space }, init.2)

/-- The event record returned by `evgb::RetrieveGHEP`. -/
def RetrieveGHEP (lib : GenieLib) (mctruth : MCTruth) (gtruth : GTruth) : EventRecord :=
  (RetrieveGHEP_log lib mctruth gtruth).1

/-! ## The flux-truth record and the flux drivers -/

/-- Kind of flux a flux-truth record was filled from (`simb::flux_code_`). -/
inductive flux_code
  | kHistPlusFocus
  | kHistMinusFocus
  | kGenerator
  | kNtuple
  | kSimple_Flux
  | kDk2Nu
  deriving DecidableEq, Repr, Inhabited

/-- The flux-truth record (`simb::MCFlux`), with the fields the source writes. -/
structure MCFlux where
  frun : Int
  fevtno : Int
  fndxdz : ℚ
  fndydz : ℚ
  fnpz : ℚ
  fnenergy : ℚ
  fndxdznea : ℚ
  fndydznea : ℚ
  fnenergyn : ℚ
  fnwtnear : ℚ
  fndxdzfar : ℚ
  fndydzfar : ℚ
  fnenergyf : ℚ
  fnwtfar : ℚ
  fnorig : Int
  fndecay : Int
  fntype : Int
  fvx : ℚ
  fvy : ℚ
  fvz : ℚ
  fpdpx : ℚ
  fpdpy : ℚ
  fpdpz : ℚ
  fppdxdz : ℚ
  fppdydz : ℚ
  fpppz : ℚ
  fppenergy : ℚ
  fppmedium : Int
  fptype : Int
  fppvx : ℚ
  fppvy : ℚ
  fppvz : ℚ
  fmuparpx : ℚ
  fmuparpy : ℚ
  fmuparpz : ℚ
  fmupare : ℚ
  fnecm : ℚ
  fnimpwt : ℚ
  fxpoint : ℚ
  fypoint : ℚ
  fzpoint : ℚ
  ftvx : ℚ
  ftvy : ℚ
  ftvz : ℚ
  ftpx : ℚ
  ftpy : ℚ
  ftpz : ℚ
  ftptype : Int
  ftgen : Int
  ftgptype : Int
  ftgppx : ℚ
  ftgppy : ℚ
  ftgppz : ℚ
  ftprivx : ℚ
  ftprivy : ℚ
  ftprivz : ℚ
  fbeamx : ℚ
  fbeamy : ℚ
  fbeamz : ℚ
  fbeampx : ℚ
  fbeampy : ℚ
  fbeampz : ℚ
  fdk2gen : ℚ
  fFluxType : flux_code
  deriving Inhabited

/-- Modelled from the spec: the record after `Reset()` (the method is not part of
the sources): every number holds the default -999 and the flux kind its
default. -/
def MCFlux.Reset (_ : MCFlux) : MCFlux :=
  { frun := -999, fevtno := -999, fndxdz := -999, fndydz := -999, fnpz := -999,
    fnenergy := -999, fndxdznea := -999, fndydznea := -999, fnenergyn := -999,
    fnwtnear := -999, fndxdzfar := -999, fndydzfar := -999, fnenergyf := -999,
    fnwtfar := -999, fnorig := -999, fndecay := -999, fntype := -999, fvx := -999,
    fvy := -999, fvz := -999, fpdpx := -999, fpdpy := -999, fpdpz := -999,
    fppdxdz := -999, fppdydz := -999, fpppz := -999, fppenergy := -999,
    fppmedium := -999, fptype := -999, fppvx := -999, fppvy := -999, fppvz := -999,
    fmuparpx := -999, fmuparpy := -999, fmuparpz := -999, fmupare := -999,
    fnecm := -999, fnimpwt := -999, fxpoint := -999, fypoint := -999, fzpoint := -999,
    ftvx := -999, ftvy := -999, ftvz := -999, ftpx := -999, ftpy := -999, ftpz := -999,
    ftptype := -999, ftgen := -999, ftgptype := -999, ftgppx := -999, ftgppy := -999,
    ftgppz := -999, ftprivx := -999, ftprivy := -999, ftprivz := -999, fbeamx := -999,
    fbeamy := -999, fbeamz := -999, fbeampx := -999, fbeampy := -999, fbeampz := -999,
    fdk2gen := -999, fFluxType := flux_code.kHistPlusFocus }

/-- Pass-through info of the NuMI ntuple driver
(`genie::flux::GNuMIFluxPassThroughInfo`): `pcodes` is 0 for the original
particle codes and 1 for PDG codes, `units` is 0 for the original cm and 1 for
meters. -/
structure GNuMIFluxPassThroughInfo where
  pcodes : Int
  units : Int
  run : Int
  evtno : Int
  ndxdz : ℚ
  ndydz : ℚ
  npz : ℚ
  nenergy : ℚ
  ndxdznea : ℚ
  ndydznea : ℚ
  nenergyn : ℚ
  nwtnear : ℚ
  ndxdzfar : ℚ
  ndydzfar : ℚ
  nenergyf : ℚ
  nwtfar : ℚ
  norig : Int
  ndecay : Int
  ntype : Int
  vx : ℚ
  vy : ℚ
  vz : ℚ
  pdpx : ℚ
  pdpy : ℚ
  pdpz : ℚ
  ppdxdz : ℚ
  ppdydz : ℚ
  pppz : ℚ
  ppenergy : ℚ
  ppmedium : Int
  ptype : Int
  ppvx : ℚ
  ppvy : ℚ
  ppvz : ℚ
  muparpx : ℚ
  muparpy : ℚ
  muparpz : ℚ
  mupare : ℚ
  necm : ℚ
  nimpwt : ℚ
  xpoint : ℚ
  ypoint : ℚ
  zpoint : ℚ
  tvx : ℚ
  tvy : ℚ
  tvz : ℚ
  tpx : ℚ
  tpy : ℚ
  tpz : ℚ
  tptype : Int
  tgen : Int
  tgptype : Int
  tgppx : ℚ
  tgppy : ℚ
  tgppz : ℚ
  tprivx : ℚ
  tprivy : ℚ
  tprivz : ℚ
  beamx : ℚ
  beamy : ℚ
  beamz : ℚ
  beampx : ℚ
  beampy : ℚ
  beampz : ℚ
  deriving Inhabited

/-- The NuMI ntuple flux driver (`genie::flux::GNuMIFlux`). -/
structure GNuMIFlux where
  PassThroughInfo : GNuMIFluxPassThroughInfo
  GetDecayDist : ℚ
  deriving Inhabited

/-- Entry of the simple-ntuple driver (`genie::flux::GSimpleNtpEntry`), with the
fields the source reads. -/
structure GSimpleNtpEntry where
  pdg : Int
  wgt : ℚ
  dist : ℚ
  E : ℚ
  deriving Inhabited

/-- Optional NuMI branch of the simple-ntuple driver
(`genie::flux::GSimpleNtpNuMI`). -/
structure GSimpleNtpNuMI where
  run : Int
  evtno : Int
  tpx : ℚ
  tpy : ℚ
  tpz : ℚ
  tptype : Int
  vx : ℚ
  vy : ℚ
  vz : ℚ
  ndecay : Int
  ppmedium : Int
  pdpx : ℚ
  pdpy : ℚ
  pdpz : ℚ
  pppx : ℚ
  pppy : ℚ
  pppz : ℚ
  ptype : Int
  deriving Inhabited

/-- Auxiliary values of the simple-ntuple driver (`genie::flux::GSimpleNtpAux`). -/
structure GSimpleNtpAux where
  auxint : List Int
  auxdbl : List ℚ
  deriving Inhabited

/-- Metadata of the simple-ntuple driver (`genie::flux::GSimpleNtpMeta`): the
names of the auxiliary values, by position. -/
structure GSimpleNtpMeta where
  auxintname : List String
  auxdblname : List String
  deriving Inhabited

/-- The simple-ntuple flux driver (`genie::flux::GSimpleNtpFlux`); the NuMI,
auxiliary and metadata branches may be absent (null). -/
structure GSimpleNtpFlux where
  GetCurrentEntry : GSimpleNtpEntry
  GetCurrentNuMI : Option GSimpleNtpNuMI
  GetCurrentAux : Option GSimpleNtpAux
  GetCurrentMeta : Option GSimpleNtpMeta
  deriving Inhabited

/-- Decay record of a dk2nu ray (`bsim::Decay`), with the fields the source
reads. -/
structure Decay where
  norig : Int
  ndecay : Int
  ntype : Int
  ppmedium : Int
  ptype : Int
  vx : ℚ
  vy : ℚ
  vz : ℚ
  pdpx : ℚ
  pdpy : ℚ
  pdpz : ℚ
  ppdxdz : ℚ
  ppdydz : ℚ
  pppz : ℚ
  ppenergy : ℚ
  muparpx : ℚ
  muparpy : ℚ
  muparpz : ℚ
  mupare : ℚ
  necm : ℚ
  nimpwt : ℚ
  deriving Inhabited

/-- Target-exit record of a dk2nu ray (`bsim::TgtExit`). -/
structure TgtExit where
  tvx : ℚ
  tvy : ℚ
  tvz : ℚ
  tpx : ℚ
  tpy : ℚ
  tpz : ℚ
  tptype : Int
  tgen : Int
  deriving Inhabited

/-- A dk2nu ray (`bsim::Dk2Nu`), with the fields the source reads. -/
structure Dk2Nu where
  job : Int
  potnum : Int
  decay : Decay
  ppvx : ℚ
  ppvy : ℚ
  ppvz : ℚ
  tgtexit : TgtExit
  deriving Inhabited

/-- The neutrino chosen for a dk2nu ray (`bsim::NuChoice`). -/
structure NuChoice where
  pdgNu : Int
  impWgt : ℚ
  p4NuUser : TLorentzVector
  xyWgt : ℚ
  deriving Inhabited

/-- The dk2nu flux driver (`genie::flux::GDk2NuFlux`). -/
structure GDk2NuFlux where
  GetDk2Nu : Dk2Nu
  GetNuChoice : NuChoice
  GetDecayDist : ℚ
  deriving Inhabited

/-- A flux driver handle (`genie::GFluxI*`) by its dynamic type: one of the three
shapes the source recognizes, the blender adapter around another driver, or
any other driver, of which only the name of its type is kept. -/
inductive GFluxI
  | other (dname : String)
  | numi (gnumi : GNuMIFlux)
  | simple (gsimple : GSimpleNtpFlux)
  | dk2nu (gdk2nu : GDk2NuFlux)
  | blender (inner : GFluxI)
  deriving Inhabited

/-- Name of the dynamic type of a driver, `typeid(*fdriver).name()`. -/
def GFluxI.typeidName : GFluxI → String
  | GFluxI.other dname => dname
  | GFluxI.numi _ => "genie::flux::GNuMIFlux"
  | GFluxI.simple _ => "genie::flux::GSimpleNtpFlux"
  | GFluxI.dk2nu _ => "genie::flux::GDk2NuFlux"
  | GFluxI.blender _ => "genie::flux::GFluxBlender"

/-! ## `FillMCFlux` -/

/-- The function `evgb::FillMCFlux(const GNuMIFluxPassThroughInfo*, double,
simb::MCFlux&)` (source lines 860-945), with the diagnostics it emits. -/
def FillMCFlux_PassThroughInfo (nflux : GNuMIFluxPassThroughInfo) (dk2gen : ℚ)
    (flux : MCFlux) : MCFlux × List (Severity × String) :=
  let flux := flux.Reset
  let flux : MCFlux := { flux with fFluxType := flux_code.kNtuple }
  -- check the particle codes and the units passed through
  let log : List (Severity × String) :=
    if nflux.pcodes ≠ 1 ∧ nflux.units ≠ 0 then
      [(Severity.error, "either wrong particle codes or units from flux object - beware!!")]
    else []
  ({ flux with
     frun := nflux.run
     fevtno := nflux.evtno
     fndxdz := nflux.ndxdz
     fndydz := nflux.ndydz
     fnpz := nflux.npz
     fnenergy := nflux.nenergy
     fndxdznea := nflux.ndxdznea
     fndydznea := nflux.ndydznea
     fnenergyn := nflux.nenergyn
     fnwtnear := nflux.nwtnear
     fndxdzfar := nflux.ndxdzfar
     fndydzfar := nflux.ndydzfar
     fnenergyf := nflux.nenergyf
     fnwtfar := nflux.nwtfar
     fnorig := nflux.norig
     fndecay := nflux.ndecay
     fntype := nflux.ntype
     fvx := nflux.vx
     fvy := nflux.vy
     fvz := nflux.vz
     fpdpx := nflux.pdpx
     fpdpy := nflux.pdpy
     fpdpz := nflux.pdpz
     fppdxdz := nflux.ppdxdz
     fppdydz := nflux.ppdydz
     fpppz := nflux.pppz
     fppenergy := nflux.ppenergy
     fppmedium := nflux.ppmedium
     fptype := nflux.ptype
     fppvx := nflux.ppvx
     fppvy := nflux.ppvy
     fppvz := nflux.ppvz
     fmuparpx := nflux.muparpx
     fmuparpy := nflux.muparpy
     fmuparpz := nflux.muparpz
     fmupare := nflux.mupare
     fnecm := nflux.necm
     fnimpwt := nflux.nimpwt
     fxpoint := nflux.xpoint
     fypoint := nflux.ypoint
     fzpoint := nflux.zpoint
     ftvx := nflux.tvx
     ftvy := nflux.tvy
     ftvz := nflux.tvz
     ftpx := nflux.tpx
     ftpy := nflux.tpy
     ftpz := nflux.tpz
     ftptype := nflux.tptype
     ftgen := nflux.tgen
     ftgptype := nflux.tgptype
     ftgppx := nflux.tgppx
     ftgppy := nflux.tgppy
     ftgppz := nflux.tgppz
     ftprivx := nflux.tprivx
     ftprivy := nflux.tprivy
     ftprivz := nflux.tprivz
     fbeamx := nflux.beamx
     fbeamy := nflux.beamy
     fbeamz := nflux.beamz
     fbeampx := nflux.beampx
     fbeampy := nflux.beampy
     fbeampz := nflux.beampz
     fdk2gen := dk2gen }, log)

/-- The function `evgb::FillMCFlux(genie::flux::GNuMIFlux*, simb::MCFlux&)` (source
lines 851-859). -/
def FillMCFlux_GNuMIFlux (gnumi : GNuMIFlux) (flux : MCFlux) :
    MCFlux × List (Severity × String) :=
  let nflux := gnumi.PassThroughInfo
  let dk2gen := gnumi.GetDecayDist
  FillMCFlux_PassThroughInfo nflux dk2gen flux

/-- One pass of the loop over the auxiliary doubles (source lines 1018-1028): the
value at a position is stored in the field whose recognized name equals the
name at that position. -/
def auxDblStep (name : String) (value : ℚ) (flux : MCFlux) : MCFlux :=
  { flux with
    fmuparpx := if "muparpx" = name then value else flux.fmuparpx
    fmuparpy := if "muparpy" = name then value else flux.fmuparpy
    fmuparpz := if "muparpz" = name then value else flux.fmuparpz
    fmupare := if "mupare" = name then value else flux.fmupare
    fnecm := if "necm" = name then value else flux.fnecm
    fnimpwt := if "nimpwt" = name then value else flux.fnimpwt
    fnwtnear := if "fgXYWgt" = name then value else flux.fnwtnear
    fnwtfar := if "fgXYWgt" = name then value else flux.fnwtfar }

/-- One pass of the loop over the auxiliary ints (source lines 1029-1032). -/
def auxIntStep (name : String) (value : Int) (flux : MCFlux) : MCFlux :=
  { flux with
    ftgen := if "tgen" = name then value else flux.ftgen
    ftgptype := if "tgptype" = name then value else flux.ftgptype }

/-- The loop over the auxiliary doubles: positions are visited from 0 while there
is a name; the value is the one at the same position (the value vector is as
long as the name vector; the loop of the embedding ends where a value is
missing). -/
def auxDblLoop : List String → List ℚ → MCFlux → MCFlux
  | name :: names, value :: values, flux => auxDblLoop names values (auxDblStep name value flux)
  | _, _, flux => flux

/-- The loop over the auxiliary ints, as `auxDblLoop`. -/
def auxIntLoop : List String → List Int → MCFlux → MCFlux
  | name :: names, value :: values, flux => auxIntLoop names values (auxIntStep name value flux)
  | _, _, flux => flux

/-- The function `evgb::FillMCFlux(const GSimpleNtpEntry*, const GSimpleNtpNuMI*,
const GSimpleNtpAux*, const GSimpleNtpMeta*, simb::MCFlux&)` (source lines
961-1117). -/
def FillMCFlux_GSimpleNtp (nflux_entry : GSimpleNtpEntry) (nflux_numi : Option GSimpleNtpNuMI)
    (nflux_aux : Option GSimpleNtpAux) (nflux_meta : Option GSimpleNtpMeta)
    (flux : MCFlux) : MCFlux :=
  let flux := flux.Reset
  let flux : MCFlux := { flux with fFluxType := flux_code.kSimple_Flux }
  let flux : MCFlux :=
    { flux with
      fntype := nflux_entry.pdg
      fnimpwt := nflux_entry.wgt
      fdk2gen := nflux_entry.dist
      fnenergyn := nflux_entry.E
      fnenergyf := nflux_entry.E }
  let flux : MCFlux := match nflux_numi with
    | some numi =>
      let apppz : ℚ := if |numi.pppz| < 1.0e-30 then 1.0e-30 else numi.pppz
      { flux with
        frun := numi.run
        fevtno := numi.evtno
        ftpx := numi.tpx
        ftpy := numi.tpy
        ftpz := numi.tpz
        ftptype := numi.tptype
        fvx := numi.vx
        fvy := numi.vy
        fvz := numi.vz
        fndecay := numi.ndecay
        fppmedium := numi.ppmedium
        fpdpx := numi.pdpx
        fpdpy := numi.pdpy
        fpdpz := numi.pdpz
        fppdxdz := numi.pppx / apppz
        fppdydz := numi.pppy / apppz
        fpppz := numi.pppz
        fptype := numi.ptype }
    | none => flux
  -- anything useful stuffed into the auxiliary vectors?
  match nflux_aux, nflux_meta with
  | some aux, some meta =>
    let flux := auxDblLoop meta.auxdblname aux.auxdbl flux
    auxIntLoop meta.auxintname aux.auxint flux
  | _, _ => flux

/-- The function `evgb::FillMCFlux(genie::flux::GSimpleNtpFlux*, simb::MCFlux&)`
(source lines 948-960). -/
def FillMCFlux_GSimpleNtpFlux (gsimple : GSimpleNtpFlux) (flux : MCFlux) : MCFlux :=
  FillMCFlux_GSimpleNtp gsimple.GetCurrentEntry gsimple.GetCurrentNuMI gsimple.GetCurrentAux
    gsimple.GetCurrentMeta flux

/-- The function `evgb::FillMCFlux(const bsim::Dk2Nu*, const bsim::NuChoice*,
simb::MCFlux&)` (source lines 1129-1284). -/
def FillMCFlux_Dk2Nu (dk2nu : Option Dk2Nu) (nuchoice : Option NuChoice) (flux : MCFlux) :
    MCFlux :=
  let flux := flux.Reset
  let flux : MCFlux := { flux with fFluxType := flux_code.kDk2Nu }
  let flux : MCFlux := match dk2nu with
    | some dk2nu =>
      { flux with
        frun := dk2nu.job
        fevtno := dk2nu.potnum
        fnorig := dk2nu.decay.norig
        fndecay := dk2nu.decay.ndecay
        fntype := dk2nu.decay.ntype
        fppmedium := dk2nu.decay.ppmedium
        fptype := dk2nu.decay.ptype
        fvx := dk2nu.decay.vx
        fvy := dk2nu.decay.vy
        fvz := dk2nu.decay.vz
        fpdpx := dk2nu.decay.pdpx
        fpdpy := dk2nu.decay.pdpy
        fpdpz := dk2nu.decay.pdpz
        fppdxdz := dk2nu.decay.ppdxdz
        fppdydz := dk2nu.decay.ppdydz
        fpppz := dk2nu.decay.pppz
        fppenergy := dk2nu.decay.ppenergy
        fmuparpx := dk2nu.decay.muparpx
        fmuparpy := dk2nu.decay.muparpy
        fmuparpz := dk2nu.decay.muparpz
        fmupare := dk2nu.decay.mupare
        fnecm := dk2nu.decay.necm
        fnimpwt := dk2nu.decay.nimpwt
        fppvx := dk2nu.ppvx
        fppvy := dk2nu.ppvy
        fppvz := dk2nu.ppvz
        ftvx := dk2nu.tgtexit.tvx
        ftvy := dk2nu.tgtexit.tvy
        ftvz := dk2nu.tgtexit.tvz
        ftpx := dk2nu.tgtexit.tpx
        ftpy := dk2nu.tgtexit.tpy
        ftpz := dk2nu.tgtexit.tpz
        ftptype := dk2nu.tgtexit.tptype
        ftgen := dk2nu.tgtexit.tgen }
    | none => flux
  match nuchoice with
  | some nuchoice =>
    { flux with
      fntype := nuchoice.pdgNu
      fnimpwt := nuchoice.impWgt
      fnenergyn := nuchoice.p4NuUser.T
      fnenergyf := nuchoice.p4NuUser.T
      fnwtnear := nuchoice.xyWgt
      fnwtfar := nuchoice.xyWgt }
  | none => flux

/-- The function `evgb::FillMCFlux(genie::flux::GDk2NuFlux*, simb::MCFlux&)` (source
lines 1120-1128). -/
def FillMCFlux_GDk2NuFlux (gdk2nu : GDk2NuFlux) (flux : MCFlux) : MCFlux :=
  let flux := FillMCFlux_Dk2Nu (some gdk2nu.GetDk2Nu) (some gdk2nu.GetNuChoice) flux
  -- do this after the fill as that does a reset
  { flux with fdk2gen := gdk2nu.GetDecayDist }

/-- The message of the generic `FillMCFlux` for a driver without adapter (source
lines 835-840), logged at informational severity. -/
def noFillMCFluxMessage (dname : String) : Severity × String :=
  (Severity.info, "no FillMCFlux() for this flux driver: " ++ dname)

/-- What a call of the generic `FillMCFlux` leaves behind: the caller's flux-truth
record, the function's static flag `first`, and the diagnostics emitted. -/
structure FillMCFluxResult where
  mcflux : MCFlux
  first : Bool
  log : List (Severity × String)

/-- The function `evgb::FillMCFlux(genie::GFluxI*, simb::MCFlux&)` (source lines
802-847).  `mcflux` is the caller's record on entry and `first` the value of
the static flag on entry (`true` before the first call). -/
def FillMCFlux (fdriver : GFluxI) (mcflux : MCFlux) (first : Bool) : FillMCFluxResult :=
  -- is the real driver hidden behind a blender?
  let fdriver : GFluxI := match fdriver with
    | GFluxI.blender inner => inner
    | _ => fdriver
  match fdriver with
  | GFluxI.numi gnumi =>
    let r := FillMCFlux_GNuMIFlux gnumi mcflux
    { mcflux := r.1, first := first, log := r.2 }
  | GFluxI.simple gsimple =>
    { mcflux := FillMCFlux_GSimpleNtpFlux gsimple mcflux, first := first, log := [] }
  | GFluxI.dk2nu gdk2nu =>
    { mcflux := FillMCFlux_GDk2NuFlux gdk2nu mcflux, first := first, log := [] }
  | _ =>
    if first then
      { mcflux := mcflux, first := false, log := [noFillMCFluxMessage fdriver.typeidName] }
    else
      { mcflux := mcflux, first := first, log := [] }


/-! ## Specification-side definitions -/

/-- The priority order of the process predicates as the specification words it:
each predicate with the mode attached to it, highest priority first. -/
def modePriority : List ((ProcessInfo → Bool) × int_type) :=
  [ (ProcessInfo.IsQuasiElastic, int_type.kQE),
    (ProcessInfo.IsDeepInelastic, int_type.kDIS),
    (ProcessInfo.IsResonant, int_type.kRes),
    (ProcessInfo.IsCoherentProduction, int_type.kCoh),
    (ProcessInfo.IsCoherentElastic, int_type.kCohElastic),
    (ProcessInfo.IsElectronScattering, int_type.kElectronScattering),
    (ProcessInfo.IsNuElectronElastic, int_type.kNuElectronElastic),
    (ProcessInfo.IsInverseMuDecay, int_type.kInverseMuDecay),
    (ProcessInfo.IsIMDAnnihilation, int_type.kIMDAnnihilation),
    (ProcessInfo.IsInverseBetaDecay, int_type.kInverseBetaDecay),
    (ProcessInfo.IsGlashowResonance, int_type.kGlashowResonance),
    (ProcessInfo.IsAMNuGamma, int_type.kAMNuGamma),
    (ProcessInfo.IsMEC, int_type.kMEC),
    (ProcessInfo.IsDiffractive, int_type.kDiffractive),
    (ProcessInfo.IsEM, int_type.kEM),
    (ProcessInfo.IsWeakMix, int_type.kWeakMix) ]

/-- The mode attached to the first predicate of a priority list that holds, if
any holds. -/
def firstHolding : List ((ProcessInfo → Bool) × int_type) → ProcessInfo → Option int_type
  | [], _ => none
  | e :: rest, procInfo => if e.1 procInfo then some e.2 else firstHolding rest procInfo

/-- The probe four-momentum `k1` used by `FillMCTruth`: that of the record's
probe particle, the null four-vector when there is none (source line 333). -/
def probeP4 (lib : GenieLib) (record : EventRecord) : TLorentzVector :=
  match lib.Probe record.particles with
  | some p => p.P4
  | none => TLorentzVector.zero

/-- The primary-lepton four-momentum `k2` used by `FillMCTruth`: that of the
record's final-state primary lepton, the null four-vector when there is none
(source line 334). -/
def leptonP4 (lib : GenieLib) (record : EventRecord) : TLorentzVector :=
  match lib.FinalStatePrimaryLepton record.particles with
  | some p => p.P4
  | none => TLorentzVector.zero

/-- The four-momentum transfer squared as the specification words it:
`Q² = -(q·q) = |q_vec|² - q_E²` with `q = k1 - k2`. -/
def Q2_from_leptons (k1 k2 : TLorentzVector) : ℚ :=
  ((k1.X - k2.X) * (k1.X - k2.X) + (k1.Y - k2.Y) * (k1.Y - k2.Y)
    + (k1.Z - k2.Z) * (k1.Z - k2.Z)) - (k1.T - k2.T) * (k1.T - k2.T)

/-- The inelasticity as the specification words it: `y = q_E / k1_E`. -/
def y_from_leptons (k1 k2 : TLorentzVector) : ℚ := (k1.T - k2.T) / k1.T

/-- Bjorken x as the specification words it: `x = Q² / (2·M·v)` with `v` the
energy component of `q = k1 - k2`. -/
def x_from_leptons (M : ℚ) (k1 k2 : TLorentzVector) : ℚ :=
  Q2_from_leptons k1 k2 / (2 * M * (k1.T - k2.T))

/-- The hadronic invariant mass squared as the specification words it:
`W² = M² + 2·M·v - Q²`. -/
def W2_from_leptons (M : ℚ) (k1 k2 : TLorentzVector) : ℚ :=
  M ^ 2 + 2 * M * (k1.T - k2.T) - Q2_from_leptons k1 k2

/-- The part of an initial state that its constructor fixes from the target
and probe species codes and that `RetrieveGHEP` does not set afterwards: the
probe species and the target's species code, Z and A agree with those of
`base`. -/
def constructedFrom (init base : InitialState) : Prop :=
  init.ProbePdg = base.ProbePdg ∧ init.Tgt.Pdg = base.Tgt.Pdg ∧
    init.Tgt.Z = base.Tgt.Z ∧ init.Tgt.A = base.Tgt.A

/-- The diagnostic policy as the specification words it: every substitution of
a default four-momentum in `RetrieveGHEP` (no hit nucleon, no target nucleus,
no probe in the rebuilt stack) comes with at least one diagnostic of that
step. -/
def everySubstitutionHasDiagnostic (lib : GenieLib) (m : MCTruth) (g : GTruth) : Prop :=
  (lib.HitNucleon (RetrieveGHEP lib m g).particles = none →
    (retrieveHitNucP4 lib m.fMCNeutrino.fHitNuc (RetrieveGHEP lib m g).particles).2 ≠ []) ∧
  (lib.TargetNucleus (RetrieveGHEP lib m g).particles = none →
    (retrieveTgtP4 lib g (RetrieveGHEP lib m g).particles).2 ≠ []) ∧
  (lib.Probe (RetrieveGHEP lib m g).particles = none →
    (retrieveProbeP4 lib (RetrieveGHEP lib m g).particles).2 ≠ [])

/-- A driver wrapped `N` layers deep in the blender adapter. -/
def wrapInBlender : Nat → GFluxI → GFluxI
  | 0, d => d
  | N + 1, d => GFluxI.blender (wrapInBlender N d)

/-- A driver of one of the three concrete shapes that have an adapter: NuMI
ntuple, simple ntuple, dk2nu. -/
def concreteShape : GFluxI → Bool
  | GFluxI.numi _ => true
  | GFluxI.simple _ => true
  | GFluxI.dk2nu _ => true
  | _ => false

/-- The names of auxiliary doubles the simple-ntuple adapter recognizes. -/
def recognizedAuxDbl : List String :=
  ["muparpx", "muparpy", "muparpz", "mupare", "necm", "nimpwt", "fgXYWgt"]

/-- The names of auxiliary ints the simple-ntuple adapter recognizes. -/
def recognizedAuxInt : List String := ["tgen", "tgptype"]

/-- The simple-ntuple adapter called with the auxiliary side channels given as
lists of (name, value) pairs: the metadata holds the names and the auxiliary
branch the values, position by position. -/
def FillMCFlux_GSimpleNtp_pairs (nflux_entry : GSimpleNtpEntry)
    (nflux_numi : Option GSimpleNtpNuMI) (auxdbl : List (String × ℚ))
    (auxint : List (String × Int)) (flux : MCFlux) : MCFlux :=
  FillMCFlux_GSimpleNtp nflux_entry nflux_numi
    (some { auxint := auxint.map Prod.snd, auxdbl := auxdbl.map Prod.snd })
    (some { auxintname := auxint.map Prod.fst, auxdblname := auxdbl.map Prod.fst }) flux

/-! ## A sample library and sample records for concrete scenarios -/

/-- First particle of a stack that satisfies a test. -/
def firstParticle (test : GHepParticle → Bool) : List TObject → Option GHepParticle
  | [] => none
  | TObject.ghep p :: rest => if test p then some p else firstParticle test rest
  | TObject.other :: rest => firstParticle test rest

/-- A sample instance of the library interface: the probe is the initial-state
particle at slot 0, the target nucleus the first initial-state ion, the hit
nucleon the first particle with the nucleon-target status 11, the primary
lepton the first stable final-state daughter of slot 0. -/
def sampleLib : GenieLib where
  kNucleonMass := 0.9389
  sqrt := fun q => ((Nat.sqrt (q.num.toNat * q.den * 10 ^ 18) : ℕ) : ℚ) / (q.den * 10 ^ 9)
  kNuanceOffset := 1000
  NuanceReactionCode := fun _ => 1
  Mass := fun p => if p.Pdg = 2212 then 0.938272 else if p.Pdg = 2112 then 0.939565 else 0
  HitNucleon := firstParticle (fun p => p.Status == 11)
  TargetNucleus := firstParticle (fun p => p.Status == 0 && decide (1000000000 ≤ p.Pdg))
  Probe := fun stack => match stack with
    | TObject.ghep p :: _ => if p.Status = 0 then some p else none
    | _ => none
  FinalStatePrimaryLepton := firstParticle (fun p => p.Status == 1 && p.FirstMother == 0)
  PrimaryLepton := fun l => l.find? (fun p => p.fStatus == 1 && p.fMother == 0)
  ProcessInfo_Set := fun sc it =>
    { ScatteringTypeId := sc, InteractionTypeId := it
      IsWeakNC := it == 3
      IsQuasiElastic := sc == 1, IsDeepInelastic := sc == 3, IsResonant := sc == 4
      IsCoherentProduction := sc == 5, IsCoherentElastic := sc == 13
      IsElectronScattering := sc == 7, IsNuElectronElastic := sc == 8
      IsInverseMuDecay := sc == 9, IsIMDAnnihilation := sc == 12
      IsInverseBetaDecay := sc == 14, IsGlashowResonance := sc == 15
      IsAMNuGamma := sc == 10, IsMEC := sc == 11, IsDiffractive := sc == 6
      IsEM := it == 1, IsWeakMix := it == 4 }
  IonPdgCode := fun A Z => 1000000000 + Z * 10000 + A * 10
  InitialState_ctor := fun target_pdgc probe_pdgc =>
    { ProbePdg := probe_pdgc
      Tgt := { Pdg := target_pdgc, Z := (target_pdgc / 10000) % 1000
               A := (target_pdgc / 10) % 1000, HitNucPdg := 0, HitQrkPdg := 0
               HitSeaQrk := false, HitNucP4 := TLorentzVector.zero, HitNucPosition := 0 }
      ProbeP4 := TLorentzVector.zero, TgtP4 := TLorentzVector.zero }
  PDGLibrary_Find := fun pdg =>
    if pdg = 1000010010 then some 0.938272
    else if pdg = 1000060120 then some 11.17486 else none

/-- A stack particle with the given species, status, mother and four-momentum,
at the nucleus centre, unpolarized. -/
def sampleParticle (pdg status mother : Int) (p4 : TLorentzVector) : GHepParticle :=
  { Pdg := pdg, Status := status, FirstMother := mother, LastMother := -1
    FirstDaughter := -1, LastDaughter := -1, P4 := p4, X4 := TLorentzVector.zero
    RescatterCode := -1, Polz := none }

/-- Process info with every predicate false. -/
def sampleProcNone : ProcessInfo :=
  { ScatteringTypeId := 0, InteractionTypeId := 0, IsWeakNC := false
    IsQuasiElastic := false, IsDeepInelastic := false, IsResonant := false
    IsCoherentProduction := false, IsCoherentElastic := false
    IsElectronScattering := false, IsNuElectronElastic := false
    IsInverseMuDecay := false, IsIMDAnnihilation := false
    IsInverseBetaDecay := false, IsGlashowResonance := false
    IsAMNuGamma := false, IsMEC := false, IsDiffractive := false
    IsEM := false, IsWeakMix := false }

/-- A sample initial state: muon neutrino on carbon-12, neutron struck. -/
def sampleInitState : InitialState :=
  { ProbePdg := 14
    Tgt := { Pdg := 1000060120, Z := 6, A := 12, HitNucPdg := 2112, HitQrkPdg := 0
             HitSeaQrk := false, HitNucP4 := ⟨0, 0, 0, 0.9389⟩, HitNucPosition := 0 }
    ProbeP4 := ⟨0, 0, 1, 1⟩, TgtP4 := ⟨0, 0, 0, 11.17486⟩ }

/-- The concrete scenario of the specification: a quasi-elastic charged-current
event, probe `(0,0,1,1)` GeV, struck neutron, outgoing muon `(0,0,0.8,0.85)` GeV
and a recoil proton. -/
def sampleQERecord : EventRecord :=
  { particles :=
      [ TObject.ghep (sampleParticle 14 0 (-1) ⟨0, 0, 1, 1⟩),
        TObject.ghep (sampleParticle 1000060120 0 (-1) ⟨0, 0, 0, 11.17486⟩),
        TObject.ghep (sampleParticle 2112 11 1 ⟨0, 0, 0, 0.9389⟩),
        TObject.ghep (sampleParticle 13 1 0 ⟨0, 0, 0.8, 0.85⟩),
        TObject.ghep (sampleParticle 2212 1 2 ⟨0, 0, 0.2, 1.0889⟩) ]
    Summary :=
      { InitState := sampleInitState
        ProcInfo := { sampleProcNone with
          ScatteringTypeId := 1, InteractionTypeId := 2, IsQuasiElastic := true }
        Kine := { Kinematics.init with KVSelQ2 := some 0.02, KVSelW := some 0.9389 }
        ExclTag := XclsTag.init }
    Vertex := ⟨1, 2, 3, 0⟩
    Weight := 1, Probability := 1, XSec := 0.5, DiffXSec := 0.25, DiffXSecVars := 5 }

/-- A record without struck nucleon and without coherent production: elastic
scattering of a neutrino on an electron. -/
def sampleNuERecord : EventRecord :=
  { particles :=
      [ TObject.ghep (sampleParticle 14 0 (-1) ⟨0, 0, 1, 1⟩),
        TObject.ghep (sampleParticle 1000060120 0 (-1) ⟨0, 0, 0, 11.17486⟩),
        TObject.ghep (sampleParticle 14 1 0 ⟨0, 0, 0.5, 0.5⟩) ]
    Summary :=
      { InitState := sampleInitState
        ProcInfo := { sampleProcNone with
          ScatteringTypeId := 8, InteractionTypeId := 3, IsWeakNC := true
          IsNuElectronElastic := true }
        Kine := Kinematics.init
        ExclTag := XclsTag.init }
    Vertex := ⟨0, 0, 0, 0⟩
    Weight := 1, Probability := 1, XSec := 0, DiffXSec := 0, DiffXSecVars := 0 }

/-- An empty neutrino-truth record as a caller would pass it in. -/
def sampleTruth : MCTruth :=
  { fPartList := []
    fMCNeutrino :=
      { fLepton := none, fCCNC := curr_type.kCC, fMode := int_type.kUnknownInteraction
        fInteractionType := -1, fTarget := 0, fHitNuc := 0, fHitQuark := 0
        fW := 0, fX := 0, fY := 0, fQSqr := 0 }
    fOrigin := Origin_t.kUnknown
    fNeutrinoSet := false
    fGenInfo := ⟨Generator_t.kUnknown, "", []⟩ }

/-- A stored generator-truth record with target carbon-12 and nothing else
filled in. -/
def sampleGTruthCarbon : GTruth := { GTruth.fresh with ftgtPDG := 1000060120 }

/-- A NuMI ntuple driver with PDG particle codes, original units, run 1 and
event 42. -/
def sampleNuMIDriver : GNuMIFlux :=
  { PassThroughInfo :=
      { (default : GNuMIFluxPassThroughInfo) with pcodes := 1, units := 0, run := 1, evtno := 42 }
    GetDecayDist := 735 }

/-- A flux-truth record that still holds run 7 of an earlier event. -/
def samplePriorFlux : MCFlux := { (default : MCFlux).Reset with frun := 7 }

/-- A neutrino-truth record that still holds one particle of an earlier call. -/
def sampleTruthUsed : MCTruth :=
  { sampleTruth with
    fPartList :=
      [fillParticle sampleLib ⟨0, 0, 0, 0⟩ ⟨0, 0, 0, 0⟩ false 0
        (sampleParticle 12 0 (-1) ⟨0, 0, 2, 2⟩)] }

/-- A generator-truth record that still holds a selected x of 0.5 and a selected
t of 0.25 from an earlier call. -/
def sampleGTruthUsed : GTruth := { GTruth.fresh with fgX := 0.5, fgT := 0.25 }

/-- A coherent elastic scattering record: no struck nucleon, the process is
coherent-elastic and not coherent-production. -/
def sampleCohElRecord : EventRecord :=
  { sampleNuERecord with
    Summary := { sampleNuERecord.Summary with
      ProcInfo := { sampleProcNone with
        ScatteringTypeId := 13, InteractionTypeId := 3, IsWeakNC := true
        IsCoherentElastic := true } } }

/-- Pass-through info with the original particle codes (`pcodes = 0`) in the
original units (`units = 0`). -/
def samplePassThroughWrongCodes : GNuMIFluxPassThroughInfo :=
  { (default : GNuMIFluxPassThroughInfo) with pcodes := 0, units := 0, run := 1, evtno := 42 }

/-- An entry of the simple-ntuple driver: a muon neutrino of 2 GeV. -/
def sampleSimpleEntry : GSimpleNtpEntry := { pdg := 14, wgt := 1, dist := 100, E := 2 }

/-! ## Double-precision evaluation of the leptonic kinematics

The records above hold a C++ `double` as the rational number it denotes, and the
functions above evaluate arithmetic exactly.  The sign of `Q2` (source lines
353-355) depends on the rounding of each operation, so this section evaluates
source lines 353-357 with every operation rounded to a `double`. -/

/-- Floor of the binary logarithm by repeated halving, at most `fuel` times. -/
def floorLog2Aux : Nat → Nat → Nat
  | 0, _ => 0
  | fuel + 1, n => if n < 2 then 0 else floorLog2Aux fuel (n / 2) + 1

/-- Position of the leading binary digit:
`2 ^ floorLog2 n ≤ n < 2 ^ (floorLog2 n + 1)` for `n ≥ 1`. -/
def floorLog2 (n : Nat) : Nat := floorLog2Aux n n

/-- The integer nearest to `n / d`; of two equally near integers, the even
one. -/
def roundHalfEven (n d : Nat) : Nat :=
  let f := n / d
  let r := n % d
  if 2 * r < d then f else if d < 2 * r then f + 1 else if f % 2 = 0 then f else f + 1

/-- The exponent `e` with `2 ^ 52 ≤ (n / d) / 2 ^ e < 2 ^ 53`, for `n, d ≥ 1`:
`2 ^ e` is the unit in the last place of a 53-bit significand for the value
`n / d`. -/
def binaryExponent (n d : Nat) : Int :=
  let e0 : Int := (floorLog2 n : Int) - (floorLog2 d : Int) - 52
  if 2 ^ 52 * (d * 2 ^ e0.toNat) ≤ n * 2 ^ (-e0).toNat then e0 else e0 - 1

/-- The `double` that an arithmetic operation with exact result `x` returns
(IEEE 754 binary64, round to nearest, ties to even).  The significand has 53
bits; the unit in the last place is not smaller than `2 ^ (-1074)` (subnormal
numbers); `none` stands for a result of magnitude `2 ^ 1024` or more, which is
not a finite `double` (overflow). -/
def roundDouble (x : ℚ) : Option ℚ :=
  if x = 0 then some 0 else
    let n := x.num.natAbs
    let d := x.den
    let e := max (binaryExponent n d) (-1074)
    let m := roundHalfEven (n * 2 ^ (-e).toNat) (d * 2 ^ e.toNat)
    if (2 : ℚ) ^ 1024 ≤ (m : ℚ) * 2 ^ e then none
    else some ((if x < 0 then -1 else 1) * (m : ℚ) * 2 ^ e)

/-- Source lines 353 and 355, `q = k1 - k2` and `Q2 = -1 * q.M2()` with
`M2() = T*T - (X*X + Y*Y + Z*Z)`, every operation followed by the rounding
`rnd`.  With `rnd = some` nothing is rounded and the value is the one
`FillMCTruth` above stores; with `rnd = roundDouble` every operation is a
`double` operation, each rounded on its own, and `none` means that the result is
not a finite `double`. -/
def Q2_rounded (rnd : ℚ → Option ℚ) (k1 k2 : TLorentzVector) : Option ℚ := do
  -- q = k1 - k2
  let qX ← rnd (k1.X - k2.X)
  let qY ← rnd (k1.Y - k2.Y)
  let qZ ← rnd (k1.Z - k2.Z)
  let qT ← rnd (k1.T - k2.T)
  -- q.M2()
  let tt ← rnd (qT * qT)
  let xx ← rnd (qX * qX)
  let yy ← rnd (qY * qY)
  let xxyy ← rnd (xx + yy)
  let zz ← rnd (qZ * qZ)
  let mag2 ← rnd (xxyy + zz)
  let m2 ← rnd (tt - mag2)
  -- Q2 = -1 * q.M2()
  rnd (-1 * m2)

/-- Source lines 353, 356 and 357, `v = q.Energy()` and `y = v / k1.Energy()`,
every operation followed by the rounding `rnd`; `none` for a probe energy of
zero, where the quotient is not a finite `double`. -/
def y_rounded (rnd : ℚ → Option ℚ) (k1 k2 : TLorentzVector) : Option ℚ := do
  let v ← rnd (k1.T - k2.T)
  if k1.T = 0 then none else rnd (v / k1.T)

/-- The local variable `Q2` of `FillMCTruth` (source line 355), which line 386
hands to `SetNeutrino`, as evaluated in `double` arithmetic from the probe and
lepton four-momenta. -/
def FillMCTruth_Q2_double (lib : GenieLib) (record : EventRecord) : Option ℚ :=
  Q2_rounded roundDouble (probeP4 lib record) (leptonP4 lib record)

/-- The local variable `y` of `FillMCTruth` (source line 357), which line 385
hands to `SetNeutrino`, as evaluated in `double` arithmetic from the probe and
lepton four-momenta. -/
def FillMCTruth_y_double (lib : GenieLib) (record : EventRecord) : Option ℚ :=
  y_rounded roundDouble (probeP4 lib record) (leptonP4 lib record)

/-- A component of the momentum transfer whose square neither underflows nor
overflows: zero, or between `2 ^ (-400)` and `2 ^ 400` in magnitude. -/
def squareInRange (d : ℚ) : Prop := (d = 0 ∨ 1 / 2 ^ 400 ≤ |d|) ∧ |d| ≤ 2 ^ 400

instance (d : ℚ) : Decidable (squareInRange d) :=
  inferInstanceAs (Decidable ((d = 0 ∨ 1 / 2 ^ 400 ≤ |d|) ∧ |d| ≤ 2 ^ 400))

/-- Forward scattering of a massless probe on a struck neutron: the probe has
four-momentum `(3a, 0, 4a, 5a) / 2^26` GeV with `a = 2^27 + 7`, in decimals
`(6.00000031292438507080078125, 0, 8.000000417232513427734375,
10.00000052154064178466796875)`, the outgoing neutrino `(3, 0, 4, 5)` GeV.  Both
are light-like and parallel, so the momentum transfer is null; every
four-momentum on the particle stack is made of `double`s. -/
def sampleForwardRecord : EventRecord :=
  { particles :=
      [ TObject.ghep (sampleParticle 14 0 (-1)
          ⟨402653205 / 67108864, 0, 134217735 / 16777216, 671088675 / 67108864⟩),
        TObject.ghep (sampleParticle 1000060120 0 (-1) ⟨0, 0, 0, 11.1875⟩),
        TObject.ghep (sampleParticle 2112 11 1 ⟨0, 0, 0, 0.9375⟩),
        TObject.ghep (sampleParticle 14 1 0 ⟨3, 0, 4, 5⟩) ]
    Summary :=
      { InitState := sampleInitState
        ProcInfo := { sampleProcNone with
          ScatteringTypeId := 3, InteractionTypeId := 3, IsWeakNC := true
          IsDeepInelastic := true }
        Kine := Kinematics.init
        ExclTag := XclsTag.init }
    Vertex := ⟨0, 0, 0, 0⟩
    Weight := 1, Probability := 1, XSec := 0, DiffXSec := 0, DiffXSecVars := 0 }

/-! ## Theorems -/

theorem interactionMode_eq_firstHolding (procInfo : ProcessInfo) :
    interactionMode procInfo =
      (firstHolding modePriority procInfo).getD int_type.kUnknownInteraction := by
  obtain ⟨a, b, c, p1, p2, p3, p4, p5, p6, p7, p8, p9, p10, p11, p12, p13, p14, p15, p16⟩ :=
    procInfo
  simp only [interactionMode, modePriority, firstHolding]
  cases p1 <;> [skip; rfl]
  cases p2 <;> [skip; rfl]
  cases p3 <;> [skip; rfl]
  cases p4 <;> [skip; rfl]
  cases p5 <;> [skip; rfl]
  cases p6 <;> [skip; rfl]
  cases p7 <;> [skip; rfl]
  cases p8 <;> [skip; rfl]
  cases p9 <;> [skip; rfl]
  cases p10 <;> [skip; rfl]
  cases p11 <;> [skip; rfl]
  cases p12 <;> [skip; rfl]
  cases p13 <;> [skip; rfl]
  cases p14 <;> [skip; rfl]
  cases p15 <;> [skip; rfl]
  cases p16 <;> rfl

theorem firstHolding_eq_none_iff (l : List ((ProcessInfo → Bool) × int_type))
    (procInfo : ProcessInfo) :
    firstHolding l procInfo = none ↔ ∀ e ∈ l, e.1 procInfo = false := by
  induction l with
  | nil => simp [firstHolding]
  | cons e rest ih =>
    simp only [firstHolding, List.mem_cons, forall_eq_or_imp]
    cases h : e.1 procInfo <;> simp [ih]

theorem firstHolding_ne_unknown (procInfo : ProcessInfo) :
    firstHolding modePriority procInfo ≠ some int_type.kUnknownInteraction := by
  obtain ⟨a, b, c, p1, p2, p3, p4, p5, p6, p7, p8, p9, p10, p11, p12, p13, p14, p15, p16⟩ :=
    procInfo
  simp only [modePriority, firstHolding]
  cases p1 <;> [skip; simp]
  cases p2 <;> [skip; simp]
  cases p3 <;> [skip; simp]
  cases p4 <;> [skip; simp]
  cases p5 <;> [skip; simp]
  cases p6 <;> [skip; simp]
  cases p7 <;> [skip; simp]
  cases p8 <;> [skip; simp]
  cases p9 <;> [skip; simp]
  cases p10 <;> [skip; simp]
  cases p11 <;> [skip; simp]
  cases p12 <;> [skip; simp]
  cases p13 <;> [skip; simp]
  cases p14 <;> [skip; simp]
  cases p15 <;> [skip; simp]
  cases p16 <;> simp

theorem FillMCTruth_fMode (lib : GenieLib) (record : EventRecord)
    (vtxOffset : TLorentzVector) (truth : MCTruth) (genieVersion genieTune : String)
    (addGenieVtxTime : Bool) (genConfig : ConfigMap) :
    (FillMCTruth lib record vtxOffset truth genieVersion genieTune addGenieVtxTime
      genConfig).fMCNeutrino.fMode = interactionMode record.Summary.ProcInfo := rfl

/-- C1: the mode stored by `FillMCTruth` is the value attached to the first
process predicate that holds in the fixed priority order, and it is the
unknown-interaction value exactly when no predicate holds. -/
theorem C1_mode_is_first_holding_predicate (lib : GenieLib) (record : EventRecord)
    (vtxOffset : TLorentzVector) (truth : MCTruth) (genieVersion genieTune : String)
    (addGenieVtxTime : Bool) (genConfig : ConfigMap) :
    (FillMCTruth lib record vtxOffset truth genieVersion genieTune addGenieVtxTime
        genConfig).fMCNeutrino.fMode =
      (firstHolding modePriority record.Summary.ProcInfo).getD int_type.kUnknownInteraction ∧
    ((FillMCTruth lib record vtxOffset truth genieVersion genieTune addGenieVtxTime
        genConfig).fMCNeutrino.fMode = int_type.kUnknownInteraction ↔
      ∀ e ∈ modePriority, e.1 record.Summary.ProcInfo = false) := by
  rw [FillMCTruth_fMode, interactionMode_eq_firstHolding, ← firstHolding_eq_none_iff]
  refine ⟨rfl, ?_⟩
  cases h : firstHolding modePriority record.Summary.ProcInfo with
  | none => simp
  | some m =>
    have := firstHolding_ne_unknown record.Summary.ProcInfo
    rw [h] at this
    simpa using fun hm => this (by rw [hm])

theorem fillParticles_map_ghep (lib : GenieLib) (vertex vtxOffset : TLorentzVector)
    (addGenieVtxTime : Bool) (parts : List GHepParticle) :
    ∀ (trackid : Int) (partList : List MCParticle),
      ∃ emitted : List MCParticle,
        fillParticles lib vertex vtxOffset addGenieVtxTime trackid
          (parts.map TObject.ghep) partList = partList ++ emitted ∧
        emitted.length = parts.length ∧
        ∀ i : Fin parts.length, emitted[i.1]? =
          some (fillParticle lib vertex vtxOffset addGenieVtxTime (trackid + (i.1 : Int))
            (parts.get i)) := by
  induction parts with
  | nil =>
    intro trackid partList
    exact ⟨[], by simp [fillParticles], rfl, fun i => i.elim0⟩
  | cons p ps ih =>
    intro trackid partList
    obtain ⟨em, h1, h2, h3⟩ := ih (trackid + 1)
      (partList ++ [fillParticle lib vertex vtxOffset addGenieVtxTime trackid p])
    refine ⟨fillParticle lib vertex vtxOffset addGenieVtxTime trackid p :: em, ?_, ?_, ?_⟩
    · simp only [List.map_cons, fillParticles, h1, List.append_assoc, List.singleton_append]
    · simp [h2]
    · rintro ⟨i, hi⟩
      cases i with
      | zero => simp
      | succ j =>
        have hj : j < ps.length := by simpa using hi
        have := h3 ⟨j, hj⟩
        simp only [List.getElem?_cons_succ, List.get_eq_getElem, List.getElem_cons_succ] at this ⊢
        rw [this]
        congr 2
        push_cast
        ring

theorem FillMCTruth_fPartList (lib : GenieLib) (record : EventRecord)
    (vtxOffset : TLorentzVector) (truth : MCTruth) (genieVersion genieTune : String)
    (addGenieVtxTime : Bool) (genConfig : ConfigMap) :
    (FillMCTruth lib record vtxOffset truth genieVersion genieTune addGenieVtxTime
      genConfig).fPartList =
      fillParticles lib record.Vertex vtxOffset addGenieVtxTime 0 record.particles
        truth.fPartList := rfl

/-- C2: for a stack of N particle entries `FillMCTruth` appends exactly N
particles to the truth record, in stack order; the i-th of them has track id i
and the species code, status, first-mother index, four-momentum and rescatter
code of the i-th stack particle. -/
theorem C2_particles_emitted_in_order (lib : GenieLib) (record : EventRecord)
    (parts : List GHepParticle) (vtxOffset : TLorentzVector) (truth : MCTruth)
    (genieVersion genieTune : String) (addGenieVtxTime : Bool) (genConfig : ConfigMap) :
    ∃ emitted : List MCParticle,
      (FillMCTruth lib { record with particles := parts.map TObject.ghep } vtxOffset truth
        genieVersion genieTune addGenieVtxTime genConfig).fPartList =
          truth.fPartList ++ emitted ∧
      emitted.length = parts.length ∧
      ∀ i : Fin parts.length, ∃ t : MCParticle,
        emitted[i.1]? = some t ∧
        t.fTrackId = (i.1 : Int) ∧
        t.fPdgCode = (parts.get i).Pdg ∧
        t.fStatus = (parts.get i).Status ∧
        t.fMother = (parts.get i).FirstMother ∧
        t.fFirstPoint.2 = (parts.get i).P4 ∧
        t.fRescatter = (parts.get i).RescatterCode := by
  obtain ⟨em, h1, h2, h3⟩ :=
    fillParticles_map_ghep lib record.Vertex vtxOffset addGenieVtxTime parts 0 truth.fPartList
  refine ⟨em, ?_, h2, fun i => ⟨_, h3 i, ?_⟩⟩
  · rw [FillMCTruth_fPartList]
    exact h1
  · simp [fillParticle]

theorem fillParticle_false_vertexT (lib : GenieLib) (vertex vtxOffset : TLorentzVector)
    (T' : ℚ) (trackid : Int) (part : GHepParticle) :
    fillParticle lib { vertex with T := T' } vtxOffset false trackid part =
      fillParticle lib vertex vtxOffset false trackid part := by
  simp [fillParticle]

theorem fillParticles_false_vertexT (lib : GenieLib) (vertex vtxOffset : TLorentzVector)
    (T' : ℚ) (stack : List TObject) :
    ∀ (trackid : Int) (partList : List MCParticle),
      fillParticles lib { vertex with T := T' } vtxOffset false trackid stack partList =
        fillParticles lib vertex vtxOffset false trackid stack partList := by
  induction stack with
  | nil => intro trackid partList; simp [fillParticles]
  | cons e rest ih =>
    intro trackid partList
    cases e with
    | other => simp [fillParticles]
    | ghep p => simp only [fillParticles, fillParticle_false_vertexT, ih]

/-- C3: the trajectory point of the i-th emitted particle has, on each spatial
axis, position `100*(V*1e-15 + vertex) + offset` (fm and m to cm, plus the
caller offset), and time `1e-15*Vt + ot`, to which `1e9*T` is added exactly when
`addGenieVtxTime` is set; with the flag unset the emitted particles do not
depend on the vertex time. -/
theorem C3_trajectory_point_units (lib : GenieLib) (record : EventRecord)
    (parts : List GHepParticle) (vtxOffset : TLorentzVector) (truth : MCTruth)
    (genieVersion genieTune : String) (addGenieVtxTime : Bool) (genConfig : ConfigMap) :
    (∃ emitted : List MCParticle,
      (FillMCTruth lib { record with particles := parts.map TObject.ghep } vtxOffset truth
        genieVersion genieTune addGenieVtxTime genConfig).fPartList =
          truth.fPartList ++ emitted ∧
      ∀ i : Fin parts.length, ∃ t : MCParticle,
        emitted[i.1]? = some t ∧
        t.fFirstPoint.1.X = 100 * ((parts.get i).X4.X * 1.0e-15 + record.Vertex.X) + vtxOffset.X ∧
        t.fFirstPoint.1.Y = 100 * ((parts.get i).X4.Y * 1.0e-15 + record.Vertex.Y) + vtxOffset.Y ∧
        t.fFirstPoint.1.Z = 100 * ((parts.get i).X4.Z * 1.0e-15 + record.Vertex.Z) + vtxOffset.Z ∧
        t.fFirstPoint.1.T =
          (if addGenieVtxTime then
            1.0e-15 * (parts.get i).X4.T + vtxOffset.T + 1.0e9 * record.Vertex.T
          else 1.0e-15 * (parts.get i).X4.T + vtxOffset.T)) ∧
    (∀ T' : ℚ,
      (FillMCTruth lib { record with particles := parts.map TObject.ghep,
                                     Vertex := { record.Vertex with T := T' } }
        vtxOffset truth genieVersion genieTune false genConfig).fPartList =
      (FillMCTruth lib { record with particles := parts.map TObject.ghep } vtxOffset truth
        genieVersion genieTune false genConfig).fPartList) := by
  constructor
  · obtain ⟨em, h1, _, h3⟩ :=
      fillParticles_map_ghep lib record.Vertex vtxOffset addGenieVtxTime parts 0
        truth.fPartList
    refine ⟨em, ?_, fun i => ⟨_, h3 i, ?_⟩⟩
    · rw [FillMCTruth_fPartList]
      exact h1
    · refine ⟨rfl, rfl, rfl, ?_⟩
      cases addGenieVtxTime
      · simp [fillParticle]
      · simp only [fillParticle, if_true]
        ring
  · intro T'
    rw [FillMCTruth_fPartList, FillMCTruth_fPartList]
    exact fillParticles_false_vertexT lib record.Vertex vtxOffset T' _ 0 truth.fPartList

theorem FillMCTruth_fQSqr (lib : GenieLib) (record : EventRecord)
    (vtxOffset : TLorentzVector) (truth : MCTruth) (genieVersion genieTune : String)
    (addGenieVtxTime : Bool) (genConfig : ConfigMap) :
    (FillMCTruth lib record vtxOffset truth genieVersion genieTune addGenieVtxTime
      genConfig).fMCNeutrino.fQSqr =
      -1 * (TLorentzVector.sub (probeP4 lib record) (leptonP4 lib record)).M2 := rfl

theorem FillMCTruth_fY (lib : GenieLib) (record : EventRecord)
    (vtxOffset : TLorentzVector) (truth : MCTruth) (genieVersion genieTune : String)
    (addGenieVtxTime : Bool) (genConfig : ConfigMap) :
    (FillMCTruth lib record vtxOffset truth genieVersion genieTune addGenieVtxTime
      genConfig).fMCNeutrino.fY =
      (TLorentzVector.sub (probeP4 lib record) (leptonP4 lib record)).Energy /
        (probeP4 lib record).Energy := rfl

theorem FillMCTruth_fX (lib : GenieLib) (record : EventRecord)
    (vtxOffset : TLorentzVector) (truth : MCTruth) (genieVersion genieTune : String)
    (addGenieVtxTime : Bool) (genConfig : ConfigMap) :
    (FillMCTruth lib record vtxOffset truth genieVersion genieTune addGenieVtxTime
      genConfig).fMCNeutrino.fX =
      if (lib.HitNucleon record.particles).isSome || record.Summary.ProcInfo.IsCoherentProduction
      then 0.5 * (-1 * (TLorentzVector.sub (probeP4 lib record) (leptonP4 lib record)).M2) /
        (lib.kNucleonMass *
          (TLorentzVector.sub (probeP4 lib record) (leptonP4 lib record)).Energy)
      else -1 := by
  show (ite _ _ _ : ℚ × ℚ × ℚ).1 = _
  split_ifs <;> rfl

theorem FillMCTruth_fW (lib : GenieLib) (record : EventRecord)
    (vtxOffset : TLorentzVector) (truth : MCTruth) (genieVersion genieTune : String)
    (addGenieVtxTime : Bool) (genConfig : ConfigMap) :
    (FillMCTruth lib record vtxOffset truth genieVersion genieTune addGenieVtxTime
      genConfig).fMCNeutrino.fW =
      if (lib.HitNucleon record.particles).isSome || record.Summary.ProcInfo.IsCoherentProduction
      then lib.sqrt (lib.kNucleonMass * lib.kNucleonMass +
        2 * lib.kNucleonMass *
          (TLorentzVector.sub (probeP4 lib record) (leptonP4 lib record)).Energy -
        -1 * (TLorentzVector.sub (probeP4 lib record) (leptonP4 lib record)).M2)
      else -1 := by
  show (ite _ _ _ : ℚ × ℚ × ℚ).2.2 = _
  split_ifs <;> rfl

theorem neg_M2_sub (k1 k2 : TLorentzVector) :
    -1 * (TLorentzVector.sub k1 k2).M2 = Q2_from_leptons k1 k2 := by
  simp only [TLorentzVector.sub, TLorentzVector.M2, TLorentzVector.Mag2v, Q2_from_leptons]
  ring

theorem probeP4_setKine (lib : GenieLib) (record : EventRecord) (s : Interaction) :
    probeP4 lib { record with Summary := s } = probeP4 lib record := rfl

theorem leptonP4_setKine (lib : GenieLib) (record : EventRecord) (s : Interaction) :
    leptonP4 lib { record with Summary := s } = leptonP4 lib record := rfl

/-- C4: the Q² and y stored by `FillMCTruth` are `|q_vec|² - q_E²` and
`q_E / k1_E` for `q = k1 - k2`, with `k1` the probe and `k2` the primary-lepton
four-momentum; replacing the record's stored kinematic-variable set and the
struck-nucleon four-momentum changes neither. -/
theorem C4_Q2_y_from_leptons_only (lib : GenieLib) (record : EventRecord)
    (vtxOffset : TLorentzVector) (truth : MCTruth) (genieVersion genieTune : String)
    (addGenieVtxTime : Bool) (genConfig : ConfigMap) :
    (FillMCTruth lib record vtxOffset truth genieVersion genieTune addGenieVtxTime
        genConfig).fMCNeutrino.fQSqr =
      Q2_from_leptons (probeP4 lib record) (leptonP4 lib record) ∧
    (FillMCTruth lib record vtxOffset truth genieVersion genieTune addGenieVtxTime
        genConfig).fMCNeutrino.fY =
      y_from_leptons (probeP4 lib record) (leptonP4 lib record) ∧
    ∀ (kine : Kinematics) (hitNucP4 : TLorentzVector),
      (FillMCTruth lib
          { record with Summary := { record.Summary with
              Kine := kine
              InitState := { record.Summary.InitState with
                Tgt := { record.Summary.InitState.Tgt with HitNucP4 := hitNucP4 } } } }
          vtxOffset truth genieVersion genieTune addGenieVtxTime
          genConfig).fMCNeutrino.fQSqr =
        (FillMCTruth lib record vtxOffset truth genieVersion genieTune addGenieVtxTime
          genConfig).fMCNeutrino.fQSqr ∧
      (FillMCTruth lib
          { record with Summary := { record.Summary with
              Kine := kine
              InitState := { record.Summary.InitState with
                Tgt := { record.Summary.InitState.Tgt with HitNucP4 := hitNucP4 } } } }
          vtxOffset truth genieVersion genieTune addGenieVtxTime
          genConfig).fMCNeutrino.fY =
        (FillMCTruth lib record vtxOffset truth genieVersion genieTune addGenieVtxTime
          genConfig).fMCNeutrino.fY := by
  refine ⟨?_, ?_, fun kine hitNucP4 => ⟨rfl, rfl⟩⟩
  · rw [FillMCTruth_fQSqr, neg_M2_sub]
  · rw [FillMCTruth_fY]
    rfl

/-- C5: when the record has no struck nucleon and the process is not coherent
production, the Bjorken x and W stored by `FillMCTruth` are both -1. -/
theorem C5_x_W_unavailable (lib : GenieLib) (record : EventRecord)
    (vtxOffset : TLorentzVector) (truth : MCTruth) (genieVersion genieTune : String)
    (addGenieVtxTime : Bool) (genConfig : ConfigMap)
    (hNucleon : lib.HitNucleon record.particles = none)
    (hCoherent : record.Summary.ProcInfo.IsCoherentProduction = false) :
    (FillMCTruth lib record vtxOffset truth genieVersion genieTune addGenieVtxTime
        genConfig).fMCNeutrino.fX = -1 ∧
    (FillMCTruth lib record vtxOffset truth genieVersion genieTune addGenieVtxTime
        genConfig).fMCNeutrino.fW = -1 := by
  rw [FillMCTruth_fX, FillMCTruth_fW, hNucleon, hCoherent]
  simp

theorem C5_x_W_unavailable_witness :
    sampleLib.HitNucleon sampleNuERecord.particles = none ∧
    sampleNuERecord.Summary.ProcInfo.IsCoherentProduction = false ∧
    (FillMCTruth sampleLib sampleNuERecord ⟨0, 0, 0, 0⟩ sampleTruth "3.4.0" "G18_10a_02_11a"
        false []).fMCNeutrino.fX = -1 ∧
    (FillMCTruth sampleLib sampleNuERecord ⟨0, 0, 0, 0⟩ sampleTruth "3.4.0" "G18_10a_02_11a"
        false []).fMCNeutrino.fW = -1 :=
  ⟨by decide, by decide,
    C5_x_W_unavailable sampleLib sampleNuERecord ⟨0, 0, 0, 0⟩ sampleTruth "3.4.0"
      "G18_10a_02_11a" false [] (by decide) (by decide)⟩

theorem half_div_eq (Q2 M v : ℚ) : 0.5 * Q2 / (M * v) = Q2 / (2 * M * v) := by
  by_cases h : M * v = 0
  · have h2 : 2 * M * v = 0 := by rw [mul_assoc, h, mul_zero]
    rw [h, h2, div_zero, div_zero]
  · have h2 : 2 * M * v ≠ 0 := by
      rw [mul_assoc]
      exact mul_ne_zero two_ne_zero h
    rw [div_eq_div_iff h h2]
    norm_num
    ring

/-- C6: when a struck nucleon exists or the process is coherent production,
`FillMCTruth` stores `x = Q² / (2·M·v)` and `W = sqrt(M² + 2·M·v - Q²)`, with `M`
the nucleon-mass constant and `Q²`, `v` computed from `q = k1 - k2` alone. -/
theorem C6_x_W_from_nucleon_mass (lib : GenieLib) (record : EventRecord)
    (vtxOffset : TLorentzVector) (truth : MCTruth) (genieVersion genieTune : String)
    (addGenieVtxTime : Bool) (genConfig : ConfigMap)
    (h : (lib.HitNucleon record.particles).isSome = true ∨
      record.Summary.ProcInfo.IsCoherentProduction = true) :
    (FillMCTruth lib record vtxOffset truth genieVersion genieTune addGenieVtxTime
        genConfig).fMCNeutrino.fX =
      x_from_leptons lib.kNucleonMass (probeP4 lib record) (leptonP4 lib record) ∧
    (FillMCTruth lib record vtxOffset truth genieVersion genieTune addGenieVtxTime
        genConfig).fMCNeutrino.fW =
      lib.sqrt (W2_from_leptons lib.kNucleonMass (probeP4 lib record) (leptonP4 lib record)) := by
  have hc : ((lib.HitNucleon record.particles).isSome ||
      record.Summary.ProcInfo.IsCoherentProduction) = true := by
    rcases h with h | h <;> simp [h]
  rw [FillMCTruth_fX, FillMCTruth_fW, if_pos hc, if_pos hc, neg_M2_sub, half_div_eq]
  refine ⟨rfl, ?_⟩
  congr 1
  simp only [W2_from_leptons, TLorentzVector.sub, TLorentzVector.Energy]
  ring

theorem C6_x_W_from_nucleon_mass_witness :
    (FillMCTruth sampleLib sampleQERecord ⟨0, 0, 0, 0⟩ sampleTruth "3.4.0" "G18_10a_02_11a"
        false []).fMCNeutrino.fX =
      x_from_leptons sampleLib.kNucleonMass (probeP4 sampleLib sampleQERecord)
        (leptonP4 sampleLib sampleQERecord) ∧
    (FillMCTruth sampleLib sampleQERecord ⟨0, 0, 0, 0⟩ sampleTruth "3.4.0" "G18_10a_02_11a"
        false []).fMCNeutrino.fW =
      sampleLib.sqrt (W2_from_leptons sampleLib.kNucleonMass (probeP4 sampleLib sampleQERecord)
        (leptonP4 sampleLib sampleQERecord)) :=
  C6_x_W_from_nucleon_mass sampleLib sampleQERecord ⟨0, 0, 0, 0⟩ sampleTruth "3.4.0"
    "G18_10a_02_11a" false [] (Or.inl (by decide))

/-- C7: for a quasi-elastic charged-current record with a struck nucleon, probe
`(0,0,1,1)` and primary lepton `(0,0,0.8,0.85)`, `FillMCTruth` stores mode
quasi-elastic, current charged, `Q² = 0.0175`, `y = 0.15`,
`x = 0.0175 / (0.3·M)` and `W = sqrt(M² + 0.3·M - 0.0175)`. -/
theorem C7_quasi_elastic_scenario (lib : GenieLib) (record : EventRecord)
    (vtxOffset : TLorentzVector) (truth : MCTruth) (genieVersion genieTune : String)
    (addGenieVtxTime : Bool) (genConfig : ConfigMap)
    (hQE : record.Summary.ProcInfo.IsQuasiElastic = true)
    (hCC : record.Summary.ProcInfo.IsWeakNC = false)
    (hNucleon : (lib.HitNucleon record.particles).isSome = true)
    (hProbe : probeP4 lib record = ⟨0, 0, 1, 1⟩)
    (hLepton : leptonP4 lib record = ⟨0, 0, 0.8, 0.85⟩) :
    (FillMCTruth lib record vtxOffset truth genieVersion genieTune addGenieVtxTime
        genConfig).fMCNeutrino.fMode = int_type.kQE ∧
    (FillMCTruth lib record vtxOffset truth genieVersion genieTune addGenieVtxTime
        genConfig).fMCNeutrino.fCCNC = curr_type.kCC ∧
    (FillMCTruth lib record vtxOffset truth genieVersion genieTune addGenieVtxTime
        genConfig).fMCNeutrino.fQSqr = 0.0175 ∧
    (FillMCTruth lib record vtxOffset truth genieVersion genieTune addGenieVtxTime
        genConfig).fMCNeutrino.fY = 0.15 ∧
    (FillMCTruth lib record vtxOffset truth genieVersion genieTune addGenieVtxTime
        genConfig).fMCNeutrino.fX = 0.0175 / (0.3 * lib.kNucleonMass) ∧
    (FillMCTruth lib record vtxOffset truth genieVersion genieTune addGenieVtxTime
        genConfig).fMCNeutrino.fW =
      lib.sqrt (lib.kNucleonMass ^ 2 + 0.3 * lib.kNucleonMass - 0.0175) := by
  have hc : ((lib.HitNucleon record.particles).isSome ||
      record.Summary.ProcInfo.IsCoherentProduction) = true := by simp [hNucleon]
  have hQ : Q2_from_leptons (⟨0, 0, 1, 1⟩ : TLorentzVector) ⟨0, 0, 0.8, 0.85⟩ = 0.0175 := by
    simp only [Q2_from_leptons]
    norm_num
  refine ⟨?_, ?_, ?_, ?_, ?_, ?_⟩
  · rw [FillMCTruth_fMode]
    simp [interactionMode, hQE]
  · show currentType record.Summary.ProcInfo = curr_type.kCC
    simp [currentType, hCC]
  · rw [FillMCTruth_fQSqr, neg_M2_sub, hProbe, hLepton, hQ]
  · rw [FillMCTruth_fY, hProbe, hLepton]
    simp only [TLorentzVector.sub, TLorentzVector.Energy]
    norm_num
  · rw [FillMCTruth_fX, if_pos hc, neg_M2_sub, hProbe, hLepton, hQ, half_div_eq]
    congr 1
    simp only [TLorentzVector.sub, TLorentzVector.Energy]
    ring
  · rw [FillMCTruth_fW, if_pos hc, neg_M2_sub, hProbe, hLepton, hQ]
    congr 1
    simp only [TLorentzVector.sub, TLorentzVector.Energy]
    ring

theorem sampleQE_probeP4 : probeP4 sampleLib sampleQERecord = ⟨0, 0, 1, 1⟩ := rfl

theorem sampleQE_leptonP4 : leptonP4 sampleLib sampleQERecord = ⟨0, 0, 0.8, 0.85⟩ := rfl

theorem C7_quasi_elastic_scenario_witness :
    (FillMCTruth sampleLib sampleQERecord ⟨0, 0, 0, 0⟩ sampleTruth "3.4.0" "G18_10a_02_11a"
        false []).fMCNeutrino.fMode = int_type.kQE ∧
    (FillMCTruth sampleLib sampleQERecord ⟨0, 0, 0, 0⟩ sampleTruth "3.4.0" "G18_10a_02_11a"
        false []).fMCNeutrino.fQSqr = 0.0175 ∧
    (FillMCTruth sampleLib sampleQERecord ⟨0, 0, 0, 0⟩ sampleTruth "3.4.0" "G18_10a_02_11a"
        false []).fMCNeutrino.fY = 0.15 :=
  have h := C7_quasi_elastic_scenario sampleLib sampleQERecord ⟨0, 0, 0, 0⟩ sampleTruth
    "3.4.0" "G18_10a_02_11a" false [] (by decide) (by decide) (by decide) sampleQE_probeP4
    sampleQE_leptonP4
  ⟨h.1, h.2.2.1, h.2.2.2.1⟩

/-! ### Rounding to `double` -/

/-- The halving loop finds the leading binary digit when the bound suffices. -/
theorem floorLog2Aux_spec : ∀ (fuel n : Nat), n ≤ fuel → 1 ≤ n →
    2 ^ floorLog2Aux fuel n ≤ n ∧ n < 2 ^ (floorLog2Aux fuel n + 1)
  | 0, n, h, h1 => by omega
  | fuel + 1, n, h, h1 => by
      unfold floorLog2Aux
      split_ifs with h2
      · constructor
        · simpa using h1
        · simpa using h2
      · have ih := floorLog2Aux_spec fuel (n / 2) (by omega) (by omega)
        generalize floorLog2Aux fuel (n / 2) = a at ih
        obtain ⟨ih1, ih2⟩ := ih
        rw [pow_succ] at ih2
        rw [pow_succ, pow_succ, pow_succ]
        generalize 2 ^ a = p at ih1 ih2
        constructor <;> omega

/-- `floorLog2 n` is the floor of the binary logarithm of `n ≥ 1`. -/
theorem floorLog2_spec (n : Nat) (h1 : 1 ≤ n) :
    2 ^ floorLog2 n ≤ n ∧ n < 2 ^ (floorLog2 n + 1) :=
  floorLog2Aux_spec n n le_rfl h1

/-- A power of two with integer exponent as a quotient of two powers with
natural exponents, the form `roundDouble` computes with. -/
theorem two_zpow_split (e : ℤ) :
    (2 : ℚ) ^ e = (2 : ℚ) ^ e.toNat / (2 : ℚ) ^ (-e).toNat := by
  rcases le_total 0 e with h | h
  · have h1 : (-e).toNat = 0 := by omega
    rw [h1, pow_zero, div_one]
    conv_lhs => rw [← Int.toNat_of_nonneg h]
    rw [zpow_natCast]
  · have h1 : e.toNat = 0 := by omega
    have h2 : e = -((-e).toNat : ℤ) := by omega
    rw [h1, pow_zero]
    conv_lhs => rw [h2]
    rw [zpow_neg, zpow_natCast, one_div]

/-- `roundHalfEven N D` is within one half of `N / D`. -/
theorem roundHalfEven_spec (N D : Nat) (hD : 0 < D) :
    |(roundHalfEven N D : ℚ) - (N : ℚ) / D| ≤ 1 / 2 := by
  have hDq : (0 : ℚ) < D := by exact_mod_cast hD
  have hN : (N : ℚ) = D * (N / D : ℕ) + (N % D : ℕ) := by exact_mod_cast (Nat.div_add_mod N D).symm
  have hr : ((N % D : ℕ) : ℚ) < D := by exact_mod_cast Nat.mod_lt N hD
  have hr0 : (0 : ℚ) ≤ ((N % D : ℕ) : ℚ) := by positivity
  have hdiv : (N : ℚ) / D = (N / D : ℕ) + ((N % D : ℕ) : ℚ) / D := by
    rw [hN]; field_simp; ring
  rw [hdiv, abs_le]
  unfold roundHalfEven
  simp only []
  split_ifs with h1 h2 h3
  · have h1q : (2 : ℚ) * ((N % D : ℕ) : ℚ) < D := by exact_mod_cast h1
    have : ((N % D : ℕ) : ℚ) / D < 1 / 2 := by rw [div_lt_iff₀ hDq]; linarith
    have : 0 ≤ ((N % D : ℕ) : ℚ) / D := by positivity
    constructor <;> linarith
  · have h2q : (D : ℚ) < 2 * ((N % D : ℕ) : ℚ) := by exact_mod_cast h2
    have : 1 / 2 < ((N % D : ℕ) : ℚ) / D := by rw [lt_div_iff₀ hDq]; linarith
    have : ((N % D : ℕ) : ℚ) / D < 1 := by rw [div_lt_one hDq]; exact hr
    push_cast
    constructor <;> linarith
  · have h3q : (2 : ℚ) * ((N % D : ℕ) : ℚ) = D := by
      have : 2 * (N % D) = D := by omega
      exact_mod_cast this
    have : ((N % D : ℕ) : ℚ) / D = 1 / 2 := by rw [div_eq_iff hDq.ne']; linarith
    constructor <;> linarith
  · have h3q : (2 : ℚ) * ((N % D : ℕ) : ℚ) = D := by
      have : 2 * (N % D) = D := by omega
      exact_mod_cast this
    have : ((N % D : ℕ) : ℚ) / D = 1 / 2 := by rw [div_eq_iff hDq.ne']; linarith
    push_cast
    constructor <;> linarith

/-- `binaryExponent n d` is the exponent of the binade of `n / d`. -/
theorem binaryExponent_spec (n d : Nat) (hn : 1 ≤ n) (hd : 1 ≤ d) :
    (2 : ℚ) ^ 52 * 2 ^ binaryExponent n d ≤ (n : ℚ) / d ∧
      (n : ℚ) / d < 2 ^ 53 * 2 ^ binaryExponent n d := by
  obtain ⟨hn1, hn2⟩ := floorLog2_spec n hn
  obtain ⟨hd1, hd2⟩ := floorLog2_spec d hd
  have hn1q : (2 : ℚ) ^ floorLog2 n ≤ n := by exact_mod_cast hn1
  have hn2q : (n : ℚ) < 2 ^ (floorLog2 n + 1) := by exact_mod_cast hn2
  have hd1q : (2 : ℚ) ^ floorLog2 d ≤ d := by exact_mod_cast hd1
  have hd2q : (d : ℚ) < 2 ^ (floorLog2 d + 1) := by exact_mod_cast hd2
  have hdq : (0 : ℚ) < d := by exact_mod_cast hd
  have hA : (0 : ℚ) < 2 ^ floorLog2 n := by positivity
  have hB : (0 : ℚ) < 2 ^ floorLog2 d := by positivity
  have he0 : (2 : ℚ) ^ ((floorLog2 n : ℤ) - (floorLog2 d : ℤ) - 52) =
      2 ^ floorLog2 n / (2 ^ floorLog2 d * 2 ^ 52) := by
    rw [zpow_sub₀ (by norm_num), zpow_sub₀ (by norm_num), zpow_natCast, zpow_natCast, div_div]
    norm_num
  have hup : (n : ℚ) / d <
      2 ^ 53 * 2 ^ ((floorLog2 n : ℤ) - (floorLog2 d : ℤ) - 52) := by
    rw [he0, div_lt_iff₀ hdq]
    rw [pow_succ] at hn2q
    have : 2 ^ 53 * (2 ^ floorLog2 n / (2 ^ floorLog2 d * 2 ^ 52)) * (d : ℚ) =
        2 * 2 ^ floorLog2 n * (d / 2 ^ floorLog2 d) := by
      field_simp; ring
    rw [this]
    have h1 : (1 : ℚ) ≤ d / 2 ^ floorLog2 d := by rw [le_div_iff₀ hB]; linarith
    nlinarith
  have hlow : (2 : ℚ) ^ 51 * 2 ^ ((floorLog2 n : ℤ) - (floorLog2 d : ℤ) - 52) <
      (n : ℚ) / d := by
    rw [he0, lt_div_iff₀ hdq]
    rw [pow_succ] at hd2q
    have : 2 ^ 51 * (2 ^ floorLog2 n / (2 ^ floorLog2 d * 2 ^ 52)) * (d : ℚ) =
        2 ^ floorLog2 n * (d / (2 ^ floorLog2 d * 2)) := by
      field_simp; ring
    rw [this]
    have h1 : (d : ℚ) / (2 ^ floorLog2 d * 2) < 1 := by
      rw [div_lt_one (by positivity)]; linarith
    nlinarith
  unfold binaryExponent
  simp only []
  generalize ((floorLog2 n : ℤ) - (floorLog2 d : ℤ) - 52) = e0 at he0 hup hlow ⊢
  have hP : (0 : ℚ) < 2 ^ e0.toNat := by positivity
  have hQ : (0 : ℚ) < 2 ^ (-e0).toNat := by positivity
  have hcond : (2 ^ 52 * (d * 2 ^ e0.toNat) ≤ n * 2 ^ (-e0).toNat) ↔
      (2 : ℚ) ^ 52 * 2 ^ e0 ≤ (n : ℚ) / d := by
    rw [two_zpow_split e0, le_div_iff₀ hdq, ← Nat.cast_le (α := ℚ)]
    push_cast
    rw [mul_div_assoc', div_mul_eq_mul_div, div_le_iff₀ hQ]
    constructor <;> intro h <;> linarith
  split_ifs with hc
  · exact ⟨hcond.1 hc, hup⟩
  · have hc2 : ¬ ((2 : ℚ) ^ 52 * 2 ^ e0 ≤ (n : ℚ) / d) := fun h => hc (hcond.2 h)
    have he : (2 : ℚ) ^ (e0 - 1) = 2 ^ e0 / 2 := by
      rw [zpow_sub₀ (by norm_num)]; norm_num
    rw [he]
    have hz : (0 : ℚ) < 2 ^ e0 := by positivity
    push_neg at hc2
    constructor
    · have : (2 : ℚ) ^ 52 * (2 ^ e0 / 2) = 2 ^ 51 * 2 ^ e0 := by ring
      rw [this]; exact hlow.le
    · have : (2 : ℚ) ^ 53 * (2 ^ e0 / 2) = 2 ^ 52 * 2 ^ e0 := by ring
      rw [this]; exact hc2

/-- The rounding of a non-zero `x`: an integer significand `m` and an exponent
`e ≥ -1074` with `|x| < 2 ^ 53 * 2 ^ e`, with `2 ^ 52 * 2 ^ e ≤ |x|` unless `e` is the
smallest exponent, and with `m * 2 ^ e` within half a unit in the last place of
`|x|`; the result is `m * 2 ^ e` with the sign of `x`, unless that overflows. -/
theorem roundDouble_spec (x : ℚ) (hx : x ≠ 0) : ∃ (e : ℤ) (m : ℕ),
    roundDouble x = (if (2 : ℚ) ^ 1024 ≤ (m : ℚ) * 2 ^ e then none
      else some ((if x < 0 then -1 else 1) * (m : ℚ) * 2 ^ e)) ∧
    (e = -1074 ∨ (2 : ℚ) ^ 52 * 2 ^ e ≤ |x|) ∧ -1074 ≤ e ∧ |x| < 2 ^ 53 * 2 ^ e ∧
    abs ((m : ℚ) * 2 ^ e - abs x) ≤ 2 ^ e / 2 := by
  have hn : 1 ≤ x.num.natAbs := by
    have : x.num ≠ 0 := Rat.num_ne_zero.2 hx
    omega
  have hd : 1 ≤ x.den := x.den_pos
  have hdq : (0 : ℚ) < x.den := by exact_mod_cast hd
  have habs : |x| = (x.num.natAbs : ℚ) / x.den := by
    conv_lhs => rw [← Rat.num_div_den x]
    rw [abs_div, Nat.cast_natAbs, Int.cast_abs, abs_of_pos hdq]
  obtain ⟨h1, h2⟩ := binaryExponent_spec x.num.natAbs x.den hn hd
  rw [← habs] at h1 h2
  refine ⟨max (binaryExponent x.num.natAbs x.den) (-1074),
    roundHalfEven
      (x.num.natAbs * 2 ^ (-max (binaryExponent x.num.natAbs x.den) (-1074)).toNat)
      (x.den * 2 ^ (max (binaryExponent x.num.natAbs x.den) (-1074)).toNat), ?_, ?_, ?_, ?_, ?_⟩
  · unfold roundDouble
    rw [if_neg hx]
  · rcases le_total (binaryExponent x.num.natAbs x.den) (-1074) with h | h
    · left; exact max_eq_right h
    · right; rw [max_eq_left h]; exact h1
  · exact le_max_right _ _
  · have : (2 : ℚ) ^ binaryExponent x.num.natAbs x.den ≤
        2 ^ max (binaryExponent x.num.natAbs x.den) (-1074) :=
      zpow_le_zpow_right₀ (by norm_num) (le_max_left _ _)
    calc |x| < 2 ^ 53 * 2 ^ binaryExponent x.num.natAbs x.den := h2
      _ ≤ 2 ^ 53 * 2 ^ max (binaryExponent x.num.natAbs x.den) (-1074) :=
        mul_le_mul_of_nonneg_left this (by positivity)
  · generalize max (binaryExponent x.num.natAbs x.den) (-1074) = e
    have hD : 0 < x.den * 2 ^ e.toNat := Nat.mul_pos hd (by positivity)
    have hr := roundHalfEven_spec (x.num.natAbs * 2 ^ (-e).toNat) (x.den * 2 ^ e.toNat) hD
    have hz : (0 : ℚ) < 2 ^ e := by positivity
    have hP : (0 : ℚ) < 2 ^ e.toNat := by positivity
    have hQ : (0 : ℚ) < 2 ^ (-e).toNat := by positivity
    have hs : ((x.num.natAbs * 2 ^ (-e).toNat : ℕ) : ℚ) / ((x.den * 2 ^ e.toNat : ℕ) : ℚ) =
        |x| / 2 ^ e := by
      rw [habs, two_zpow_split e]
      push_cast
      field_simp
    rw [hs] at hr
    have hm : ∀ m : ℚ, m * 2 ^ e - |x| = (m - |x| / 2 ^ e) * 2 ^ e := by
      intro m; field_simp
    rw [hm, abs_mul, abs_of_pos hz]
    calc _ ≤ 1 / 2 * (2 : ℚ) ^ e := mul_le_mul_of_nonneg_right hr hz.le
      _ = 2 ^ e / 2 := by ring

/-- Zero is not rounded. -/
theorem roundDouble_zero : roundDouble 0 = some 0 := by
  unfold roundDouble
  rw [if_pos rfl]

/-- A result of magnitude at most `2 ^ 1023` is finite; it has the sign of the
exact value and differs from it by at most the relative error `2 ^ (-53)`, or by
`2 ^ (-1075)` when the exact value is below the normal range. -/
theorem roundDouble_finite (x : ℚ) (hU : |x| ≤ 2 ^ 1023) : ∃ r : ℚ,
    roundDouble x = some r ∧ (0 ≤ x → 0 ≤ r) ∧ (x ≤ 0 → r ≤ 0) ∧
    |r - x| ≤ |x| / 2 ^ 53 + 1 / 2 ^ 1075 ∧
    (x = 0 ∨ 1 / 2 ^ 1022 ≤ |x| → |r - x| ≤ |x| / 2 ^ 53) := by
  by_cases hx : x = 0
  · refine ⟨0, ?_, fun _ => le_rfl, fun _ => le_rfl, ?_, fun _ => ?_⟩
    · rw [hx, roundDouble_zero]
    · rw [hx]; norm_num
    · rw [hx]; norm_num
  · obtain ⟨e, m, h1, h2, h3, h4, h5⟩ := roundDouble_spec x hx
    have hz : (0 : ℚ) < 2 ^ e := zpow_pos (by norm_num) e
    have hm0 : (0 : ℚ) ≤ (m : ℚ) * 2 ^ e := mul_nonneg (Nat.cast_nonneg m) hz.le
    have h5' := abs_le.1 h5
    have hxpos : 0 < |x| := abs_pos.2 hx
    -- half a unit in the last place
    have hulp : (2 : ℚ) ^ e / 2 ≤ |x| / 2 ^ 53 + 1 / 2 ^ 1075 ∧
        (1 / 2 ^ 1022 ≤ |x| → (2 : ℚ) ^ e / 2 ≤ |x| / 2 ^ 53) := by
      rcases h2 with h2 | h2
      · have he : (2 : ℚ) ^ e = 1 / 2 ^ 1074 := by
          rw [h2, zpow_neg, zpow_ofNat, one_div]
        rw [he]
        constructor
        · have : (0 : ℚ) ≤ |x| / 2 ^ 53 := div_nonneg (abs_nonneg x) (by norm_num)
          have : (1 : ℚ) / 2 ^ 1074 / 2 = 1 / 2 ^ 1075 := by norm_num
          linarith
        · intro hn
          rw [le_div_iff₀ (by norm_num)]
          have : (1 : ℚ) / 2 ^ 1074 / 2 * 2 ^ 53 = 1 / 2 ^ 1022 := by norm_num
          linarith
      · have : (2 : ℚ) ^ e / 2 ≤ |x| / 2 ^ 53 := by
          rw [le_div_iff₀ (by norm_num)]
          linarith
        exact ⟨by have : (0 : ℚ) < 1 / 2 ^ 1075 := by norm_num
                  linarith, fun _ => this⟩
    have hfin : ¬ ((2 : ℚ) ^ 1024 ≤ (m : ℚ) * 2 ^ e) := by
      intro hcon
      have h6 : (m : ℚ) * 2 ^ e ≤ |x| + (|x| / 2 ^ 53 + 1 / 2 ^ 1075) := by
        linarith [h5'.2, hulp.1]
      have h7 : |x| + (|x| / 2 ^ 53 + 1 / 2 ^ 1075) < (2 : ℚ) ^ 1024 := by
        have : |x| / 2 ^ 53 ≤ (2 : ℚ) ^ 1023 / 2 ^ 53 :=
          div_le_div_of_nonneg_right hU (by norm_num)
        have : (2 : ℚ) ^ 1023 + (2 ^ 1023 / 2 ^ 53 + 1 / 2 ^ 1075) < 2 ^ 1024 := by norm_num
        linarith
      linarith
    rw [if_neg hfin] at h1
    rcases lt_or_gt_of_ne hx with h | h
    · rw [if_pos h] at h1
      rw [abs_of_neg h] at h5' hulp ⊢
      refine ⟨_, h1, fun h0 => absurd h0 (not_le.2 h), fun _ => by linarith, ?_, ?_⟩
      · rw [abs_le]; constructor <;> linarith [h5'.1, h5'.2, hulp.1]
      · intro hn
        have hn' : 1 / 2 ^ 1022 ≤ -x := by
          rcases hn with hn | hn
          · exact absurd hn hx
          · exact hn
        rw [abs_le]; constructor <;> linarith [h5'.1, h5'.2, hulp.2 hn']
    · rw [if_neg (not_lt.2 h.le), one_mul] at h1
      rw [abs_of_pos h] at h5' hulp ⊢
      refine ⟨_, h1, fun _ => hm0, fun h0 => absurd h0 (not_le.2 h), ?_, ?_⟩
      · rw [abs_le]; constructor <;> linarith [h5'.1, h5'.2, hulp.1]
      · intro hn
        have hn' : 1 / 2 ^ 1022 ≤ x := by
          rcases hn with hn | hn
          · exact absurd hn hx
          · exact hn
        rw [abs_le]; constructor <;> linarith [h5'.1, h5'.2, hulp.2 hn']

/-- Rounding does not cross a double: the rounded value of a non-negative `x`
below the double `f` is a finite double between 0 and `f`. -/
theorem roundDouble_le_of_le (x f : ℚ) (hx : 0 ≤ x) (hxf : x ≤ f)
    (hf : roundDouble f = some f) : ∃ r : ℚ, roundDouble x = some r ∧ 0 ≤ r ∧ r ≤ f := by
  rcases eq_or_lt_of_le hx with h | h
  · exact ⟨0, by rw [← h, roundDouble_zero], le_rfl, h ▸ hxf⟩
  · have hf0 : 0 < f := lt_of_lt_of_le h hxf
    obtain ⟨e, m, h1, h2, h3, h4, h5⟩ := roundDouble_spec x h.ne'
    obtain ⟨g, M, g1, g2, g3, g4, g5⟩ := roundDouble_spec f hf0.ne'
    rw [if_neg (not_lt.2 hx), one_mul] at h1
    rw [if_neg (not_lt.2 hf0.le), one_mul, hf] at g1
    rw [abs_of_pos h] at h2 h4 h5
    rw [abs_of_pos hf0] at g2 g4
    have hze : (0 : ℚ) < 2 ^ e := by positivity
    have hzg : (0 : ℚ) < 2 ^ g := by positivity
    -- the double f is finite and equals M * 2 ^ g
    have gfin : ¬ ((2 : ℚ) ^ 1024 ≤ (M : ℚ) * 2 ^ g) := by
      intro hcon; rw [if_pos hcon] at g1; exact absurd g1 (by simp)
    rw [if_neg gfin] at g1
    have gf : f = (M : ℚ) * 2 ^ g := Option.some.inj g1
    -- the exponent of x does not exceed that of f
    have heg : e ≤ g := by
      rcases h2 with h2 | h2
      · omega
      · by_contra hcon
        push_neg at hcon
        have : (2 : ℚ) ^ (g + 1) ≤ 2 ^ e := zpow_le_zpow_right₀ (by norm_num) (by omega)
        rw [zpow_add₀ (by norm_num), zpow_one] at this
        nlinarith
    have h5' := abs_le.1 h5
    have hle : (m : ℚ) * 2 ^ e ≤ f := by
      rcases eq_or_lt_of_le heg with he | he
      · subst he
        have hmM : (m : ℚ) * 2 ^ e ≤ (M : ℚ) * 2 ^ e + 2 ^ e / 2 := by
          rw [← gf]; linarith [h5'.2]
        have hmM2 : (m : ℚ) < (M : ℚ) + 1 := by
          by_contra hcon
          push_neg at hcon
          nlinarith
        have hmM3 : m ≤ M := by
          have : m < M + 1 := by exact_mod_cast hmM2
          omega
        rw [gf]
        exact mul_le_mul_of_nonneg_right (by exact_mod_cast hmM3) hze.le
      · have g2' : (2 : ℚ) ^ 52 * 2 ^ g ≤ f := by
          rcases g2 with g2 | g2
          · omega
          · exact g2
        have hm53 : (m : ℚ) < 2 ^ 53 + 1 := by
          by_contra hcon
          push_neg at hcon
          nlinarith [h5'.2]
        have hm53' : (m : ℚ) ≤ 2 ^ 53 := by
          have : m < 2 ^ 53 + 1 := by exact_mod_cast hm53
          have : m ≤ 2 ^ 53 := by omega
          exact_mod_cast this
        have hpow : (2 : ℚ) ^ (e + 1) ≤ 2 ^ g := zpow_le_zpow_right₀ (by norm_num) (by omega)
        rw [zpow_add₀ (by norm_num), zpow_one] at hpow
        calc (m : ℚ) * 2 ^ e ≤ 2 ^ 53 * 2 ^ e := mul_le_mul_of_nonneg_right hm53' hze.le
          _ = 2 ^ 52 * (2 ^ e * 2) := by ring
          _ ≤ 2 ^ 52 * 2 ^ g := by nlinarith
          _ ≤ f := g2'
    have hfin : ¬ ((2 : ℚ) ^ 1024 ≤ (m : ℚ) * 2 ^ e) := by
      intro hcon
      apply gfin
      rw [← gf]
      exact hcon.trans hle
    rw [if_neg hfin] at h1
    exact ⟨_, h1, by positivity, hle⟩

/-- Without rounding, `Q2_rounded` is the exact expression `-1 * (k1 - k2).M2()`. -/
theorem Q2_rounded_exact (k1 k2 : TLorentzVector) :
    Q2_rounded some k1 k2 = some (-1 * (TLorentzVector.sub k1 k2).M2) := rfl

/-- Without rounding, `y_rounded` is the exact quotient `(k1 - k2).Energy() / k1.Energy()`. -/
theorem y_rounded_exact (k1 k2 : TLorentzVector) (h : k1.T ≠ 0) :
    y_rounded some k1 k2 = some ((TLorentzVector.sub k1 k2).Energy / k1.Energy) := by
  show (if k1.T = 0 then none else some ((k1.T - k2.T) / k1.T)) = _
  rw [if_neg h]
  rfl

/-- The `Q2` that `FillMCTruth` above stores is the unrounded evaluation of the
expression that `FillMCTruth_Q2_double` evaluates in `double` arithmetic. -/
theorem FillMCTruth_fQSqr_unrounded (lib : GenieLib) (record : EventRecord)
    (vtxOffset : TLorentzVector) (truth : MCTruth) (genieVersion genieTune : String)
    (addGenieVtxTime : Bool) (genConfig : ConfigMap) :
    Q2_rounded some (probeP4 lib record) (leptonP4 lib record) =
      some (FillMCTruth lib record vtxOffset truth genieVersion genieTune addGenieVtxTime
        genConfig).fMCNeutrino.fQSqr := rfl

/-- The `y` that `FillMCTruth` above stores is the unrounded evaluation of the
expression that `FillMCTruth_y_double` evaluates in `double` arithmetic. -/
theorem FillMCTruth_fY_unrounded (lib : GenieLib) (record : EventRecord)
    (vtxOffset : TLorentzVector) (truth : MCTruth) (genieVersion genieTune : String)
    (addGenieVtxTime : Bool) (genConfig : ConfigMap) (h : (probeP4 lib record).T ≠ 0) :
    y_rounded some (probeP4 lib record) (leptonP4 lib record) =
      some (FillMCTruth lib record vtxOffset truth genieVersion genieTune addGenieVtxTime
        genConfig).fMCNeutrino.fY := by
  rw [y_rounded_exact _ _ h, FillMCTruth_fY]

/-- The number 1 is a `double`. -/
theorem roundDouble_one : roundDouble 1 = some 1 := by decide!

/-- Rounding a non-negative number that is zero or in the normal range. -/
theorem roundDouble_normal (x : ℚ) (h0 : x = 0 ∨ 1 / 2 ^ 1022 ≤ x) (hU : x ≤ 2 ^ 1023) :
    ∃ r : ℚ, roundDouble x = some r ∧ (1 - 1 / 2 ^ 53) * x ≤ r ∧ r ≤ (1 + 1 / 2 ^ 53) * x := by
  have hx : 0 ≤ x := by
    rcases h0 with h | h
    · rw [h]
    · exact le_trans (by norm_num) h
  obtain ⟨r, h1, -, -, -, h5⟩ := roundDouble_finite x ((abs_of_nonneg hx).le.trans hU)
  rw [abs_of_nonneg hx] at h5
  have h6 := abs_le.1 (h5 h0)
  exact ⟨r, h1, by linarith [h6.1], by linarith [h6.2]⟩

/-- Rounding a number that is zero or in the normal range: the square of the
result. -/
theorem roundDouble_normal_sq (d : ℚ) (h0 : d = 0 ∨ 1 / 2 ^ 1022 ≤ |d|)
    (hU : |d| ≤ 2 ^ 1023) :
    ∃ q : ℚ, roundDouble d = some q ∧ (1 - 1 / 2 ^ 53) ^ 2 * d ^ 2 ≤ q * q ∧
      q * q ≤ (1 + 1 / 2 ^ 53) ^ 2 * d ^ 2 := by
  obtain ⟨q, h1, -, -, -, h5⟩ := roundDouble_finite d hU
  have h := h5 h0
  refine ⟨q, h1, ?_⟩
  have h1 : |q| ≤ (1 + 1 / 2 ^ 53) * |d| := by
    have := abs_sub_abs_le_abs_sub q d
    linarith
  have h2 : (1 - 1 / 2 ^ 53) * |d| ≤ |q| := by
    have := abs_sub_abs_le_abs_sub d q
    rw [abs_sub_comm] at this
    linarith
  have h0 : (0 : ℚ) ≤ (1 - 1 / 2 ^ 53) * |d| := mul_nonneg (by norm_num) (abs_nonneg d)
  have e1 : q * q = |q| ^ 2 := by rw [sq_abs]; ring
  have e2 : ∀ c : ℚ, c ^ 2 * d ^ 2 = (c * |d|) ^ 2 := by
    intro c; rw [mul_pow, sq_abs]
  rw [e1, e2, e2]
  exact ⟨pow_le_pow_left₀ h0 h2 2, pow_le_pow_left₀ (abs_nonneg _) h1 2⟩

/-- The rounded square of the rounded value of `d`, for `d` zero or between
`2 ^ (-400)` and `2 ^ 400` in magnitude. -/
theorem roundDouble_square (d : ℚ) (h0 : d = 0 ∨ 1 / 2 ^ 400 ≤ |d|) (hU : |d| ≤ 2 ^ 400) :
    ∃ q a : ℚ, roundDouble d = some q ∧ roundDouble (q * q) = some a ∧
      (1 - 1 / 2 ^ 53) ^ 3 * d ^ 2 ≤ a ∧ a ≤ (1 + 1 / 2 ^ 53) ^ 3 * d ^ 2 ∧
      (a = 0 ∨ 1 / 2 ^ 801 ≤ a) ∧ a ≤ 2 ^ 801 := by
  have hd2 : d ^ 2 ≤ (2 ^ 400) ^ 2 := by
    rw [← sq_abs]; exact pow_le_pow_left₀ (abs_nonneg d) hU 2
  obtain ⟨q, hq, hq1, hq2⟩ := roundDouble_normal_sq d
    (h0.imp id fun h => le_trans (by norm_num) h) (hU.trans (by norm_num))
  have hqq : 0 ≤ q * q := mul_self_nonneg q
  rcases h0 with h | h
  · -- d = 0: everything is zero
    have hq0 : q * q = 0 := by
      rw [h] at hq2; norm_num at hq2; exact le_antisymm hq2 hqq
    refine ⟨q, 0, hq, by rw [hq0, roundDouble_zero], ?_, ?_, Or.inl rfl, by norm_num⟩
    · rw [h]; norm_num
    · rw [h]; norm_num
  · have hd2' : (1 / 2 ^ 400) ^ 2 ≤ d ^ 2 := by
      rw [← sq_abs d]; exact pow_le_pow_left₀ (by norm_num) h 2
    obtain ⟨a, ha, ha1, ha2⟩ := roundDouble_normal (q * q)
      (Or.inr (by
        have : (1 : ℚ) / 2 ^ 1022 ≤ (1 - 1 / 2 ^ 53) ^ 2 * (1 / 2 ^ 400) ^ 2 := by norm_num
        nlinarith))
      (by
        have : (1 + 1 / 2 ^ 53 : ℚ) ^ 2 * (2 ^ 400) ^ 2 ≤ 2 ^ 1023 := by norm_num
        nlinarith)
    refine ⟨q, a, hq, ha, by nlinarith, by nlinarith, Or.inr ?_, ?_⟩
    · have : (1 : ℚ) / 2 ^ 801 ≤ (1 - 1 / 2 ^ 53) ^ 3 * (1 / 2 ^ 400) ^ 2 := by norm_num
      nlinarith
    · have : (1 + 1 / 2 ^ 53 : ℚ) ^ 3 * (2 ^ 400) ^ 2 ≤ 2 ^ 801 := by norm_num
      nlinarith

/-- Rounded sum of two non-negative doubles that are zero or in the normal
range. -/
theorem roundDouble_sum (a b L U : ℚ) (hL0 : 0 < L) (hL : 1 / 2 ^ 1022 ≤ L)
    (hU : 2 * U ≤ 2 ^ 1023) (ha : a = 0 ∨ L ≤ a) (hb : b = 0 ∨ L ≤ b) (haU : a ≤ U)
    (hbU : b ≤ U) :
    ∃ s : ℚ, roundDouble (a + b) = some s ∧ (1 - 1 / 2 ^ 53) * (a + b) ≤ s ∧
      s ≤ (1 + 1 / 2 ^ 53) * (a + b) ∧ (s = 0 ∨ (1 - 1 / 2 ^ 53) * L ≤ s) := by
  have ha0 : 0 ≤ a := by rcases ha with h | h <;> linarith
  have hb0 : 0 ≤ b := by rcases hb with h | h <;> linarith
  have hab : a + b = 0 ∨ L ≤ a + b := by
    rcases ha with h | h
    · rcases hb with h' | h'
      · left; rw [h, h']; norm_num
      · right; linarith
    · right; linarith
  obtain ⟨s, hs, l, u⟩ := roundDouble_normal (a + b) (hab.imp id fun h => hL.trans h)
    (by linarith)
  refine ⟨s, hs, l, u, ?_⟩
  rcases hab with h | h
  · left
    rw [h] at l u
    linarith
  · right
    have : (1 - 1 / 2 ^ 53 : ℚ) * L ≤ (1 - 1 / 2 ^ 53) * (a + b) :=
      mul_le_mul_of_nonneg_left h (by norm_num)
    linarith

/-- The `Q2` computed in `double` arithmetic for a space-like or null momentum
transfer whose components are in range: a finite number, not below `-2^(-49)`
times the squared energy transfer. -/
theorem Q2_rounded_lower (k1 k2 : TLorentzVector)
    (hRX : squareInRange (k1.X - k2.X)) (hRY : squareInRange (k1.Y - k2.Y))
    (hRZ : squareInRange (k1.Z - k2.Z)) (hRT : squareInRange (k1.T - k2.T))
    (hq : (k1.T - k2.T) ^ 2 ≤
      (k1.X - k2.X) ^ 2 + (k1.Y - k2.Y) ^ 2 + (k1.Z - k2.Z) ^ 2) :
    ∃ Q2 : ℚ, Q2_rounded roundDouble k1 k2 = some Q2 ∧
      -((k1.T - k2.T) ^ 2 / 2 ^ 49) ≤ Q2 := by
  obtain ⟨qX, aX, hqX, haX, lX, -, zX, bX⟩ := roundDouble_square _ hRX.1 hRX.2
  obtain ⟨qY, aY, hqY, haY, lY, -, zY, bY⟩ := roundDouble_square _ hRY.1 hRY.2
  obtain ⟨qZ, aZ, hqZ, haZ, lZ, -, zZ, bZ⟩ := roundDouble_square _ hRZ.1 hRZ.2
  obtain ⟨qT, aT, hqT, haT, lT, uT, zT, bT⟩ := roundDouble_square _ hRT.1 hRT.2
  have hdX : 0 ≤ (k1.X - k2.X) ^ 2 := sq_nonneg _
  have hdY : 0 ≤ (k1.Y - k2.Y) ^ 2 := sq_nonneg _
  have hdZ : 0 ≤ (k1.Z - k2.Z) ^ 2 := sq_nonneg _
  have hdT : 0 ≤ (k1.T - k2.T) ^ 2 := sq_nonneg _
  have aT0 : 0 ≤ aT := by rcases zT with h | h <;> linarith
  obtain ⟨s1, hs1, l1, u1, z1⟩ := roundDouble_sum aX aY (1 / 2 ^ 801) (2 ^ 801)
    (by norm_num) (by norm_num) (by norm_num) zX zY bX bY
  have z1' : s1 = 0 ∨ 1 / 2 ^ 802 ≤ s1 :=
    z1.imp id fun h => le_trans (by norm_num) h
  have b1 : s1 ≤ 2 ^ 803 := by linarith
  have zZ' : aZ = 0 ∨ 1 / 2 ^ 802 ≤ aZ := zZ.imp id fun h => le_trans (by norm_num) h
  obtain ⟨s, hs, l2, u2, z2⟩ := roundDouble_sum s1 aZ (1 / 2 ^ 802) (2 ^ 803)
    (by norm_num) (by norm_num) (by norm_num) z1' zZ' b1 (by linarith)
  have s0 : 0 ≤ s := by rcases z2 with h | h <;> linarith
  have bs : s ≤ 2 ^ 805 := by linarith
  -- the difference T*T - Mag2 and its rounding
  have hzabs : |aT - s| ≤ 2 ^ 805 := by
    rw [abs_le]; constructor <;> linarith
  obtain ⟨m2, hm2, -, sn, em, -⟩ := roundDouble_finite (aT - s) (hzabs.trans (by norm_num))
  have em' := abs_le.1 em
  have hm2abs : |-1 * m2| ≤ 2 ^ 806 := by
    rw [neg_one_mul, abs_neg, abs_le]
    constructor <;> linarith [em'.1, em'.2]
  obtain ⟨Q, hQ, qp, -, eq, -⟩ := roundDouble_finite (-1 * m2) (hm2abs.trans (by norm_num))
  refine ⟨Q, ?_, ?_⟩
  · simp only [Q2_rounded, hqX, hqY, hqZ, hqT, haT, haX, haY, hs1, haZ, hs, hm2, hQ,
      Option.bind_eq_bind, Option.some_bind]
  · have hz : aT - s ≤ ((1 + 1 / 2 ^ 53) ^ 3 - (1 - 1 / 2 ^ 53) ^ 5) * (k1.T - k2.T) ^ 2 := by
      linarith
    rcases hRT.1 with h | h
    · -- no energy transfer: T*T is 0, the difference is not positive
      rw [h] at uT hz ⊢
      have hz' : aT - s ≤ 0 := by linarith
      have := sn hz'
      have := qp (by linarith)
      linarith
    · have hd2 : (1 / 2 ^ 400) ^ 2 ≤ (k1.T - k2.T) ^ 2 := by
        rw [← sq_abs (k1.T - k2.T)]; exact pow_le_pow_left₀ (by norm_num) h 2
      have hm2' : m2 ≤ (1 + 1 / 2 ^ 53) *
          (((1 + 1 / 2 ^ 53) ^ 3 - (1 - 1 / 2 ^ 53) ^ 5) * (k1.T - k2.T) ^ 2) +
          1 / 2 ^ 1075 := by
        rcases le_total 0 (aT - s) with h' | h'
        · rw [abs_of_nonneg h'] at em'
          linarith [em'.2]
        · have := sn h'
          linarith
      rcases le_total 0 (-1 * m2) with h' | h'
      · have := qp h'
        linarith
      · have eq' := abs_le.1 eq
        rw [abs_of_nonpos h'] at eq'
        linarith [eq'.1]

/-- The `y` computed in `double` arithmetic for a probe energy that is a positive
`double` and a lepton energy between 0 and the probe energy: a finite number
between 0 and 1. -/
theorem y_rounded_range (k1 k2 : TLorentzVector) (hE1 : 0 < k1.T) (hE2 : 0 ≤ k2.T)
    (hE21 : k2.T ≤ k1.T) (hD : roundDouble k1.T = some k1.T) :
    ∃ y : ℚ, y_rounded roundDouble k1 k2 = some y ∧ 0 ≤ y ∧ y ≤ 1 := by
  obtain ⟨v, hv, hv0, hv1⟩ :=
    roundDouble_le_of_le (k1.T - k2.T) k1.T (by linarith) (by linarith) hD
  have h0 : 0 ≤ v / k1.T := div_nonneg hv0 hE1.le
  have h1 : v / k1.T ≤ 1 := (div_le_one hE1).2 hv1
  obtain ⟨y, hy, hy0, hy1⟩ := roundDouble_le_of_le (v / k1.T) 1 h0 h1 roundDouble_one
  refine ⟨y, ?_, hy0, hy1⟩
  simp only [y_rounded, hv, Option.bind_eq_bind, Option.some_bind, if_neg hE1.ne', hy]

/-- Sample values of the rounding: the doubles nearest to `1/10` and `1/3`, a tie
that goes to the even significand, the largest finite double, overflow, and
rounding in the subnormal range. -/
theorem roundDouble_samples :
    roundDouble (1 / 10) = some (3602879701896397 / 2 ^ 55) ∧
    roundDouble (1 / 3) = some (6004799503160661 / 2 ^ 54) ∧
    roundDouble (2 ^ 53 + 1) = some (2 ^ 53) ∧
    roundDouble (2 ^ 53 + 3) = some (2 ^ 53 + 4) ∧
    roundDouble (2 ^ 1024 - 2 ^ 971) = some (2 ^ 1024 - 2 ^ 971) ∧
    roundDouble (2 ^ 1024 - 2 ^ 970) = none ∧
    roundDouble (3 / 2 ^ 1075) = some (1 / 2 ^ 1073) ∧
    roundDouble (1 / 2 ^ 1075) = some 0 := by
  decide!

/-- C8 (counterexample): a record with a struck nucleon whose probe energy is
positive, whose lepton energy lies between 0 and the probe energy and whose
momentum transfer is null (forward scattering of a massless probe, every
component a `double`), for which the `Q2` that source lines 353-355 compute in
`double` arithmetic is `-2^(-48)`, a negative number; evaluated exactly, as
`FillMCTruth` above stores it, the same expression is 0. -/
theorem C8_rounded_Q2_negative :
    (sampleLib.HitNucleon sampleForwardRecord.particles).isSome = true ∧
    probeP4 sampleLib sampleForwardRecord =
      ⟨402653205 / 67108864, 0, 134217735 / 16777216, 671088675 / 67108864⟩ ∧
    leptonP4 sampleLib sampleForwardRecord = ⟨3, 0, 4, 5⟩ ∧
    roundDouble (402653205 / 67108864) = some (402653205 / 67108864) ∧
    roundDouble (134217735 / 16777216) = some (134217735 / 16777216) ∧
    roundDouble (671088675 / 67108864) = some (671088675 / 67108864) ∧
    roundDouble 3 = some 3 ∧ roundDouble 4 = some 4 ∧ roundDouble 5 = some 5 ∧
    0 < (probeP4 sampleLib sampleForwardRecord).T ∧
    0 ≤ (leptonP4 sampleLib sampleForwardRecord).T ∧
    (leptonP4 sampleLib sampleForwardRecord).T ≤ (probeP4 sampleLib sampleForwardRecord).T ∧
    ((probeP4 sampleLib sampleForwardRecord).T - (leptonP4 sampleLib sampleForwardRecord).T) ^ 2 ≤
      ((probeP4 sampleLib sampleForwardRecord).X - (leptonP4 sampleLib sampleForwardRecord).X) ^ 2 +
      ((probeP4 sampleLib sampleForwardRecord).Y - (leptonP4 sampleLib sampleForwardRecord).Y) ^ 2 +
      ((probeP4 sampleLib sampleForwardRecord).Z - (leptonP4 sampleLib sampleForwardRecord).Z) ^ 2 ∧
    (FillMCTruth sampleLib sampleForwardRecord ⟨0, 0, 0, 0⟩ sampleTruth "3.4.0"
      "G18_10a_02_11a" false []).fMCNeutrino.fQSqr = 0 ∧
    FillMCTruth_Q2_double sampleLib sampleForwardRecord = some (-(1 / 2 ^ 48)) ∧
    ¬ (0 : ℚ) ≤ -(1 / 2 ^ 48) := by
  decide!

/-- C8 (amended): for a probe of positive energy, a primary lepton whose energy
lies between 0 and the probe energy, and a space-like or null momentum transfer
`q = k1 - k2`, with or without a struck nucleon: the `y` that source lines
353-357 compute in `double` arithmetic is a finite number between 0 and 1; when
every component of `q` is zero or between `2^(-400)` and `2^400` in magnitude (no
overflow or underflow), the `Q2` computed in `double` arithmetic is a finite
number not below `-2^(-49)` times the squared energy transfer; and the exact
value of the `Q2` expression is non-negative. -/
theorem C8_rounded_Q2_y_bounds (lib : GenieLib) (record : EventRecord)
    (hE1 : 0 < (probeP4 lib record).T)
    (hE2 : 0 ≤ (leptonP4 lib record).T)
    (hE21 : (leptonP4 lib record).T ≤ (probeP4 lib record).T)
    (hq : ((probeP4 lib record).T - (leptonP4 lib record).T) ^ 2 ≤
      ((probeP4 lib record).X - (leptonP4 lib record).X) ^ 2 +
      ((probeP4 lib record).Y - (leptonP4 lib record).Y) ^ 2 +
      ((probeP4 lib record).Z - (leptonP4 lib record).Z) ^ 2)
    (hD : roundDouble (probeP4 lib record).T = some (probeP4 lib record).T)
    (hRX : squareInRange ((probeP4 lib record).X - (leptonP4 lib record).X))
    (hRY : squareInRange ((probeP4 lib record).Y - (leptonP4 lib record).Y))
    (hRZ : squareInRange ((probeP4 lib record).Z - (leptonP4 lib record).Z))
    (hRT : squareInRange ((probeP4 lib record).T - (leptonP4 lib record).T)) :
    (∃ y : ℚ, FillMCTruth_y_double lib record = some y ∧ 0 ≤ y ∧ y ≤ 1) ∧
    (∃ Q2 : ℚ, FillMCTruth_Q2_double lib record = some Q2 ∧
      -(((probeP4 lib record).T - (leptonP4 lib record).T) ^ 2 / 2 ^ 49) ≤ Q2) ∧
    0 ≤ -1 * (TLorentzVector.sub (probeP4 lib record) (leptonP4 lib record)).M2 := by
  refine ⟨y_rounded_range _ _ hE1 hE2 hE21 hD, Q2_rounded_lower _ _ hRX hRY hRZ hRT hq, ?_⟩
  rw [neg_M2_sub]
  simp only [Q2_from_leptons]
  nlinarith [hq]

theorem C8_rounded_Q2_y_bounds_witness :
    (∃ y : ℚ, FillMCTruth_y_double sampleLib sampleForwardRecord = some y ∧ 0 ≤ y ∧ y ≤ 1) ∧
    (∃ Q2 : ℚ, FillMCTruth_Q2_double sampleLib sampleForwardRecord = some Q2 ∧
      -(((probeP4 sampleLib sampleForwardRecord).T -
        (leptonP4 sampleLib sampleForwardRecord).T) ^ 2 / 2 ^ 49) ≤ Q2) ∧
    0 ≤ -1 * (TLorentzVector.sub (probeP4 sampleLib sampleForwardRecord)
      (leptonP4 sampleLib sampleForwardRecord)).M2 :=
  C8_rounded_Q2_y_bounds sampleLib sampleForwardRecord (by decide!) (by decide!) (by decide!)
    (by decide!) (by decide!) (by decide!) (by decide!) (by decide!) (by decide!)

theorem read_retrieved (v : ℚ) :
    Kinematics.read (if v ≠ flagVal then some v else none) = v := by
  by_cases h : v = flagVal
  · simp [Kinematics.read, h]
  · simp [Kinematics.read, h]

theorem retrieveXclsTag_fields (g : GTruth) :
    (retrieveXclsTag g).Resonance = g.fResNum ∧
    (retrieveXclsTag g).DecayMode = g.fDecayMode ∧
    (retrieveXclsTag g).IsCharmEvent = g.fIsCharm ∧
    (retrieveXclsTag g).CharmHadronPdg = (if g.fIsCharm then g.fCharmHadronPdg else 0) ∧
    (retrieveXclsTag g).IsStrangeEvent = g.fIsStrange ∧
    (retrieveXclsTag g).StrangeHadronPdg =
      (if g.fIsStrange then g.fStrangeHadronPdg else 0) ∧
    (retrieveXclsTag g).NPiPlus = g.fNumPiPlus ∧
    (retrieveXclsTag g).NPi0 = g.fNumPi0 ∧
    (retrieveXclsTag g).NPiMinus = g.fNumPiMinus ∧
    (retrieveXclsTag g).NProtons = g.fNumProton ∧
    (retrieveXclsTag g).NNeutrons = g.fNumNeutron := by
  simp only [retrieveXclsTag, XclsTag.SetCharm, XclsTag.UnsetCharm, XclsTag.SetStrange,
    XclsTag.UnsetStrange, XclsTag.SetNPions, XclsTag.SetNNucleons, XclsTag.SetNRhos,
    apply_ite XclsTag.Resonance, apply_ite XclsTag.DecayMode,
    apply_ite XclsTag.IsCharmEvent, apply_ite XclsTag.CharmHadronPdg,
    apply_ite XclsTag.IsStrangeEvent, apply_ite XclsTag.StrangeHadronPdg,
    apply_ite XclsTag.NPiPlus, apply_ite XclsTag.NPi0, apply_ite XclsTag.NPiMinus,
    apply_ite XclsTag.NProtons, apply_ite XclsTag.NNeutrons, ite_self]
  cases g.fIsCharm <;> cases g.fIsStrange <;> simp

/-- C9: for every neutrino-truth and generator-truth record, `FillGTruth` on the
record rebuilt by `RetrieveGHEP`, into a fresh generator-truth record,
reproduces the stored weight, probability, cross-section, differential
cross-section with its phase-space discriminator, vertex, resonance id, decay
mode, charm and strange flags (and their hadron codes when flagged, 0
otherwise) and the pion and nucleon counts. -/
theorem C9_event_level_round_trip (lib : GenieLib) (m : MCTruth) (g : GTruth) :
    (FillGTruth (RetrieveGHEP lib m g) GTruth.fresh).fweight = g.fweight ∧
    (FillGTruth (RetrieveGHEP lib m g) GTruth.fresh).fprobability = g.fprobability ∧
    (FillGTruth (RetrieveGHEP lib m g) GTruth.fresh).fXsec = g.fXsec ∧
    (FillGTruth (RetrieveGHEP lib m g) GTruth.fresh).fDiffXsec = g.fDiffXsec ∧
    (FillGTruth (RetrieveGHEP lib m g) GTruth.fresh).fGPhaseSpace = g.fGPhaseSpace ∧
    (FillGTruth (RetrieveGHEP lib m g) GTruth.fresh).fVertex = g.fVertex ∧
    (FillGTruth (RetrieveGHEP lib m g) GTruth.fresh).fResNum = g.fResNum ∧
    (FillGTruth (RetrieveGHEP lib m g) GTruth.fresh).fDecayMode = g.fDecayMode ∧
    (FillGTruth (RetrieveGHEP lib m g) GTruth.fresh).fIsCharm = g.fIsCharm ∧
    (FillGTruth (RetrieveGHEP lib m g) GTruth.fresh).fCharmHadronPdg =
      (if g.fIsCharm then g.fCharmHadronPdg else 0) ∧
    (FillGTruth (RetrieveGHEP lib m g) GTruth.fresh).fIsStrange = g.fIsStrange ∧
    (FillGTruth (RetrieveGHEP lib m g) GTruth.fresh).fStrangeHadronPdg =
      (if g.fIsStrange then g.fStrangeHadronPdg else 0) ∧
    (FillGTruth (RetrieveGHEP lib m g) GTruth.fresh).fNumPiPlus = g.fNumPiPlus ∧
    (FillGTruth (RetrieveGHEP lib m g) GTruth.fresh).fNumPi0 = g.fNumPi0 ∧
    (FillGTruth (RetrieveGHEP lib m g) GTruth.fresh).fNumPiMinus = g.fNumPiMinus ∧
    (FillGTruth (RetrieveGHEP lib m g) GTruth.fresh).fNumProton = g.fNumProton ∧
    (FillGTruth (RetrieveGHEP lib m g) GTruth.fresh).fNumNeutron = g.fNumNeutron := by
  obtain ⟨h1, h2, h3, h4, h5, h6, h7, h8, h9, h10, h11⟩ := retrieveXclsTag_fields g
  exact ⟨rfl, rfl, rfl, rfl, rfl, rfl, h1, h2, h3, h4, h5, h6, h7, h8, h9, h10, h11⟩

theorem FillGTruth_kine (record : EventRecord) (truth : GTruth) :
    (FillGTruth record truth).fgX = Kinematics.read record.Summary.Kine.KVSelx ∧
    (FillGTruth record truth).fgY = Kinematics.read record.Summary.Kine.KVSely ∧
    (FillGTruth record truth).fgT =
      (if record.Summary.Kine.KVSelt.isSome then Kinematics.read record.Summary.Kine.KVSelt
        else truth.fgT) ∧
    (FillGTruth record truth).fgW = Kinematics.read record.Summary.Kine.KVSelW ∧
    (FillGTruth record truth).fgQ2 = Kinematics.read record.Summary.Kine.KVSelQ2 ∧
    (FillGTruth record truth).fgq2 = Kinematics.read record.Summary.Kine.KVSelq2 ∧
    (FillGTruth record truth).fgWrun =
      (if record.Summary.Kine.KVW.isSome then Kinematics.read record.Summary.Kine.KVW
        else truth.fgWrun) :=
  ⟨rfl, rfl, rfl, rfl, rfl, rfl, rfl⟩

theorem RetrieveGHEP_Kine (lib : GenieLib) (m : MCTruth) (g : GTruth) :
    (RetrieveGHEP lib m g).Summary.Kine = retrieveKinematics m g := rfl

theorem retrieveKinematics_fields (m : MCTruth) (g : GTruth) :
    (retrieveKinematics m g).KVSelx = (if g.fgX ≠ flagVal then some g.fgX else none) ∧
    (retrieveKinematics m g).KVSely = (if g.fgY ≠ flagVal then some g.fgY else none) ∧
    (retrieveKinematics m g).KVSelt = (if g.fgT ≠ flagVal then some g.fgT else none) ∧
    (retrieveKinematics m g).KVSelW = (if g.fgW ≠ flagVal then some g.fgW else none) ∧
    (retrieveKinematics m g).KVSelQ2 = (if g.fgQ2 ≠ flagVal then some g.fgQ2 else none) ∧
    (retrieveKinematics m g).KVSelq2 = (if g.fgq2 ≠ flagVal then some g.fgq2 else none) ∧
    (retrieveKinematics m g).KVW = (if g.fgWrun ≠ flagVal then some g.fgWrun else none) := by
  unfold retrieveKinematics
  simp only [Kinematics.Setx, Kinematics.Sety, Kinematics.Sett, Kinematics.SetW,
    Kinematics.SetQ2, Kinematics.Setq2, Kinematics.SetFSLeptonP4, Kinematics.SetHadSystP4,
    Kinematics.init, if_true, Bool.false_eq_true, if_false,
    apply_ite Kinematics.KVSelx, apply_ite Kinematics.KVSely, apply_ite Kinematics.KVSelt,
    apply_ite Kinematics.KVSelW, apply_ite Kinematics.KVSelQ2, apply_ite Kinematics.KVSelq2,
    apply_ite Kinematics.KVW, apply_ite Kinematics.FSLeptonP4,
    apply_ite Kinematics.HadSystP4, ite_self]
  cases m.fMCNeutrino.fLepton <;>
  simp only [apply_ite Kinematics.KVSelx, apply_ite Kinematics.KVSely,
    apply_ite Kinematics.KVSelt, apply_ite Kinematics.KVSelW, apply_ite Kinematics.KVSelQ2,
    apply_ite Kinematics.KVSelq2, apply_ite Kinematics.KVW, ite_self, and_self]

theorem read_guarded (v d : ℚ) (hd : d = flagVal) :
    (if (if v ≠ flagVal then some v else none).isSome
      then Kinematics.read (if v ≠ flagVal then some v else none) else d) = v := by
  by_cases h : v = flagVal
  · simp [h, hd]
  · simp [Kinematics.read, h]

/-- C10: for a generator-truth record `g` that `FillGTruth` built from an
interaction record into a fresh record, and every neutrino-truth record,
`RetrieveGHEP` sets each kinematic variable (selected x, y, t, W, Q², q² and
running W) exactly when `g` holds a value different from the sentinel -99999,
and to that value; `FillGTruth` on the reconstruction, into a fresh record,
gives the same `fgX`, `fgY`, `fgT`, `fgW`, `fgQ2`, `fgq2` and `fgWrun` as `g`. -/
theorem C10_kinematic_set_round_trip (lib : GenieLib) (record : EventRecord) (m : MCTruth) :
    ((RetrieveGHEP lib m (FillGTruth record GTruth.fresh)).Summary.Kine.KVSelx =
        if (FillGTruth record GTruth.fresh).fgX ≠ -99999
        then some (FillGTruth record GTruth.fresh).fgX else none) ∧
    ((RetrieveGHEP lib m (FillGTruth record GTruth.fresh)).Summary.Kine.KVSely =
        if (FillGTruth record GTruth.fresh).fgY ≠ -99999
        then some (FillGTruth record GTruth.fresh).fgY else none) ∧
    ((RetrieveGHEP lib m (FillGTruth record GTruth.fresh)).Summary.Kine.KVSelt =
        if (FillGTruth record GTruth.fresh).fgT ≠ -99999
        then some (FillGTruth record GTruth.fresh).fgT else none) ∧
    ((RetrieveGHEP lib m (FillGTruth record GTruth.fresh)).Summary.Kine.KVSelW =
        if (FillGTruth record GTruth.fresh).fgW ≠ -99999
        then some (FillGTruth record GTruth.fresh).fgW else none) ∧
    ((RetrieveGHEP lib m (FillGTruth record GTruth.fresh)).Summary.Kine.KVSelQ2 =
        if (FillGTruth record GTruth.fresh).fgQ2 ≠ -99999
        then some (FillGTruth record GTruth.fresh).fgQ2 else none) ∧
    ((RetrieveGHEP lib m (FillGTruth record GTruth.fresh)).Summary.Kine.KVSelq2 =
        if (FillGTruth record GTruth.fresh).fgq2 ≠ -99999
        then some (FillGTruth record GTruth.fresh).fgq2 else none) ∧
    ((RetrieveGHEP lib m (FillGTruth record GTruth.fresh)).Summary.Kine.KVW =
        if (FillGTruth record GTruth.fresh).fgWrun ≠ -99999
        then some (FillGTruth record GTruth.fresh).fgWrun else none) ∧
    (FillGTruth (RetrieveGHEP lib m (FillGTruth record GTruth.fresh)) GTruth.fresh).fgX =
      (FillGTruth record GTruth.fresh).fgX ∧
    (FillGTruth (RetrieveGHEP lib m (FillGTruth record GTruth.fresh)) GTruth.fresh).fgY =
      (FillGTruth record GTruth.fresh).fgY ∧
    (FillGTruth (RetrieveGHEP lib m (FillGTruth record GTruth.fresh)) GTruth.fresh).fgT =
      (FillGTruth record GTruth.fresh).fgT ∧
    (FillGTruth (RetrieveGHEP lib m (FillGTruth record GTruth.fresh)) GTruth.fresh).fgW =
      (FillGTruth record GTruth.fresh).fgW ∧
    (FillGTruth (RetrieveGHEP lib m (FillGTruth record GTruth.fresh)) GTruth.fresh).fgQ2 =
      (FillGTruth record GTruth.fresh).fgQ2 ∧
    (FillGTruth (RetrieveGHEP lib m (FillGTruth record GTruth.fresh)) GTruth.fresh).fgq2 =
      (FillGTruth record GTruth.fresh).fgq2 ∧
    (FillGTruth (RetrieveGHEP lib m (FillGTruth record GTruth.fresh)) GTruth.fresh).fgWrun =
      (FillGTruth record GTruth.fresh).fgWrun := by
  generalize FillGTruth record GTruth.fresh = g
  obtain ⟨hx, hy, ht, hw, hQ, hq, hr⟩ := FillGTruth_kine (RetrieveGHEP lib m g) GTruth.fresh
  obtain ⟨kx, ky, kt, kw, kQ, kq, kr⟩ := retrieveKinematics_fields m g
  rw [hx, hy, ht, hw, hQ, hq, hr, RetrieveGHEP_Kine, kx, ky, kt, kw, kQ, kq, kr]
  refine ⟨rfl, rfl, rfl, rfl, rfl, rfl, rfl, ?_, ?_, ?_, ?_, ?_, ?_, ?_⟩
  · exact read_retrieved g.fgX
  · exact read_retrieved g.fgY
  · exact read_guarded g.fgT _ rfl
  · exact read_retrieved g.fgW
  · exact read_retrieved g.fgQ2
  · exact read_retrieved g.fgq2
  · exact read_guarded g.fgWrun _ rfl

theorem retrieveParticles_eq (l : List MCParticle) :
    ∀ stack : List TObject,
      retrieveParticles l stack =
        stack ++ l.map (fun mcpart => TObject.ghep (retrieveParticle mcpart)) := by
  induction l with
  | nil => intro stack; simp [retrieveParticles]
  | cons a rest ih =>
    intro stack
    simp [retrieveParticles, ih]

theorem fillParticles_retrieved (lib : GenieLib) (vertex vtxOffset : TLorentzVector)
    (addGenieVtxTime : Bool) (parts : List GHepParticle) :
    ∀ (trackid : Int) (partList : List MCParticle),
      (fillParticles lib vertex vtxOffset addGenieVtxTime trackid (parts.map TObject.ghep)
          partList).map (fun mcpart => TObject.ghep (retrieveParticle mcpart)) =
        partList.map (fun mcpart => TObject.ghep (retrieveParticle mcpart)) ++
          parts.map (fun p => TObject.ghep
            { p with LastMother := -1, FirstDaughter := -1, LastDaughter := -1
                     Polz := match p.Polz with
                       | some polz =>
                         if polz.x ≠ 0 ∨ polz.y ≠ 0 ∨ polz.z ≠ 0 then some polz else none
                       | none => none }) := by
  induction parts with
  | nil => intro trackid partList; simp [fillParticles]
  | cons p ps ih =>
    intro trackid partList
    simp only [List.map_cons, fillParticles, ih, List.map_append, List.map_nil,
      List.append_assoc, List.singleton_append]
    congr 2
    simp only [retrieveParticle, fillParticle]
    cases p.Polz <;> simp

theorem RetrieveGHEP_particles (lib : GenieLib) (m : MCTruth) (g : GTruth) :
    (RetrieveGHEP lib m g).particles =
      m.fPartList.map (fun mcpart => TObject.ghep (retrieveParticle mcpart)) := by
  show retrieveParticles m.fPartList [] = _
  rw [retrieveParticles_eq]
  rfl

theorem round_trip_stack (lib : GenieLib) (record : EventRecord)
    (parts : List GHepParticle) (vtxOffset : TLorentzVector) (truth : MCTruth)
    (genieVersion genieTune : String) (addGenieVtxTime : Bool) (genConfig : ConfigMap)
    (g : GTruth) :
    (RetrieveGHEP lib
        (FillMCTruth lib { record with particles := parts.map TObject.ghep } vtxOffset
          { truth with fPartList := [] } genieVersion genieTune addGenieVtxTime genConfig)
        g).particles =
      parts.map (fun p => TObject.ghep
        { p with LastMother := -1, FirstDaughter := -1, LastDaughter := -1
                 Polz := match p.Polz with
                   | some polz =>
                     if polz.x ≠ 0 ∨ polz.y ≠ 0 ∨ polz.z ≠ 0 then some polz else none
                   | none => none }) := by
  rw [RetrieveGHEP_particles, FillMCTruth_fPartList, fillParticles_retrieved]
  rfl

/-- C11: when the neutrino-truth record is built by `FillMCTruth` into a record
with an empty particle list, `RetrieveGHEP` rebuilds a stack with as many
particles as the source stack, in the same order; the i-th rebuilt particle
has the i-th source particle's species code, status, first-mother index,
four-momentum, rescatter code and nucleus-relative four-position in the
generator's units, and the rebuilt stack is the same for every vertex, offset
and `addGenieVtxTime` flag. -/
theorem C11_particle_stack_round_trip (lib : GenieLib) (record : EventRecord)
    (parts : List GHepParticle) (vtxOffset : TLorentzVector) (truth : MCTruth)
    (genieVersion genieTune : String) (addGenieVtxTime : Bool) (genConfig : ConfigMap)
    (g : GTruth) :
    (RetrieveGHEP lib
        (FillMCTruth lib { record with particles := parts.map TObject.ghep } vtxOffset
          { truth with fPartList := [] } genieVersion genieTune addGenieVtxTime genConfig)
        g).particles.length = parts.length ∧
    (∀ i : Fin parts.length, ∃ q : GHepParticle,
      (RetrieveGHEP lib
          (FillMCTruth lib { record with particles := parts.map TObject.ghep } vtxOffset
            { truth with fPartList := [] } genieVersion genieTune addGenieVtxTime genConfig)
          g).particles[i.1]? = some (TObject.ghep q) ∧
      q.Pdg = (parts.get i).Pdg ∧
      q.Status = (parts.get i).Status ∧
      q.FirstMother = (parts.get i).FirstMother ∧
      q.P4 = (parts.get i).P4 ∧
      q.RescatterCode = (parts.get i).RescatterCode ∧
      q.X4 = (parts.get i).X4) ∧
    (∀ (vertex' vtxOffset' : TLorentzVector) (addGenieVtxTime' : Bool),
      (RetrieveGHEP lib
          (FillMCTruth lib
            { record with particles := parts.map TObject.ghep, Vertex := vertex' }
            vtxOffset' { truth with fPartList := [] } genieVersion genieTune
            addGenieVtxTime' genConfig)
          g).particles =
      (RetrieveGHEP lib
          (FillMCTruth lib { record with particles := parts.map TObject.ghep } vtxOffset
            { truth with fPartList := [] } genieVersion genieTune addGenieVtxTime genConfig)
          g).particles) := by
  refine ⟨?_, ?_, ?_⟩
  · rw [round_trip_stack]
    simp
  · intro i
    rw [round_trip_stack]
    refine ⟨{ parts.get i with
        LastMother := -1, FirstDaughter := -1, LastDaughter := -1
        Polz := match (parts.get i).Polz with
          | some polz => if polz.x ≠ 0 ∨ polz.y ≠ 0 ∨ polz.z ≠ 0 then some polz else none
          | none => none }, ?_, rfl, rfl, rfl, rfl, rfl, rfl⟩
    rw [List.getElem?_map, List.getElem?_eq_getElem i.2]
    rfl
  · intro vertex' vtxOffset' addGenieVtxTime'
    rw [round_trip_stack]
    exact round_trip_stack lib { record with Vertex := vertex' } parts vtxOffset' truth
      genieVersion genieTune addGenieVtxTime' genConfig g

theorem RetrieveGHEP_InitState (lib : GenieLib) (m : MCTruth) (g : GTruth) :
    (RetrieveGHEP lib m g).Summary.InitState =
      (retrieveInitialState lib m g (RetrieveGHEP lib m g).particles).1 := rfl

theorem retrieveInitialState_constructed (lib : GenieLib) (m : MCTruth) (g : GTruth)
    (stack : List TObject) :
    constructedFrom (retrieveInitialState lib m g stack).1
      (lib.InitialState_ctor
        (lib.IonPdgCode (if g.ftgtZ = 0 ∨ g.ftgtA = 0 then (1, 1) else (g.ftgtZ, g.ftgtA)).2
          (if g.ftgtZ = 0 ∨ g.ftgtA = 0 then (1, 1) else (g.ftgtZ, g.ftgtA)).1)
        (if g.fProbePDG = 0 ∨ g.fProbePDG = -1 then 22 else g.fProbePDG)) :=
  ⟨rfl, rfl, rfl, rfl⟩

/-- C12: for a stored target with Z = 0 and A = 0, `RetrieveGHEP` returns a
record whose initial state is the one constructed from the ion code of
(A = 1, Z = 1) and, as probe, from 22 when the stored probe code is 0 or -1 and
from the stored probe code itself otherwise. -/
theorem C12_degenerate_target_and_probe (lib : GenieLib) (m : MCTruth) (g : GTruth)
    (hZ : g.ftgtZ = 0) (hA : g.ftgtA = 0) :
    ((g.fProbePDG = 0 ∨ g.fProbePDG = -1) →
      constructedFrom (RetrieveGHEP lib m g).Summary.InitState
        (lib.InitialState_ctor (lib.IonPdgCode 1 1) 22)) ∧
    ((g.fProbePDG ≠ 0 ∧ g.fProbePDG ≠ -1) →
      constructedFrom (RetrieveGHEP lib m g).Summary.InitState
        (lib.InitialState_ctor (lib.IonPdgCode 1 1) g.fProbePDG)) := by
  have h := retrieveInitialState_constructed lib m g (RetrieveGHEP lib m g).particles
  rw [← RetrieveGHEP_InitState] at h
  simp only [hZ, hA, true_or, if_true] at h
  constructor
  · intro hp
    simpa only [if_pos hp] using h
  · intro hp
    have hn : ¬ (g.fProbePDG = 0 ∨ g.fProbePDG = -1) := by
      rintro (h0 | h1)
      · exact hp.1 h0
      · exact hp.2 h1
    simpa only [if_neg hn] using h

theorem C12_degenerate_target_and_probe_witness :
    (RetrieveGHEP sampleLib sampleTruth { GTruth.fresh with fProbePDG := 0 }).Summary.InitState.ProbePdg
        = 22 ∧
    (RetrieveGHEP sampleLib sampleTruth { GTruth.fresh with fProbePDG := 0 }).Summary.InitState.Tgt.Pdg
        = 1000010010 ∧
    (RetrieveGHEP sampleLib sampleTruth { GTruth.fresh with fProbePDG := 0 }).Summary.InitState.Tgt.Z
        = 1 ∧
    (RetrieveGHEP sampleLib sampleTruth { GTruth.fresh with fProbePDG := 0 }).Summary.InitState.Tgt.A
        = 1 :=
  (C12_degenerate_target_and_probe sampleLib sampleTruth { GTruth.fresh with fProbePDG := 0 }
    rfl rfl).1 (Or.inl rfl)

/-- C13: in the record returned by `RetrieveGHEP`, the hit-nucleon four-momentum
is that of the rebuilt stack's hit nucleon when there is one and `(0,0,0,0)`
otherwise; the target four-momentum is that of the stack's target nucleus when
there is one and otherwise `(0,0,0,Erest)`, with `Erest` the tabulated mass of
the stored target code when that code is not 0 and the table knows it, and 0
otherwise; the probe four-momentum is that of the stack's probe when there is
one and `(0,0,0,0)` otherwise. -/
theorem C13_initial_state_four_momenta (lib : GenieLib) (m : MCTruth) (g : GTruth) :
    (RetrieveGHEP lib m g).Summary.InitState.Tgt.HitNucP4 =
      (match lib.HitNucleon (RetrieveGHEP lib m g).particles with
        | some hitnucleon => hitnucleon.P4
        | none => ⟨0, 0, 0, 0⟩) ∧
    (RetrieveGHEP lib m g).Summary.InitState.TgtP4 =
      (match lib.TargetNucleus (RetrieveGHEP lib m g).particles with
        | some target => target.P4
        | none => ⟨0, 0, 0,
            if g.ftgtPDG ≠ 0 then (lib.PDGLibrary_Find g.ftgtPDG).getD 0 else 0⟩) ∧
    (RetrieveGHEP lib m g).Summary.InitState.ProbeP4 =
      (match lib.Probe (RetrieveGHEP lib m g).particles with
        | some probe => probe.P4
        | none => ⟨0, 0, 0, 0⟩) := by
  refine ⟨?_, ?_, ?_⟩
  · show (retrieveHitNucP4 lib m.fMCNeutrino.fHitNuc (RetrieveGHEP lib m g).particles).1 = _
    unfold retrieveHitNucP4
    cases lib.HitNucleon (RetrieveGHEP lib m g).particles <;> rfl
  · show (retrieveTgtP4 lib g (RetrieveGHEP lib m g).particles).1 = _
    unfold retrieveTgtP4
    cases lib.TargetNucleus (RetrieveGHEP lib m g).particles with
    | some target => rfl
    | none =>
      by_cases h : g.ftgtPDG = 0
      · simp [h]
      · simp only [ne_eq, h, not_false_eq_true, if_true]
        cases lib.PDGLibrary_Find g.ftgtPDG <;> rfl
  · show (retrieveProbeP4 lib (RetrieveGHEP lib m g).particles).1 = _
    unfold retrieveProbeP4
    cases lib.Probe (RetrieveGHEP lib m g).particles <;> rfl

theorem RetrieveGHEP_log_diagnostics (lib : GenieLib) (m : MCTruth) (g : GTruth) :
    (RetrieveGHEP_log lib m g).2 =
      (retrieveHitNucP4 lib m.fMCNeutrino.fHitNuc (RetrieveGHEP lib m g).particles).2 ++
      (retrieveTgtP4 lib g (RetrieveGHEP lib m g).particles).2 ++
      (retrieveProbeP4 lib (RetrieveGHEP lib m g).particles).2 := rfl

theorem sample_no_hit_nucleon_diagnostic :
    sampleLib.HitNucleon (RetrieveGHEP sampleLib sampleTruth sampleGTruthCarbon).particles
      = none ∧
    (retrieveHitNucP4 sampleLib sampleTruth.fMCNeutrino.fHitNuc
      (RetrieveGHEP sampleLib sampleTruth sampleGTruthCarbon).particles).2 = [] :=
  ⟨rfl, rfl⟩

/-- C14 (as stated, refuted): with an empty rebuilt stack, stored struck-nucleon
code 0 and stored target code carbon-12, the hit-nucleon four-momentum is
substituted without any diagnostic of that step, so not every substitution
has a diagnostic. -/
theorem C14_silent_substitution :
    ¬ everySubstitutionHasDiagnostic sampleLib sampleTruth sampleGTruthCarbon := by
  intro h
  exact h.1 sample_no_hit_nucleon_diagnostic.1 sample_no_hit_nucleon_diagnostic.2

/-- C14 (amended): the diagnostics of `RetrieveGHEP` are those of its three
substitution steps, in order; the hit-nucleon step emits one exactly when the
stack has no hit nucleon and the stored struck-nucleon code is not 0, the
target step exactly when the stack has no target nucleus and the stored target
code is 0, the probe step exactly when the stack has no probe. -/
theorem C14_diagnostics_emitted_iff (lib : GenieLib) (m : MCTruth) (g : GTruth) :
    (RetrieveGHEP_log lib m g).2 =
      (retrieveHitNucP4 lib m.fMCNeutrino.fHitNuc (RetrieveGHEP lib m g).particles).2 ++
      (retrieveTgtP4 lib g (RetrieveGHEP lib m g).particles).2 ++
      (retrieveProbeP4 lib (RetrieveGHEP lib m g).particles).2 ∧
    ((retrieveHitNucP4 lib m.fMCNeutrino.fHitNuc (RetrieveGHEP lib m g).particles).2 ≠ [] ↔
      lib.HitNucleon (RetrieveGHEP lib m g).particles = none ∧ m.fMCNeutrino.fHitNuc ≠ 0) ∧
    ((retrieveTgtP4 lib g (RetrieveGHEP lib m g).particles).2 ≠ [] ↔
      lib.TargetNucleus (RetrieveGHEP lib m g).particles = none ∧ g.ftgtPDG = 0) ∧
    ((retrieveProbeP4 lib (RetrieveGHEP lib m g).particles).2 ≠ [] ↔
      lib.Probe (RetrieveGHEP lib m g).particles = none) := by
  refine ⟨rfl, ?_, ?_, ?_⟩
  · unfold retrieveHitNucP4
    cases lib.HitNucleon (RetrieveGHEP lib m g).particles with
    | some n => simp
    | none => by_cases h : m.fMCNeutrino.fHitNuc = 0 <;> simp [h]
  · unfold retrieveTgtP4
    cases lib.TargetNucleus (RetrieveGHEP lib m g).particles with
    | some n => simp
    | none => by_cases h : g.ftgtPDG = 0 <;> simp [h]
  · unfold retrieveProbeP4
    cases lib.Probe (RetrieveGHEP lib m g).particles <;> simp

theorem FillMCFlux_blender_concrete (d : GFluxI) (mcflux : MCFlux) (first : Bool)
    (h : concreteShape d = true) :
    FillMCFlux (GFluxI.blender d) mcflux first = FillMCFlux d mcflux first := by
  cases d with
  | other dname => simp [concreteShape] at h
  | numi g => rfl
  | simple g => rfl
  | dk2nu g => rfl
  | blender inner => simp [concreteShape] at h

/-- C15 (amended): for a driver of a concrete recognized shape (NuMI ntuple, simple
ntuple, dk2nu) wrapped in at most one blender layer, the generic `FillMCFlux`
produces the same flux-truth record as for the unwrapped driver. -/
theorem C15_dispatch_through_one_blender (N : Nat) (d : GFluxI) (mcflux : MCFlux)
    (first : Bool) (hShape : concreteShape d = true) (hN : N ≤ 1) :
    (FillMCFlux (wrapInBlender N d) mcflux first).mcflux =
      (FillMCFlux d mcflux first).mcflux := by
  interval_cases N
  · rfl
  · show (FillMCFlux (GFluxI.blender d) mcflux first).mcflux = _
    rw [FillMCFlux_blender_concrete d mcflux first hShape]

theorem C15_dispatch_through_one_blender_witness :
    (FillMCFlux (wrapInBlender 1 (GFluxI.numi sampleNuMIDriver)) samplePriorFlux true).mcflux =
      (FillMCFlux (GFluxI.numi sampleNuMIDriver) samplePriorFlux true).mcflux :=
  C15_dispatch_through_one_blender 1 (GFluxI.numi sampleNuMIDriver) samplePriorFlux true rfl
    (le_refl 1)

/-- C15 (as stated, refuted): for the NuMI driver wrapped two blender layers deep
the generic `FillMCFlux` does not produce the record of the unwrapped call: the
caller's record keeps run 7 where the unwrapped call stores run 1. -/
theorem C15_two_blender_layers_differ :
    (FillMCFlux (wrapInBlender 2 (GFluxI.numi sampleNuMIDriver)) samplePriorFlux true).mcflux ≠
      (FillMCFlux (GFluxI.numi sampleNuMIDriver) samplePriorFlux true).mcflux := by
  intro h
  have h2 := congrArg MCFlux.frun h
  have h3 : (7 : Int) = 1 := h2
  exact absurd h3 (by decide)

/-- C16: evaluation of the generic `FillMCFlux` on a driver without adapter, with
a caller record that still holds run 7: the record comes back as it was, with
run 7, not with the run number -999 of a reset record. -/
theorem C16_unrecognized_driver_leaves_record :
    (FillMCFlux (GFluxI.other "genie::flux::GAtmoFlux") samplePriorFlux true).mcflux.frun = 7 ∧
    (samplePriorFlux.Reset).frun = -999 ∧
    (FillMCFlux (GFluxI.other "genie::flux::GAtmoFlux") samplePriorFlux true).mcflux ≠
      samplePriorFlux.Reset := by
  refine ⟨rfl, rfl, ?_⟩
  intro h
  have h2 := congrArg MCFlux.frun h
  have h3 : (7 : Int) = -999 := h2
  exact absurd h3 (by decide)

theorem ConfigMap.lookup_append_singleton (m : ConfigMap) (k v k' : String) :
    ConfigMap.lookup (m ++ [(k, v)]) k' =
      match ConfigMap.lookup m k' with
      | some w => some w
      | none => if k = k' then some v else none := by
  unfold ConfigMap.lookup
  rw [List.find?_append]
  cases h : List.find? (fun e => e.1 == k') m with
  | some e => simp
  | none =>
    by_cases hk : k = k'
    · simp [hk]
    · simp [hk]

theorem ConfigMap.lookup_emplace (m : ConfigMap) (k v k' : String) :
    ConfigMap.lookup (ConfigMap.emplace m k v) k' =
      if k' = k then
        (match ConfigMap.lookup m k with
          | some w => some w
          | none => some v)
      else ConfigMap.lookup m k' := by
  unfold ConfigMap.emplace
  cases h : ConfigMap.lookup m k with
  | some w =>
    by_cases hk : k' = k
    · simp [hk, h]
    · simp [hk]
  | none =>
    simp only [Option.isSome_none, Bool.false_eq_true, if_false]
    rw [ConfigMap.lookup_append_singleton]
    by_cases hk : k' = k
    · subst hk
      simp [h]
    · have hk2 : ¬ k = k' := fun e => hk e.symm
      simp only [hk, hk2, if_false]
      cases ConfigMap.lookup m k' <;> rfl

/-- C18 (amended): the generator configuration stored by `FillMCTruth` maps the
key "tune" to the caller's own entry under "tune" when `genConfig` has one and to
the supplied tune name otherwise, and every other key to what `genConfig` maps
it to. -/
theorem C18_generator_config (lib : GenieLib) (record : EventRecord)
    (vtxOffset : TLorentzVector) (truth : MCTruth) (genieVersion genieTune : String)
    (addGenieVtxTime : Bool) (genConfig : ConfigMap) (k : String) :
    ConfigMap.lookup
      (FillMCTruth lib record vtxOffset truth genieVersion genieTune addGenieVtxTime
        genConfig).fGenInfo.generatorConfig k =
      if k = "tune" then
        (match ConfigMap.lookup genConfig "tune" with
          | some own => some own
          | none => some genieTune)
      else ConfigMap.lookup genConfig k :=
  ConfigMap.lookup_emplace genConfig "tune" genieTune k

/-- C18 (as stated, refuted): when the caller's configuration already has an
entry under "tune", the stored configuration does not map "tune" to the
supplied tune name. -/
theorem C18_existing_tune_entry_kept :
    ConfigMap.lookup
      (FillMCTruth sampleLib sampleQERecord ⟨0, 0, 0, 0⟩ sampleTruth "3.4.0" "G18_10a_02_11a"
        false [("tune", "G00_00a_00_000")]).fGenInfo.generatorConfig "tune" ≠
      some "G18_10a_02_11a" := by
  show ConfigMap.lookup (ConfigMap.emplace [("tune", "G00_00a_00_000")] "tune"
    "G18_10a_02_11a") "tune" ≠ some "G18_10a_02_11a"
  rw [ConfigMap.lookup_emplace]
  decide

/-- C19 (amended): the record after `FillMCTruth` depends on the prior content of
the caller's record only through its particle list, and for a stack of N
particle entries the particle list after the call is the prior list followed
by the N translated particles. -/
theorem C19_output_depends_on_prior_particles_only (lib : GenieLib) (record : EventRecord)
    (parts : List GHepParticle) (vtxOffset : TLorentzVector) (truth1 truth2 : MCTruth)
    (genieVersion genieTune : String) (addGenieVtxTime : Bool) (genConfig : ConfigMap) :
    FillMCTruth lib { record with particles := parts.map TObject.ghep } vtxOffset truth1
        genieVersion genieTune addGenieVtxTime genConfig =
      FillMCTruth lib { record with particles := parts.map TObject.ghep } vtxOffset
        { truth2 with fPartList := truth1.fPartList }
        genieVersion genieTune addGenieVtxTime genConfig ∧
    ∃ emitted : List MCParticle,
      (FillMCTruth lib { record with particles := parts.map TObject.ghep } vtxOffset truth1
        genieVersion genieTune addGenieVtxTime genConfig).fPartList =
          truth1.fPartList ++ emitted ∧
      emitted.length = parts.length := by
  refine ⟨rfl, ?_⟩
  obtain ⟨em, h1, h2, _⟩ :=
    fillParticles_map_ghep lib record.Vertex vtxOffset addGenieVtxTime parts 0
      truth1.fPartList
  exact ⟨em, by rw [FillMCTruth_fPartList]; exact h1, h2⟩

/-- C19 (as stated, refuted): called with a record that still holds one particle,
`FillMCTruth` returns a different record than when called with an empty one:
six particles for the five of the stack. -/
theorem C19_prior_particles_survive :
    FillMCTruth sampleLib sampleQERecord ⟨0, 0, 0, 0⟩ sampleTruthUsed "3.4.0"
        "G18_10a_02_11a" false [] ≠
      FillMCTruth sampleLib sampleQERecord ⟨0, 0, 0, 0⟩ sampleTruth "3.4.0"
        "G18_10a_02_11a" false [] ∧
    (FillMCTruth sampleLib sampleQERecord ⟨0, 0, 0, 0⟩ sampleTruthUsed "3.4.0"
        "G18_10a_02_11a" false []).fPartList.length = 6 ∧
    sampleQERecord.particles.length = 5 := by
  have h6 : (FillMCTruth sampleLib sampleQERecord ⟨0, 0, 0, 0⟩ sampleTruthUsed "3.4.0"
        "G18_10a_02_11a" false []).fPartList.length = 6 := rfl
  have h5 : (FillMCTruth sampleLib sampleQERecord ⟨0, 0, 0, 0⟩ sampleTruth "3.4.0"
        "G18_10a_02_11a" false []).fPartList.length = 5 := rfl
  refine ⟨?_, h6, rfl⟩
  intro h
  rw [h, h5] at h6
  exact absurd h6 (by decide)

/-- C20: evaluation of `FillGTruth` on a record none of whose kinematic variables
is set, with a caller record that holds selected x = 0.5 and selected
t = 0.25: the unset selected x is read and written (the field becomes the
sentinel -99999), while the guarded selected t is left as it was. -/
theorem C20_unset_variable_is_written :
    sampleNuERecord.Summary.Kine.KVSelx = none ∧
    sampleNuERecord.Summary.Kine.KVSelt = none ∧
    (FillGTruth sampleNuERecord sampleGTruthUsed).fgX = -99999 ∧
    sampleGTruthUsed.fgX = 0.5 ∧
    (FillGTruth sampleNuERecord sampleGTruthUsed).fgT = 0.25 :=
  ⟨rfl, rfl, rfl, rfl, rfl⟩

/-- C21 (amended): `FillGTruth` overwrites every field of the caller's record
except that the selected t is written only when the record's kinematics has
it set, and the running W only when that is set; the record after the call
depends on the prior content only through `fgT` and `fgWrun`, each of which
survives exactly when its variable is unset. -/
theorem C21_output_depends_on_prior_t_and_Wrun_only (record : EventRecord)
    (truth1 truth2 : GTruth) :
    FillGTruth record truth1 =
      FillGTruth record { truth2 with fgT := truth1.fgT, fgWrun := truth1.fgWrun } ∧
    (FillGTruth record truth1).fgT =
      (if record.Summary.Kine.KVSelt.isSome then Kinematics.read record.Summary.Kine.KVSelt
        else truth1.fgT) ∧
    (FillGTruth record truth1).fgWrun =
      (if record.Summary.Kine.KVW.isSome then Kinematics.read record.Summary.Kine.KVW
        else truth1.fgWrun) :=
  ⟨rfl, rfl, rfl⟩

/-- C21 (as stated, refuted): for a record without selected t, `FillGTruth` called
with a record that holds selected t = 0.25 and called with a fresh record give
different records: the first keeps 0.25. -/
theorem C21_prior_selected_t_survives :
    FillGTruth sampleNuERecord sampleGTruthUsed ≠ FillGTruth sampleNuERecord GTruth.fresh := by
  intro h
  have h2 : (0.25 : ℚ) = flagVal := congrArg GTruth.fgT h
  norm_num [flagVal] at h2

/-- C24: evaluation of the NuMI pass-through adapter on an info with the original
particle codes (`pcodes = 0`, wrong) and the original units (`units = 0`,
right): no diagnostic is emitted, and the fields are copied. -/
theorem C24_wrong_codes_alone_not_reported :
    samplePassThroughWrongCodes.pcodes ≠ 1 ∧
    (FillMCFlux_PassThroughInfo samplePassThroughWrongCodes 735 samplePriorFlux).2 = [] ∧
    (FillMCFlux_PassThroughInfo samplePassThroughWrongCodes 735 samplePriorFlux).1.frun = 1 ∧
    (FillMCFlux_PassThroughInfo samplePassThroughWrongCodes 735 samplePriorFlux).1.fevtno = 42 := by
  refine ⟨by decide, ?_, rfl, rfl⟩
  simp [FillMCFlux_PassThroughInfo, samplePassThroughWrongCodes]

/-- C25: the initial state rebuilt by `RetrieveGHEP` is the one constructed from
the ion code of the stored (A, Z) when both are non-zero and from the ion code
of (1, 1) when at least one of them is 0, so also for Z = 0, A = 1; the stored
target species code has no influence on it. -/
theorem C25_target_from_stored_Z_A (lib : GenieLib) (m : MCTruth) (g : GTruth) :
    constructedFrom (RetrieveGHEP lib m g).Summary.InitState
      (lib.InitialState_ctor
        (if g.ftgtZ = 0 ∨ g.ftgtA = 0 then lib.IonPdgCode 1 1
          else lib.IonPdgCode g.ftgtA g.ftgtZ)
        (if g.fProbePDG = 0 ∨ g.fProbePDG = -1 then 22 else g.fProbePDG)) ∧
    constructedFrom
      (RetrieveGHEP lib m { g with ftgtZ := 0, ftgtA := 1 }).Summary.InitState
      (lib.InitialState_ctor (lib.IonPdgCode 1 1)
        (if g.fProbePDG = 0 ∨ g.fProbePDG = -1 then 22 else g.fProbePDG)) ∧
    ∀ tgtPDG : Int,
      constructedFrom (RetrieveGHEP lib m { g with ftgtPDG := tgtPDG }).Summary.InitState
        (lib.InitialState_ctor
          (if g.ftgtZ = 0 ∨ g.ftgtA = 0 then lib.IonPdgCode 1 1
            else lib.IonPdgCode g.ftgtA g.ftgtZ)
          (if g.fProbePDG = 0 ∨ g.fProbePDG = -1 then 22 else g.fProbePDG)) := by
  have key : ∀ g' : GTruth,
      constructedFrom (RetrieveGHEP lib m g').Summary.InitState
        (lib.InitialState_ctor
          (if g'.ftgtZ = 0 ∨ g'.ftgtA = 0 then lib.IonPdgCode 1 1
            else lib.IonPdgCode g'.ftgtA g'.ftgtZ)
          (if g'.fProbePDG = 0 ∨ g'.fProbePDG = -1 then 22 else g'.fProbePDG)) := by
    intro g'
    have h := retrieveInitialState_constructed lib m g' (RetrieveGHEP lib m g').particles
    rw [← RetrieveGHEP_InitState] at h
    by_cases hz : g'.ftgtZ = 0 ∨ g'.ftgtA = 0
    · simpa only [if_pos hz] using h
    · simpa only [if_neg hz] using h
  refine ⟨key g, ?_, fun tgtPDG => key { g with ftgtPDG := tgtPDG }⟩
  have h := key { g with ftgtZ := 0, ftgtA := 1 }
  simpa using h

/-- C26: for a record with no struck nucleon whose process is coherent-elastic
and not coherent-production, with no higher-priority predicate holding,
`FillMCTruth` stores x = -1 and W = -1 and the coherent-elastic mode. -/
theorem C26_coherent_elastic_no_x_W (lib : GenieLib) (record : EventRecord)
    (vtxOffset : TLorentzVector) (truth : MCTruth) (genieVersion genieTune : String)
    (addGenieVtxTime : Bool) (genConfig : ConfigMap)
    (hNucleon : lib.HitNucleon record.particles = none)
    (hCohEl : record.Summary.ProcInfo.IsCoherentElastic = true)
    (hCohProd : record.Summary.ProcInfo.IsCoherentProduction = false)
    (hQE : record.Summary.ProcInfo.IsQuasiElastic = false)
    (hDIS : record.Summary.ProcInfo.IsDeepInelastic = false)
    (hRes : record.Summary.ProcInfo.IsResonant = false) :
    (FillMCTruth lib record vtxOffset truth genieVersion genieTune addGenieVtxTime
        genConfig).fMCNeutrino.fX = -1 ∧
    (FillMCTruth lib record vtxOffset truth genieVersion genieTune addGenieVtxTime
        genConfig).fMCNeutrino.fW = -1 ∧
    (FillMCTruth lib record vtxOffset truth genieVersion genieTune addGenieVtxTime
        genConfig).fMCNeutrino.fMode = int_type.kCohElastic := by
  refine ⟨?_, ?_, ?_⟩
  · rw [FillMCTruth_fX, hNucleon, hCohProd]
    simp
  · rw [FillMCTruth_fW, hNucleon, hCohProd]
    simp
  · rw [FillMCTruth_fMode]
    simp [interactionMode, hQE, hDIS, hRes, hCohProd, hCohEl]

theorem C26_coherent_elastic_no_x_W_witness :
    (FillMCTruth sampleLib sampleCohElRecord ⟨0, 0, 0, 0⟩ sampleTruth "3.4.0" "G18_10a_02_11a"
        false []).fMCNeutrino.fX = -1 ∧
    (FillMCTruth sampleLib sampleCohElRecord ⟨0, 0, 0, 0⟩ sampleTruth "3.4.0" "G18_10a_02_11a"
        false []).fMCNeutrino.fW = -1 ∧
    (FillMCTruth sampleLib sampleCohElRecord ⟨0, 0, 0, 0⟩ sampleTruth "3.4.0" "G18_10a_02_11a"
        false []).fMCNeutrino.fMode = int_type.kCohElastic :=
  C26_coherent_elastic_no_x_W sampleLib sampleCohElRecord ⟨0, 0, 0, 0⟩ sampleTruth "3.4.0"
    "G18_10a_02_11a" false [] (by decide) (by decide) (by decide) (by decide) (by decide)
    (by decide)

theorem auxDblLoop_pairs (pairs : List (String × ℚ)) :
    ∀ flux : MCFlux,
      auxDblLoop (pairs.map Prod.fst) (pairs.map Prod.snd) flux =
        pairs.foldl (fun z p => auxDblStep p.1 p.2 z) flux := by
  induction pairs with
  | nil => intro flux; rfl
  | cons p ps ih => intro flux; simp only [List.map_cons, auxDblLoop, ih, List.foldl_cons]

theorem auxIntLoop_pairs (pairs : List (String × Int)) :
    ∀ flux : MCFlux,
      auxIntLoop (pairs.map Prod.fst) (pairs.map Prod.snd) flux =
        pairs.foldl (fun z p => auxIntStep p.1 p.2 z) flux := by
  induction pairs with
  | nil => intro flux; rfl
  | cons p ps ih => intro flux; simp only [List.map_cons, auxIntLoop, ih, List.foldl_cons]

theorem auxDblStep_unknown (name : String) (value : ℚ) (flux : MCFlux)
    (h : name ∉ recognizedAuxDbl) : auxDblStep name value flux = flux := by
  simp only [recognizedAuxDbl, List.mem_cons, List.mem_singleton, List.not_mem_nil, or_false,
    not_or] at h
  obtain ⟨h1, h2, h3, h4, h5, h6, h7⟩ := h
  unfold auxDblStep
  rw [if_neg (Ne.symm h1), if_neg (Ne.symm h2), if_neg (Ne.symm h3), if_neg (Ne.symm h4),
    if_neg (Ne.symm h5), if_neg (Ne.symm h6), if_neg (Ne.symm h7), if_neg (Ne.symm h7)]

theorem auxIntStep_unknown (name : String) (value : Int) (flux : MCFlux)
    (h : name ∉ recognizedAuxInt) : auxIntStep name value flux = flux := by
  simp only [recognizedAuxInt, List.mem_cons, List.mem_singleton, List.not_mem_nil, or_false,
    not_or] at h
  obtain ⟨h1, h2⟩ := h
  unfold auxIntStep
  rw [if_neg (Ne.symm h1), if_neg (Ne.symm h2)]

theorem auxDblStep_comm (x y : String × ℚ) (flux : MCFlux)
    (h : x.1 = y.1 → x.2 = y.2) :
    auxDblStep y.1 y.2 (auxDblStep x.1 x.2 flux) =
      auxDblStep x.1 x.2 (auxDblStep y.1 y.2 flux) := by
  unfold auxDblStep
  congr 1 <;> dsimp only <;> split_ifs with h1 h2 h2 <;>
    first
    | rfl
    | exact (h (h2.symm.trans h1)).symm

theorem auxIntStep_comm (x y : String × Int) (flux : MCFlux)
    (h : x.1 = y.1 → x.2 = y.2) :
    auxIntStep y.1 y.2 (auxIntStep x.1 x.2 flux) =
      auxIntStep x.1 x.2 (auxIntStep y.1 y.2 flux) := by
  unfold auxIntStep
  congr 1 <;> dsimp only <;> split_ifs with h1 h2 h2 <;>
    first
    | rfl
    | exact (h (h2.symm.trans h1)).symm

theorem auxDbl_foldl_perm (l l' : List (String × ℚ)) (hp : l.Perm l')
    (hv : ∀ x ∈ l, ∀ y ∈ l, x.1 = y.1 → x.2 = y.2) (flux : MCFlux) :
    l.foldl (fun z p => auxDblStep p.1 p.2 z) flux =
      l'.foldl (fun z p => auxDblStep p.1 p.2 z) flux :=
  hp.foldl_eq' (fun x hx y hy z => auxDblStep_comm x y z (hv x hx y hy)) flux

theorem auxInt_foldl_perm (l l' : List (String × Int)) (hp : l.Perm l')
    (hv : ∀ x ∈ l, ∀ y ∈ l, x.1 = y.1 → x.2 = y.2) (flux : MCFlux) :
    l.foldl (fun z p => auxIntStep p.1 p.2 z) flux =
      l'.foldl (fun z p => auxIntStep p.1 p.2 z) flux :=
  hp.foldl_eq' (fun x hx y hy z => auxIntStep_comm x y z (hv x hx y hy)) flux

theorem FillMCFlux_GSimpleNtp_pairs_eq (nflux_entry : GSimpleNtpEntry)
    (nflux_numi : Option GSimpleNtpNuMI) (auxdbl : List (String × ℚ))
    (auxint : List (String × Int)) (flux : MCFlux) :
    FillMCFlux_GSimpleNtp_pairs nflux_entry nflux_numi auxdbl auxint flux =
      auxint.foldl (fun z p => auxIntStep p.1 p.2 z)
        (auxdbl.foldl (fun z p => auxDblStep p.1 p.2 z)
          (FillMCFlux_GSimpleNtp nflux_entry nflux_numi none none flux)) := by
  show auxIntLoop _ _ (auxDblLoop _ _ _) = _
  rw [auxDblLoop_pairs, auxIntLoop_pairs]
  rfl

theorem auxDblStep_comm_recognized (x y : String × ℚ) (flux : MCFlux)
    (h : x.1 ∈ recognizedAuxDbl → x.1 = y.1 → x.2 = y.2) :
    auxDblStep y.1 y.2 (auxDblStep x.1 x.2 flux) =
      auxDblStep x.1 x.2 (auxDblStep y.1 y.2 flux) := by
  by_cases hx : x.1 ∈ recognizedAuxDbl
  · exact auxDblStep_comm x y flux (h hx)
  · rw [auxDblStep_unknown x.1 x.2 flux hx, auxDblStep_unknown x.1 x.2 _ hx]

theorem auxIntStep_comm_recognized (x y : String × Int) (flux : MCFlux)
    (h : x.1 ∈ recognizedAuxInt → x.1 = y.1 → x.2 = y.2) :
    auxIntStep y.1 y.2 (auxIntStep x.1 x.2 flux) =
      auxIntStep x.1 x.2 (auxIntStep y.1 y.2 flux) := by
  by_cases hx : x.1 ∈ recognizedAuxInt
  · exact auxIntStep_comm x y flux (h hx)
  · rw [auxIntStep_unknown x.1 x.2 flux hx, auxIntStep_unknown x.1 x.2 _ hx]

theorem auxDbl_foldl_insert_unknown (pre post : List (String × ℚ)) (name : String)
    (value : ℚ) (h : name ∉ recognizedAuxDbl) (flux : MCFlux) :
    (pre ++ (name, value) :: post).foldl (fun z p => auxDblStep p.1 p.2 z) flux =
      (pre ++ post).foldl (fun z p => auxDblStep p.1 p.2 z) flux := by
  rw [List.foldl_append, List.foldl_append, List.foldl_cons]
  show List.foldl _ (auxDblStep name value _) post = _
  rw [auxDblStep_unknown name value _ h]

theorem auxInt_foldl_insert_unknown (pre post : List (String × Int)) (name : String)
    (value : Int) (h : name ∉ recognizedAuxInt) (flux : MCFlux) :
    (pre ++ (name, value) :: post).foldl (fun z p => auxIntStep p.1 p.2 z) flux =
      (pre ++ post).foldl (fun z p => auxIntStep p.1 p.2 z) flux := by
  rw [List.foldl_append, List.foldl_append, List.foldl_cons]
  show List.foldl _ (auxIntStep name value _) post = _
  rw [auxIntStep_unknown name value _ h]

/-- C22 (amended): when no recognized name is paired with two different values,
the simple-ntuple adapter gives the same flux-truth record for every
permutation of the auxiliary double pairs and of the auxiliary int pairs; and
for all lists, inserting or removing a pair whose name is not recognized
leaves the record unchanged. -/
theorem C22_aux_channels (nflux_entry : GSimpleNtpEntry)
    (nflux_numi : Option GSimpleNtpNuMI) (auxdbl auxdbl' : List (String × ℚ))
    (auxint auxint' : List (String × Int)) (flux : MCFlux)
    (hdbl : auxdbl.Perm auxdbl') (hint : auxint.Perm auxint')
    (hdblValues : ∀ x ∈ auxdbl, ∀ y ∈ auxdbl,
      x.1 ∈ recognizedAuxDbl → x.1 = y.1 → x.2 = y.2)
    (hintValues : ∀ x ∈ auxint, ∀ y ∈ auxint,
      x.1 ∈ recognizedAuxInt → x.1 = y.1 → x.2 = y.2) :
    FillMCFlux_GSimpleNtp_pairs nflux_entry nflux_numi auxdbl auxint flux =
      FillMCFlux_GSimpleNtp_pairs nflux_entry nflux_numi auxdbl' auxint' flux ∧
    (∀ (pre post : List (String × ℚ)) (ints : List (String × Int)) (name : String)
        (value : ℚ), name ∉ recognizedAuxDbl →
      FillMCFlux_GSimpleNtp_pairs nflux_entry nflux_numi (pre ++ (name, value) :: post)
          ints flux =
        FillMCFlux_GSimpleNtp_pairs nflux_entry nflux_numi (pre ++ post) ints flux) ∧
    (∀ (dbls : List (String × ℚ)) (pre post : List (String × Int)) (name : String)
        (value : Int), name ∉ recognizedAuxInt →
      FillMCFlux_GSimpleNtp_pairs nflux_entry nflux_numi dbls
          (pre ++ (name, value) :: post) flux =
        FillMCFlux_GSimpleNtp_pairs nflux_entry nflux_numi dbls (pre ++ post) flux) := by
  refine ⟨?_, ?_, ?_⟩
  · rw [FillMCFlux_GSimpleNtp_pairs_eq, FillMCFlux_GSimpleNtp_pairs_eq]
    rw [hdbl.foldl_eq' (fun x hx y hy z =>
      auxDblStep_comm_recognized x y z (hdblValues x hx y hy))]
    rw [hint.foldl_eq' (fun x hx y hy z =>
      auxIntStep_comm_recognized x y z (hintValues x hx y hy))]
  · intro pre post ints name value h
    rw [FillMCFlux_GSimpleNtp_pairs_eq, FillMCFlux_GSimpleNtp_pairs_eq,
      auxDbl_foldl_insert_unknown pre post name value h]
  · intro dbls pre post name value h
    rw [FillMCFlux_GSimpleNtp_pairs_eq, FillMCFlux_GSimpleNtp_pairs_eq,
      auxInt_foldl_insert_unknown pre post name value h]

theorem C22_aux_channels_witness :
    FillMCFlux_GSimpleNtp_pairs sampleSimpleEntry none [("necm", 1), ("nimpwt", 2)]
        [("tgen", 3)] samplePriorFlux =
      FillMCFlux_GSimpleNtp_pairs sampleSimpleEntry none [("nimpwt", 2), ("necm", 1)]
        [("tgen", 3)] samplePriorFlux :=
  (C22_aux_channels sampleSimpleEntry none [("necm", 1), ("nimpwt", 2)]
    [("nimpwt", 2), ("necm", 1)] [("tgen", 3)] [("tgen", 3)] samplePriorFlux
    (List.Perm.swap _ _ _) (List.Perm.refl _)
    (by
      intro x hx y hy _ hxy
      simp only [List.mem_cons, List.mem_singleton, List.not_mem_nil, or_false] at hx hy
      rcases hx with rfl | rfl <;> rcases hy with rfl | rfl <;>
        first
        | rfl
        | exact absurd hxy (by decide))
    (by
      intro x hx y hy _ _
      simp only [List.mem_singleton] at hx hy
      rw [hx, hy])).1

/-- C22 (as stated, refuted): with the recognized name "necm" given twice with
different values, exchanging the two pairs changes the flux-truth record: the
later pair wins. -/
theorem C22_duplicate_name_order_matters :
    ([("necm", 1), ("necm", 2)] : List (String × ℚ)).Perm [("necm", 2), ("necm", 1)] ∧
    FillMCFlux_GSimpleNtp_pairs sampleSimpleEntry none [("necm", 1), ("necm", 2)] []
        samplePriorFlux ≠
      FillMCFlux_GSimpleNtp_pairs sampleSimpleEntry none [("necm", 2), ("necm", 1)] []
        samplePriorFlux := by
  refine ⟨List.Perm.swap _ _ _, ?_⟩
  intro h
  have h2 : (2 : ℚ) = 1 := congrArg MCFlux.fnecm h
  norm_num at h2

end evgb
